import Mathlib

/-!
# Aether reverb: parameter layer, port binding, per-sample signal path and ring buffer

A shallow embedding of `src/aether_dsp.hpp`, `src/aether_dsp.cpp` and
`src/ringbuffer.hpp`.

* `float` is embedded twice.  The control flow, the calls into the
  sub-components, the port binding and the relations between values are
  stated on rationals with exact arithmetic (`DSP`, `Object.render_sample`).
  What depends on NaN, infinities, overflow or rounding, namely the final mix,
  the clamping of the targets, the range of the parameters and the smoothing
  trajectory, is stated on IEEE-754 binary32 (`F32`, `DSP32`, `Object.mix32`):
  round to nearest with ties to even, subnormals, overflow to infinity, every
  C++ operation rounded on its own (no fused multiply-add, no wider
  intermediate precision).  The sign of zero and the payload of a NaN are not
  represented.
* The classes `Delay`, `Lowpass6dB`, `Highpass6dB`, `MultitapDelay`,
  `AllpassDiffuser` and `LateRev` are declared in headers that are not part
  of the sources at hand.  Every call into them is embedded as a `Call`
  value; a `Components σ` record interprets calls on an abstract state `σ`.
* The table `parameter_infos` (header `parameters.hpp`) and the libm
  functions are parameters of the embedding.
-/

namespace Aether

/-! ## Parameter names and the `Parameters<T>` block -/

/-- Field names of `DSP::Parameters<T>`, in declaration order. -/
inductive Param where
  | mix
  | dry_level
  | predelay_level
  | early_level
  | late_level
  | interpolate
  | width
  | predelay
  | early_low_cut_enabled
  | early_low_cut_cutoff
  | early_high_cut_enabled
  | early_high_cut_cutoff
  | early_taps
  | early_tap_length
  | early_tap_mix
  | early_tap_decay
  | early_diffusion_stages
  | early_diffusion_delay
  | early_diffusion_mod_depth
  | early_diffusion_mod_rate
  | early_diffusion_feedback
  | late_order
  | late_delay_lines
  | late_delay
  | late_delay_mod_depth
  | late_delay_mod_rate
  | late_delay_line_feedback
  | late_diffusion_stages
  | late_diffusion_delay
  | late_diffusion_mod_depth
  | late_diffusion_mod_rate
  | late_diffusion_feedback
  | late_low_shelf_enabled
  | late_low_shelf_cutoff
  | late_low_shelf_gain
  | late_high_shelf_enabled
  | late_high_shelf_cutoff
  | late_high_shelf_gain
  | late_high_cut_enabled
  | late_high_cut_cutoff
  | seed_crossmix
  | tap_seed
  | early_diffusion_seed
  | delay_seed
  | late_diffusion_seed
  | early_diffusion_drive
  | late_diffusion_drive
  deriving DecidableEq, Repr

/-- The fields of `Parameters<T>` in memory order: `data()[i]` is the `i`-th
entry of this list. -/
def Param.fields : List Param :=
  [.mix, .dry_level, .predelay_level, .early_level, .late_level, .interpolate,
   .width, .predelay,
   .early_low_cut_enabled, .early_low_cut_cutoff, .early_high_cut_enabled,
   .early_high_cut_cutoff,
   .early_taps, .early_tap_length, .early_tap_mix, .early_tap_decay,
   .early_diffusion_stages, .early_diffusion_delay, .early_diffusion_mod_depth,
   .early_diffusion_mod_rate, .early_diffusion_feedback,
   .late_order, .late_delay_lines,
   .late_delay, .late_delay_mod_depth, .late_delay_mod_rate, .late_delay_line_feedback,
   .late_diffusion_stages, .late_diffusion_delay, .late_diffusion_mod_depth,
   .late_diffusion_mod_rate, .late_diffusion_feedback,
   .late_low_shelf_enabled, .late_low_shelf_cutoff, .late_low_shelf_gain,
   .late_high_shelf_enabled, .late_high_shelf_cutoff, .late_high_shelf_gain,
   .late_high_cut_enabled, .late_high_cut_cutoff,
   .seed_crossmix, .tap_seed, .early_diffusion_seed, .delay_seed, .late_diffusion_seed,
   .early_diffusion_drive, .late_diffusion_drive]

/-- Index of a field inside `Parameters<T>` (the `idx` of `operator[]`). -/
def Param.idx (p : Param) : Nat := Param.fields.indexOf p

/-- The block `Parameters<T>`: one `T` per field. -/
abbrev Parameters (T : Type) := Param → T

/-- Value of `Parameters<T>::size()`, `sizeof(Parameters<T>) / sizeof(T)`. -/
def Parameters.size : Nat := Param.fields.length

/-- Value of `Parameters<T>::operator[]` at a raw index; `none` past the last field. -/
def Parameters.index {T : Type} (P : Parameters T) (i : Nat) : Option T :=
  (Param.fields.get? i).map P

/-- One entry of the table `parameter_infos` (header `parameters.hpp`, not among
the sources): the declared range and default of a port. -/
structure ParamInfo where
  min : ℚ
  max : ℚ
  dflt : ℚ

/-- The entry `parameter_infos[p + 6]` that the engine reads for parameter `p`. -/
def info_of (parameter_infos : Nat → ParamInfo) (p : Param) : ParamInfo :=
  parameter_infos (p.idx + 6)

/-- The libm functions and constant used by the engine (`std::exp`, `std::pow`,
`constants::pi_v<float>`), as functions on the embedded floats. -/
structure FloatLib where
  exp : ℚ → ℚ
  pow : ℚ → ℚ → ℚ
  pi : ℚ

/-- Embedding of `std::clamp(v, lo, hi)` in exact arithmetic:
`(v < lo) ? lo : (hi < v) ? hi : v`.  On `float`, NaN included, see `clamp32`. -/
def clamp (v lo hi : ℚ) : ℚ :=
  if v < lo then lo else if hi < v then hi else v

/-- Embedding of `math::lerp(a, b, t)` in exact arithmetic, taken as
`a + t * (b - a)`.  On `float` see `lerp32`. -/
def lerp (a b t : ℚ) : ℚ := a + t * (b - a)

/-- Embedding of `dBtoGain`: `std::pow(10.f, db / 20.f)`. -/
def dBtoGain (F : FloatLib) (db : ℚ) : ℚ := F.pow 10 (db / 20)

/-- Embedding of `static_cast<uint32_t>(x)` for a float `x`: truncation toward zero,
reduced to 32 bits (the cast is undefined for values outside the `uint32_t` range). -/
def to_uint32 (x : ℚ) : Nat :=
  if 0 ≤ x then (Int.toNat (Rat.floor x)) % 2 ^ 32 else 0

/-! ## Calls into the sub-components -/

/-- The two channel engines: members `m_l_*` and `m_r_*` of `DSP`. -/
inductive Chan where
  | l
  | r
  deriving DecidableEq, Repr

/-- The setter member functions that `DSP::apply_parameters` invokes, named
by owning member and function. -/
inductive Setter where
  | highpass_set_cutoff
  | lowpass_set_cutoff
  | multitap_set_decay
  | multitap_set_seed_crossmix
  | multitap_set_seed
  | early_diffuser_set_drive
  | early_diffuser_set_delay
  | early_diffuser_set_mod_depth
  | early_diffuser_set_mod_rate
  | early_diffuser_set_seed_crossmix
  | early_diffuser_set_seed
  | late_rev_set_seed_crossmix
  | late_rev_set_delay_lines
  | late_rev_set_delay
  | late_rev_set_delay_mod_depth
  | late_rev_set_delay_mod_rate
  | late_rev_set_delay_feedback
  | late_rev_set_delay_seed
  | late_rev_set_diffusion_drive
  | late_rev_set_diffusion_delay
  | late_rev_set_diffusion_mod_depth
  | late_rev_set_diffusion_mod_rate
  | late_rev_set_diffusion_seed
  | late_rev_set_low_shelf_cutoff
  | late_rev_set_low_shelf_gain
  | late_rev_set_high_shelf_cutoff
  | late_rev_set_high_shelf_gain
  | late_rev_set_high_cut_cutoff
  deriving DecidableEq, Repr

/-- Argument of a setter: a `float` or a `uint32_t`. -/
inductive Arg where
  | f32 (x : ℚ)
  | u32 (n : Nat)
  deriving DecidableEq, Repr

/-- Embedding of `AllpassDiffuser<T>::PushInfo`. -/
structure DiffuserPushInfo where
  stages : Nat
  feedback : ℚ
  interpolate : Bool
  deriving DecidableEq, Repr

/-- Embedding of `Delayline::Filters::PushInfo`. -/
structure DampingPushInfo where
  ls_enable : Bool
  hs_enable : Bool
  hc_enable : Bool
  deriving DecidableEq, Repr

/-- Embedding of `Delayline::PushInfo`; `order` is the integer the `Order` enum
is cast from. -/
structure LatePushInfo where
  order : Nat
  diffuser_info : DiffuserPushInfo
  damping_info : DampingPushInfo
  deriving DecidableEq, Repr

/-- A call from the engine into one of its sub-components, with the
arguments handed over. -/
inductive Call where
  | set (ch : Chan) (m : Setter) (a : Arg)
  | predelay_push (ch : Chan) (x : ℚ) (delay : Nat)
  | highpass_push (ch : Chan) (x : ℚ)
  | lowpass_push (ch : Chan) (x : ℚ)
  | multitap_push (ch : Chan) (x : ℚ) (taps : Nat) (length : ℚ)
  | early_diffuser_push (ch : Chan) (x : ℚ) (info : DiffuserPushInfo)
  | late_rev_push (ch : Chan) (x : ℚ) (info : LatePushInfo)
  deriving DecidableEq, Repr

/-- Interpretation of the sub-component classes on a state `σ` holding all of
them: `construct rate` is the state the member constructors build, `exec` the
state after a call and `ret` the value the call returns (for the `push` calls). -/
structure Components (σ : Type) where
  construct : ℚ → σ
  exec : Call → σ → σ
  ret : Call → σ → ℚ

/-- Perform one call: the returned value and the next component state. -/
def Components.call {σ : Type} (K : Components σ) (c : Call) (s : σ) : ℚ × σ :=
  (K.ret c s, K.exec c s)

/-- Perform a sequence of calls in order, returned values dropped. -/
def Components.run {σ : Type} (K : Components σ) (cs : List Call) (s : σ) : σ :=
  cs.foldl (fun st c => K.exec c st) s

/-- Components `K` instrumented with the list of the calls received so far. -/
def Components.traced {σ : Type} (K : Components σ) : Components (σ × List Call) where
  construct := fun rate => (K.construct rate, [])
  exec := fun c s => (K.exec c s.1, s.2 ++ [c])
  ret := fun c s => K.ret c s.1

/-- The components that only record the calls they receive, every `push`
returning `0`. -/
def Components.logging : Components (List Call) where
  construct := fun _ => []
  exec := fun c s => s ++ [c]
  ret := fun _ _ => 0

/-! ## The engine state -/

/-- Embedding of class `DSP`: the four parameter blocks, the ports (a null
pointer is `none`, a bound pointer is `some v` with `v` the value readable
through it), the sample rate and the state of the sub-components. -/
structure DSP (σ : Type) where
  params : Parameters ℚ
  param_targets : Parameters ℚ
  param_smooth : Parameters ℚ
  params_modified : Parameters Bool
  param_ports : Param → Option ℚ
  m_rate : ℚ
  comps : σ

/-- Time constants assigned to `param_smooth` by the constructor before the
conversion loop; fields not assigned keep the `0` of `= {}`. -/
def smooth_time : Param → ℚ
  | .mix => 50
  | .dry_level => 50
  | .predelay_level => 50
  | .early_level => 50
  | .late_level => 50
  | .width => 50
  | .predelay => 5000
  | .early_tap_mix => 50
  | .early_tap_decay => 25
  | .early_tap_length => 4000
  | .early_diffusion_delay => 5000
  | .early_diffusion_mod_depth => 1000
  | .early_diffusion_feedback => 500
  | .late_delay => 5000
  | .late_delay_mod_depth => 1000
  | .late_delay_line_feedback => 50
  | .late_diffusion_delay => 5000
  | .late_diffusion_mod_depth => 2000
  | .late_diffusion_feedback => 500
  | .seed_crossmix => 5000
  | _ => 0

/-- Body of the last constructor loop: a nonzero time constant becomes
`exp(-2 * pi / (0.0001 * smooth * rate))`, a zero one stays `0`. -/
def smooth_coeff (F : FloatLib) (rate smooth : ℚ) : ℚ :=
  if smooth ≠ 0 then F.exp (-2 * F.pi / (0.0001 * smooth * rate)) else smooth

/-- Embedding of the constructor `DSP::DSP(rate)`.  The last loop rewrites each
entry of `param_smooth` in place from the time constant assigned to that entry. -/
def DSP.construct {σ : Type} (F : FloatLib) (K : Components σ)
    (parameter_infos : Nat → ParamInfo) (rate : ℚ) : DSP σ where
  params := Param.fields.foldl
    (fun v p => Function.update v p (info_of parameter_infos p).dflt) (fun _ => 0)
  param_targets := Param.fields.foldl
    (fun v p => Function.update v p (info_of parameter_infos p).dflt) (fun _ => 0)
  param_smooth := Param.fields.foldl
    (fun v p => Function.update v p (smooth_coeff F rate (smooth_time p))) smooth_time
  params_modified := Param.fields.foldl
    (fun v p => Function.update v p true) (fun _ => false)
  param_ports := fun _ => none
  m_rate := rate
  comps := K.construct rate

/-- The value `param_ports[p] ? *param_ports[p] : parameter_infos[p + 6].dflt`. -/
def port_value {σ : Type} (parameter_infos : Nat → ParamInfo) (d : DSP σ) (p : Param) : ℚ :=
  match d.param_ports p with
  | some v => v
  | none => (info_of parameter_infos p).dflt

/-- Embedding of `DSP::update_parameter_targets`: the loop over the fields,
each iteration storing the clamped port value in `param_targets[p]`. -/
def DSP.update_parameter_targets {σ : Type} (parameter_infos : Nat → ParamInfo)
    (d : DSP σ) : DSP σ :=
  { d with
    param_targets := Param.fields.foldl
      (fun t p => Function.update t p
        (clamp (port_value parameter_infos d p)
          (info_of parameter_infos p).min (info_of parameter_infos p).max))
      d.param_targets }

/-- The two statements `m_l_X.f(a); m_r_X.f(a);` of one `if` block of
`apply_parameters` whose setter takes the same argument on both channels. -/
def both (m : Setter) (a : Arg) : List Call :=
  [Call.set Chan.l m a, Call.set Chan.r m a]

/-- The argument `1.f - crossmix` handed to the left member, with
`crossmix = params.seed_crossmix / 200.f`. -/
def crossmix_left (seed_crossmix : ℚ) : ℚ := 1 - seed_crossmix / 200

/-- The argument `0.f + crossmix` handed to the right member, with
`crossmix = params.seed_crossmix / 200.f`. -/
def crossmix_right (seed_crossmix : ℚ) : ℚ := 0 + seed_crossmix / 200

/-- The two statements `m_l_X.set_seed_crossmix(1.f - crossmix);
m_r_X.set_seed_crossmix(0.f + crossmix);` of a `seed_crossmix` block. -/
def crossmix_calls (m : Setter) (seed_crossmix : ℚ) : List Call :=
  [Call.set Chan.l m (Arg.f32 (crossmix_left seed_crossmix)),
   Call.set Chan.r m (Arg.f32 (crossmix_right seed_crossmix))]

/-- An `if(params_modified.X) { ... }` block: its calls when the flag is set. -/
def when_modified (flag : Bool) (cs : List Call) : List Call :=
  if flag then cs else []

/-- The value `params.X == -12 ? 0 : dBtoGain(params.X)` of the two drive blocks. -/
def drive_gain (F : FloatLib) (db : ℚ) : ℚ :=
  if db = -12 then 0 else dBtoGain F db

/-- The setter calls of `DSP::apply_parameters`, in source order. -/
def DSP.apply_parameters_calls {σ : Type} (F : FloatLib) (d : DSP σ) : List Call :=
  let m := d.params_modified
  let v := d.params
  -- Early reflections: filters
  when_modified (m .early_low_cut_cutoff)
    (both .highpass_set_cutoff (.f32 (v .early_low_cut_cutoff)))
  ++ when_modified (m .early_high_cut_cutoff)
    (both .lowpass_set_cutoff (.f32 (v .early_high_cut_cutoff)))
  -- multitap delay
  ++ when_modified (m .early_tap_decay)
    (both .multitap_set_decay (.f32 (v .early_tap_decay)))
  ++ when_modified (m .seed_crossmix)
    (crossmix_calls .multitap_set_seed_crossmix (v .seed_crossmix))
  ++ when_modified (m .tap_seed)
    (both .multitap_set_seed (.u32 (to_uint32 (v .tap_seed))))
  -- diffuser
  ++ when_modified (m .early_diffusion_drive)
    (both .early_diffuser_set_drive (.f32 (drive_gain F (v .early_diffusion_drive))))
  ++ when_modified (m .early_diffusion_delay)
    (both .early_diffuser_set_delay (.f32 (d.m_rate * v .early_diffusion_delay / 1000)))
  ++ when_modified (m .early_diffusion_mod_depth)
    (both .early_diffuser_set_mod_depth
      (.f32 (d.m_rate * v .early_diffusion_mod_depth / 1000)))
  ++ when_modified (m .early_diffusion_mod_rate)
    (both .early_diffuser_set_mod_rate (.f32 (v .early_diffusion_mod_rate / d.m_rate)))
  ++ when_modified (m .seed_crossmix)
    (crossmix_calls .early_diffuser_set_seed_crossmix (v .seed_crossmix))
  ++ when_modified (m .early_diffusion_seed)
    (both .early_diffuser_set_seed (.u32 (to_uint32 (v .early_diffusion_seed))))
  -- Late reverberations: general
  ++ when_modified (m .seed_crossmix)
    (crossmix_calls .late_rev_set_seed_crossmix (v .seed_crossmix))
  ++ when_modified (m .late_delay_lines)
    (both .late_rev_set_delay_lines (.u32 (to_uint32 (v .late_delay_lines))))
  -- modulated delay
  ++ when_modified (m .late_delay)
    (both .late_rev_set_delay (.f32 (d.m_rate * v .late_delay / 1000)))
  ++ when_modified (m .late_delay_mod_depth)
    (both .late_rev_set_delay_mod_depth (.f32 (d.m_rate * v .late_delay_mod_depth / 1000)))
  ++ when_modified (m .late_delay_mod_rate)
    (both .late_rev_set_delay_mod_rate (.f32 (v .late_delay_mod_rate / d.m_rate)))
  ++ when_modified (m .late_delay_line_feedback)
    (both .late_rev_set_delay_feedback (.f32 (v .late_delay_line_feedback)))
  ++ when_modified (m .delay_seed)
    (both .late_rev_set_delay_seed (.u32 (to_uint32 (v .delay_seed))))
  -- diffuser
  ++ when_modified (m .late_diffusion_drive)
    (both .late_rev_set_diffusion_drive (.f32 (drive_gain F (v .late_diffusion_drive))))
  ++ when_modified (m .late_diffusion_delay)
    (both .late_rev_set_diffusion_delay (.f32 (d.m_rate * v .late_diffusion_delay / 1000)))
  ++ when_modified (m .late_diffusion_mod_depth)
    (both .late_rev_set_diffusion_mod_depth
      (.f32 (d.m_rate * v .late_diffusion_mod_depth / 1000)))
  ++ when_modified (m .late_diffusion_mod_rate)
    (both .late_rev_set_diffusion_mod_rate (.f32 (v .late_diffusion_mod_rate / d.m_rate)))
  ++ when_modified (m .late_diffusion_seed)
    (both .late_rev_set_diffusion_seed (.u32 (to_uint32 (v .late_diffusion_seed))))
  -- filters
  ++ when_modified (m .late_low_shelf_cutoff)
    (both .late_rev_set_low_shelf_cutoff (.f32 (v .late_low_shelf_cutoff)))
  ++ when_modified (m .late_low_shelf_gain)
    (both .late_rev_set_low_shelf_gain (.f32 (dBtoGain F (v .late_low_shelf_gain))))
  ++ when_modified (m .late_high_shelf_cutoff)
    (both .late_rev_set_high_shelf_cutoff (.f32 (v .late_high_shelf_cutoff)))
  ++ when_modified (m .late_high_shelf_gain)
    (both .late_rev_set_high_shelf_gain (.f32 (dBtoGain F (v .late_high_shelf_gain))))
  ++ when_modified (m .late_high_cut_cutoff)
    (both .late_rev_set_high_cut_cutoff (.f32 (v .late_high_cut_cutoff)))

/-- Embedding of `DSP::apply_parameters`: the setter calls are performed on the
sub-components; the parameter blocks are not written. -/
def DSP.apply_parameters {σ : Type} (F : FloatLib) (K : Components σ) (d : DSP σ) : DSP σ :=
  { d with comps := K.run (d.apply_parameters_calls F) d.comps }

/-- One iteration of the loop of `DSP::update_parameters` on the pair
(`params`, `params_modified`), in exact arithmetic.  On `float` see
`smooth_step32`. -/
def smooth_step (targets smooth : Parameters ℚ)
    (st : Parameters ℚ × Parameters Bool) (p : Param) : Parameters ℚ × Parameters Bool :=
  let new_value := targets p - smooth p * (targets p - st.1 p)
  (Function.update st.1 p new_value, Function.update st.2 p (decide (new_value ≠ st.1 p)))

/-- The loop of `DSP::update_parameters`, before `apply_parameters` is called. -/
def DSP.smooth_parameters {σ : Type} (d : DSP σ) : DSP σ :=
  let r := Param.fields.foldl (smooth_step d.param_targets d.param_smooth)
    (d.params, d.params_modified)
  { d with params := r.1, params_modified := r.2 }

/-- Embedding of `DSP::update_parameters`: the smoothing loop, then
`apply_parameters`. -/
def DSP.update_parameters {σ : Type} (F : FloatLib) (K : Components σ) (d : DSP σ) : DSP σ :=
  (d.smooth_parameters).apply_parameters F K

/-! ## The per-sample signal path of `Object::operator()` -/

/-- Values computed in one iteration of the sample loop, after
`update_parameters`: the taps of the three stages, the two output samples and
the component state. -/
structure SampleResult (σ : Type) where
  predelay_in : ℚ × ℚ
  predelay_out : ℚ × ℚ
  multitap_in : ℚ × ℚ
  early_out : ℚ × ℚ
  late_out : ℚ × ℚ
  out_left : ℚ
  out_right : ℚ
  comps : σ

/-- The `AllpassDiffuser<float>::PushInfo info` that the sample loop builds for
the early diffusers: `stages`, `feedback` and `interpolate = true`. -/
def Object.early_diffuser_info {σ : Type} (d : DSP σ) : DiffuserPushInfo :=
  { stages := to_uint32 (d.params .early_diffusion_stages),
    feedback := d.params .early_diffusion_feedback,
    interpolate := true }

/-- The `Delayline::PushInfo push_info` that the sample loop builds for the late
networks from `diffuser_info`, `damping_info` and the order. -/
def Object.late_push_info {σ : Type} (d : DSP σ) : LatePushInfo :=
  { order := to_uint32 (d.params .late_order),
    diffuser_info :=
      { stages := to_uint32 (d.params .late_diffusion_stages),
        feedback := d.params .late_diffusion_feedback,
        interpolate := decide (d.params .interpolate > 0) },
    damping_info :=
      { ls_enable := decide (d.params .late_low_shelf_enabled > 0),
        hs_enable := decide (d.params .late_high_shelf_enabled > 0),
        hc_enable := decide (d.params .late_high_cut_enabled > 0) } }

/-- The body of the sample loop of `Object::operator()` after the call of
`dsp.update_parameters()`: dry, predelay, early reflections, late
reverberations and the final mix, for the input samples `dry_left`,
`dry_right`, in exact arithmetic.  The output arithmetic on `float` is
`Object.mix32`. -/
def Object.render_sample {σ : Type} (K : Components σ) (d : DSP σ)
    (dry_left dry_right : ℚ) : SampleResult σ :=
  -- Dry
  let dry_level := d.params .dry_level / 100
  let out_left0 := dry_level * dry_left
  let out_right0 := dry_level * dry_right
  -- Predelay
  let predelay_level := d.params .predelay_level / 100
  let width := 1 / 2 - d.params .width / 200
  let pre_in_left := dry_left + width * (dry_right - dry_left)
  let pre_in_right := dry_right - width * (dry_right - dry_left)
  let delay := to_uint32 (d.params .predelay / 1000 * d.m_rate)
  let c1 := K.call (.predelay_push .l pre_in_left delay) d.comps
  let c2 := K.call (.predelay_push .r pre_in_right delay) c1.2
  let predelay_left := c1.1
  let predelay_right := c2.1
  let out_left1 := out_left0 + predelay_level * predelay_left
  let out_right1 := out_right0 + predelay_level * predelay_right
  -- Early reflections
  let early_level := d.params .early_level / 100
  let hp : (ℚ × ℚ) × σ :=
    if d.params .early_low_cut_enabled > 0 then
      let a := K.call (.highpass_push .l predelay_left) c2.2
      let b := K.call (.highpass_push .r predelay_right) a.2
      ((a.1, b.1), b.2)
    else ((predelay_left, predelay_right), c2.2)
  let lp : (ℚ × ℚ) × σ :=
    if d.params .early_high_cut_enabled > 0 then
      let a := K.call (.lowpass_push .l hp.1.1) hp.2
      let b := K.call (.lowpass_push .r hp.1.2) a.2
      ((a.1, b.1), b.2)
    else hp
  let taps := to_uint32 (d.params .early_taps)
  let length := d.params .early_tap_length / 1000 * d.m_rate
  let m1 := K.call (.multitap_push .l lp.1.1 taps length) lp.2
  let m2 := K.call (.multitap_push .r lp.1.2 taps length) m1.2
  let tap_mix := d.params .early_tap_mix / 100
  let tapped_left := lp.1.1 + tap_mix * (m1.1 - lp.1.1)
  let tapped_right := lp.1.2 + tap_mix * (m2.1 - lp.1.2)
  let info := Object.early_diffuser_info d
  let e1 := K.call (.early_diffuser_push .l tapped_left info) m2.2
  let e2 := K.call (.early_diffuser_push .r tapped_right info) e1.2
  let early_left := e1.1
  let early_right := e2.1
  let out_left2 := out_left1 + early_level * early_left
  let out_right2 := out_right1 + early_level * early_right
  -- Late reverberations
  let late_level := d.params .late_level / 100
  let push_info := Object.late_push_info d
  let l1 := K.call (.late_rev_push .l early_left push_info) e2.2
  let l2 := K.call (.late_rev_push .r early_right push_info) l1.2
  let late_left := l1.1
  let late_right := l2.1
  let out_left3 := out_left2 + late_level * late_left
  let out_right3 := out_right2 + late_level * late_right
  -- Mix
  let mix := d.params .mix / 100
  { predelay_in := (pre_in_left, pre_in_right),
    predelay_out := (predelay_left, predelay_right),
    multitap_in := lp.1,
    early_out := (early_left, early_right),
    late_out := (late_left, late_right),
    out_left := lerp dry_left out_left3 mix,
    out_right := lerp dry_right out_right3 mix,
    comps := l2.2 }

/-- One iteration of the sample loop of `Object::operator()`:
`dsp.update_parameters()` followed by the signal path.  Returns the two
samples written to the output channels and the engine state. -/
def Object.process_sample {σ : Type} (F : FloatLib) (K : Components σ) (d : DSP σ)
    (dry_left dry_right : ℚ) : (ℚ × ℚ) × DSP σ :=
  let d1 := d.update_parameters F K
  let r := Object.render_sample K d1 dry_left dry_right
  ((r.out_left, r.out_right), { d1 with comps := r.comps })

/-- Embedding of `Object::operator()(n_samples)`: the targets are refreshed once,
then every input pair of the block is processed in order; `n_samples` is the
length of `audio_in`.  Returns the block written to the (distinct) output
channels and the engine state. -/
def Object.operator_call {σ : Type} (F : FloatLib) (K : Components σ)
    (parameter_infos : Nat → ParamInfo) (d : DSP σ) (audio_in : List (ℚ × ℚ)) :
    List (ℚ × ℚ) × DSP σ :=
  audio_in.foldl
    (fun acc x =>
      let r := Object.process_sample F K acc.2 x.1 x.2
      (acc.1 ++ [r.1], r.2))
    ([], d.update_parameter_targets parameter_infos)

/-- The engine state over the plain components underlying a traced state. -/
def DSP.forget_trace {σ : Type} (d : DSP (σ × List Call)) : DSP σ where
  params := d.params
  param_targets := d.param_targets
  param_smooth := d.param_smooth
  params_modified := d.params_modified
  param_ports := d.param_ports
  m_rate := d.m_rate
  comps := d.comps.1

/-! ## Ring buffer -/

/-- Embedding of `Ringbuffer<T>`: the cursor `end`, the field `size` and the
heap array `buf` as the list of its slots. -/
structure Ringbuffer (T : Type) where
  /-- The field `end` of the source. -/
  cursor : Nat
  size : Nat
  buf : List T

/-- Embedding of `Ringbuffer::clear()`: `std::fill_n(buf, size, T())`. -/
def Ringbuffer.clear {T : Type} [Zero T] (rb : Ringbuffer T) : Ringbuffer T :=
  { rb with buf := List.replicate rb.size 0 ++ rb.buf.drop rb.size }

/-- Embedding of `Ringbuffer(size_t sz)`: `size{sz}`, `buf{new T[sz]}`, `end = 0`,
then `clear()`.  The `sz` fresh slots of `new T[sz]` are all overwritten by
`clear()`, so their initial content (here `0`) does not matter. -/
def Ringbuffer.construct {T : Type} [Zero T] (sz : Nat) : Ringbuffer T :=
  Ringbuffer.clear { cursor := 0, size := sz, buf := List.replicate sz 0 }

/-- Embedding of the default constructor `Ringbuffer() : Ringbuffer(0)`. -/
def Ringbuffer.default_construct {T : Type} [Zero T] : Ringbuffer T :=
  Ringbuffer.construct 0

/-- The cursor after the first two statements of `push`, `++end;
end -= (end >= size ? size : 0);`, in `size_t` arithmetic; this is the index
at which `push` stores. -/
def Ringbuffer.push_index {T : Type} (rb : Ringbuffer T) : Nat :=
  let e := (rb.cursor + 1) % 2 ^ 64
  (e + 2 ^ 64 - (if e ≥ rb.size then rb.size else 0)) % 2 ^ 64

/-- Embedding of `Ringbuffer::push(value)`.  The store `buf[end] = value` is
defined only for an index inside the array; a store outside it yields `none`. -/
def Ringbuffer.push {T : Type} (rb : Ringbuffer T) (value : T) : Option (Ringbuffer T) :=
  if rb.push_index < rb.buf.length then
    some { rb with cursor := rb.push_index, buf := rb.buf.set rb.push_index value }
  else none

/-- Push the values of a list in order, stopping at the first undefined store. -/
def Ringbuffer.push_all {T : Type} (rb : Ringbuffer T) : List T → Option (Ringbuffer T)
  | [] => some rb
  | x :: xs => (rb.push x).bind (fun rb1 => rb1.push_all xs)

/-- Well-formed ring buffer: `buf` has `size` slots and `size` fits a `size_t`. -/
def Ringbuffer.wf {T : Type} (rb : Ringbuffer T) : Prop :=
  rb.buf.length = rb.size ∧ rb.size < 2 ^ 64

/-! ## Which parameter guards which setter, and which member a call addresses -/

/-- The parameter named by the `if(params_modified.X)` that encloses the call of
a setter in `apply_parameters`; the block reads `params.X` for the argument. -/
def Setter.param : Setter → Param
  | .highpass_set_cutoff => .early_low_cut_cutoff
  | .lowpass_set_cutoff => .early_high_cut_cutoff
  | .multitap_set_decay => .early_tap_decay
  | .multitap_set_seed_crossmix => .seed_crossmix
  | .multitap_set_seed => .tap_seed
  | .early_diffuser_set_drive => .early_diffusion_drive
  | .early_diffuser_set_delay => .early_diffusion_delay
  | .early_diffuser_set_mod_depth => .early_diffusion_mod_depth
  | .early_diffuser_set_mod_rate => .early_diffusion_mod_rate
  | .early_diffuser_set_seed_crossmix => .seed_crossmix
  | .early_diffuser_set_seed => .early_diffusion_seed
  | .late_rev_set_seed_crossmix => .seed_crossmix
  | .late_rev_set_delay_lines => .late_delay_lines
  | .late_rev_set_delay => .late_delay
  | .late_rev_set_delay_mod_depth => .late_delay_mod_depth
  | .late_rev_set_delay_mod_rate => .late_delay_mod_rate
  | .late_rev_set_delay_feedback => .late_delay_line_feedback
  | .late_rev_set_delay_seed => .delay_seed
  | .late_rev_set_diffusion_drive => .late_diffusion_drive
  | .late_rev_set_diffusion_delay => .late_diffusion_delay
  | .late_rev_set_diffusion_mod_depth => .late_diffusion_mod_depth
  | .late_rev_set_diffusion_mod_rate => .late_diffusion_mod_rate
  | .late_rev_set_diffusion_seed => .late_diffusion_seed
  | .late_rev_set_low_shelf_cutoff => .late_low_shelf_cutoff
  | .late_rev_set_low_shelf_gain => .late_low_shelf_gain
  | .late_rev_set_high_shelf_cutoff => .late_high_shelf_cutoff
  | .late_rev_set_high_shelf_gain => .late_high_shelf_gain
  | .late_rev_set_high_cut_cutoff => .late_high_cut_cutoff

/-- The member objects of one channel of `DSP`: `m_X_predelay`,
`m_X_early_filters.highpass`, `m_X_early_filters.lowpass`, `m_X_early_multitap`,
`m_X_early_diffuser` and `m_X_late_rev`. -/
inductive Member where
  | predelay
  | highpass
  | lowpass
  | multitap
  | early_diffuser
  | late_rev
  deriving DecidableEq, Repr

/-- The member a setter belongs to. -/
def Setter.member : Setter → Member
  | .highpass_set_cutoff => .highpass
  | .lowpass_set_cutoff => .lowpass
  | .multitap_set_decay => .multitap
  | .multitap_set_seed_crossmix => .multitap
  | .multitap_set_seed => .multitap
  | .early_diffuser_set_drive => .early_diffuser
  | .early_diffuser_set_delay => .early_diffuser
  | .early_diffuser_set_mod_depth => .early_diffuser
  | .early_diffuser_set_mod_rate => .early_diffuser
  | .early_diffuser_set_seed_crossmix => .early_diffuser
  | .early_diffuser_set_seed => .early_diffuser
  | _ => .late_rev

/-- The member object on which a call is made; a member's state is touched by
the calls made on it and by nothing else in the engine. -/
def Call.member : Call → Member
  | .set _ m _ => m.member
  | .predelay_push _ _ _ => .predelay
  | .highpass_push _ _ => .highpass
  | .lowpass_push _ _ => .lowpass
  | .multitap_push _ _ _ _ => .multitap
  | .early_diffuser_push _ _ _ => .early_diffuser
  | .late_rev_push _ _ _ => .late_rev

/-- Embedding of class `Object` as far as the ports are concerned: the engine
`dsp`, the `value` of every control of `inputs` (the controls carry the names
of the fields of `DSP::Parameters`), and for every entry of `dsp.param_ports`
the control its pointer addresses (`none` for a null pointer). -/
structure Object (σ : Type) where
  dsp : DSP σ
  inputs : Param → ℚ
  bound : Param → Option Param

/-- The controls whose addresses `Object::prepare` stores through `*ptr++`, in
the order of the statements. -/
def Object.prepare_inputs : List Param :=
  [.mix,
   .dry_level,
   .predelay_level,
   .early_level,
   .late_level,
   .interpolate,
   .width,
   .predelay,
   .early_low_cut_enabled,
   .early_low_cut_cutoff,
   .early_high_cut_enabled,
   .early_high_cut_cutoff,
   .early_taps,
   .early_tap_length,
   .early_tap_mix,
   .early_tap_decay,
   .early_diffusion_stages,
   .early_diffusion_delay,
   .early_diffusion_mod_depth,
   .early_diffusion_mod_rate,
   .early_diffusion_feedback,
   .late_order,
   .late_delay_lines,
   .late_delay,
   .late_delay_mod_depth,
   .late_delay_mod_rate,
   .late_delay_line_feedback,
   .late_diffusion_stages,
   .late_diffusion_delay,
   .late_diffusion_mod_depth,
   .late_diffusion_mod_rate,
   .late_diffusion_feedback,
   .late_low_shelf_enabled,
   .late_low_shelf_cutoff,
   .late_low_shelf_gain,
   .late_high_shelf_enabled,
   .late_high_shelf_cutoff,
   .late_high_shelf_gain,
   .late_high_cut_enabled,
   .late_high_cut_cutoff,
   .seed_crossmix,
   .tap_seed,
   .early_diffusion_seed,
   .delay_seed,
   .late_diffusion_seed,
   .early_diffusion_drive,
   .late_diffusion_drive]

/-- The pointer writes of `Object::prepare`: `ptr` starts at `param_ports.data()`,
so the `i`-th statement `*ptr++ = &inputs.X.value` stores the address of control
`X` in the port of the `i`-th field. -/
def Object.bind_ports (bound : Param → Option Param) : Param → Option Param :=
  (Param.fields.zip Object.prepare_inputs).foldl
    (fun b w => Function.update b w.1 (some w.2)) bound

/-- The engine with every port dereferenced against the present control values:
what `dsp` reads through `param_ports` when it runs now. -/
def Object.engine {σ : Type} (o : Object σ) : DSP σ :=
  { o.dsp with param_ports := fun p => (o.bound p).map o.inputs }

/-- Embedding of `Object::prepare(s)` with `rate = s.rate`: the engine is rebuilt
when the rate differs (its ports are then null), the 47 ports are bound, and
`apply_parameters` runs. -/
def Object.prepare {σ : Type} (F : FloatLib) (K : Components σ)
    (parameter_infos : Nat → ParamInfo) (o : Object σ) (rate : ℚ) : Object σ :=
  let rebuilt : Object σ :=
    if o.dsp.m_rate ≠ rate then
      { o with dsp := DSP.construct F K parameter_infos rate, bound := fun _ => none }
    else o
  let ported : Object σ := { rebuilt with bound := Object.bind_ports rebuilt.bound }
  { ported with dsp := ported.engine.apply_parameters F K }

/-! ## Binary32 arithmetic

The claims that depend on what `float` does with NaN, infinities, overflow or
rounding are settled on the definitions of this section, which embed the
engine's arithmetic as IEEE-754 binary32 with round-to-nearest, ties to even.
The sign of zero and the payload of a NaN are not represented. -/

/-- A value of the C++ type `float`: NaN, an infinity with its sign, or a finite
value.  A finite value that a `float` can hold is a fixed point of `F32.round`
with magnitude below `2 ^ 128` (`F32.representable`). -/
inductive F32 where
  | nan
  | inf (negative : Bool)
  | fin (q : ℚ)
  deriving DecidableEq, Repr

/-- Rounding to the nearest integer, a tie going to the even neighbour. -/
def round_half_even (x : ℚ) : ℤ :=
  if x - ⌊x⌋ < 1 / 2 then ⌊x⌋
  else if 1 / 2 < x - ⌊x⌋ then ⌊x⌋ + 1
  else if ⌊x⌋ % 2 = 0 then ⌊x⌋ else ⌊x⌋ + 1

/-- Exponent of the spacing of binary32 values around `x`: 24 significant bits,
and never below the subnormal spacing `2 ^ (-149)`. -/
def F32.quantum_exp (x : ℚ) : ℤ := max (Int.log 2 |x| - 23) (-149)

/-- Spacing of binary32 values around `x`. -/
def F32.quantum (x : ℚ) : ℚ := (2 : ℚ) ^ F32.quantum_exp x

/-- Rounding of an exact result to the binary32 grid (round to nearest, ties to
even), before the overflow test. -/
def F32.round (x : ℚ) : ℚ :=
  if 0 ≤ x then round_half_even (x / F32.quantum x) * F32.quantum x
  else -(round_half_even (-x / F32.quantum x) * F32.quantum x)

/-- The `float` delivered for an exact result `x`: the rounded value, or an
infinity when the rounded magnitude reaches `2 ^ 128`. -/
def F32.of_rat (x : ℚ) : F32 :=
  if (2 : ℚ) ^ (128 : ℕ) ≤ |F32.round x| then F32.inf (decide (x < 0))
  else F32.fin (F32.round x)

/-- A rational that a finite `float` can hold. -/
def F32.representable (q : ℚ) : Prop := F32.round q = q ∧ |q| < (2 : ℚ) ^ (128 : ℕ)

instance F32.representable_decidable (q : ℚ) : Decidable (F32.representable q) := by
  unfold F32.representable
  exact inferInstance

/-- A well-formed `float`: NaN, an infinity, or a representable finite value. -/
def F32.is_value : F32 → Prop
  | .fin q => F32.representable q
  | _ => True

instance F32.is_value_decidable (x : F32) : Decidable x.is_value := by
  cases x <;> unfold F32.is_value <;> exact inferInstance

/-- The value is neither NaN nor an infinity. -/
def F32.is_finite : F32 → Bool
  | .fin _ => true
  | _ => false

/-- Unary minus on `float`. -/
def F32.neg : F32 → F32
  | .nan => .nan
  | .inf s => .inf (!s)
  | .fin q => .fin (-q)

/-- The operator `+` on `float`. -/
def F32.add : F32 → F32 → F32
  | .nan, _ => .nan
  | _, .nan => .nan
  | .inf s, .inf r => if s = r then .inf s else .nan
  | .inf s, .fin _ => .inf s
  | .fin _, .inf r => .inf r
  | .fin a, .fin b => F32.of_rat (a + b)

/-- The operator `-` on `float`. -/
def F32.sub (a b : F32) : F32 := F32.add a (F32.neg b)

/-- The operator `*` on `float`; zero times an infinity is NaN. -/
def F32.mul : F32 → F32 → F32
  | .nan, _ => .nan
  | _, .nan => .nan
  | .inf s, .inf r => .inf (xor s r)
  | .inf s, .fin b => if b = 0 then .nan else .inf (xor s (decide (b < 0)))
  | .fin a, .inf r => if a = 0 then .nan else .inf (xor (decide (a < 0)) r)
  | .fin a, .fin b => F32.of_rat (a * b)

/-- The operator `/` on `float`; a zero divisor is taken as `+0`. -/
def F32.div : F32 → F32 → F32
  | .nan, _ => .nan
  | _, .nan => .nan
  | .inf _, .inf _ => .nan
  | .inf s, .fin b => .inf (xor s (decide (b < 0)))
  | .fin _, .inf _ => .fin 0
  | .fin a, .fin b =>
    if b = 0 then (if a = 0 then .nan else .inf (decide (a < 0))) else F32.of_rat (a / b)

/-- The operator `<` on `float`: false as soon as an operand is NaN. -/
def F32.lt : F32 → F32 → Bool
  | .nan, _ => false
  | _, .nan => false
  | .inf s, .inf r => s && !r
  | .inf s, .fin _ => s
  | .fin _, .inf r => !r
  | .fin a, .fin b => decide (a < b)

/-- The operator `<=` on `float`: false as soon as an operand is NaN. -/
def F32.le : F32 → F32 → Bool
  | .nan, _ => false
  | _, .nan => false
  | .inf s, .inf r => s || !r
  | .inf s, .fin _ => s
  | .fin _, .inf r => !r
  | .fin a, .fin b => decide (a ≤ b)

/-- The operator `!=` on `float`: true as soon as an operand is NaN. -/
def F32.ne : F32 → F32 → Bool
  | .nan, _ => true
  | _, .nan => true
  | .inf s, .inf r => s != r
  | .inf _, .fin _ => true
  | .fin _, .inf _ => true
  | .fin a, .fin b => decide (a ≠ b)

/-! ## The parameter layer in binary32 -/

/-- One entry of `parameter_infos` with its `float` fields. -/
structure ParamInfo32 where
  min : F32
  max : F32
  dflt : F32

/-- The entry `parameter_infos[p + 6]` read for parameter `p`. -/
def info32_of (parameter_infos : Nat → ParamInfo32) (p : Param) : ParamInfo32 :=
  parameter_infos (p.idx + 6)

/-- Embedding of `std::clamp(v, lo, hi)` on `float`:
`(v < lo) ? lo : (hi < v) ? hi : v`. -/
def clamp32 (v lo hi : F32) : F32 :=
  if F32.lt v lo then lo else if F32.lt hi v then hi else v

/-- The parameter blocks and ports of class `DSP` with their `float` content. -/
structure DSP32 where
  params : Parameters F32
  param_targets : Parameters F32
  param_smooth : Parameters F32
  params_modified : Parameters Bool
  param_ports : Param → Option F32

/-- The libm function `std::exp` and the constant `constants::pi_v<float>`. -/
structure FloatLib32 where
  exp : F32 → F32
  pi : F32

/-- Body of the last constructor loop on `float`: `if(smooth != 0.f)
smooth = std::exp(-2 * pi / (0.0001f * smooth * rate))`. -/
def smooth_coeff32 (L : FloatLib32) (rate smooth : F32) : F32 :=
  if F32.ne smooth (F32.fin 0) then
    L.exp (F32.div (F32.mul (F32.fin (-2)) L.pi)
      (F32.mul (F32.mul (F32.of_rat (1 / 10000)) smooth) rate))
  else smooth

/-- The parameter blocks built by the constructor `DSP::DSP(rate)`: value and
target at the declared default, every flag set, the coefficients computed from
the time constants, every port null. -/
def DSP32.construct (L : FloatLib32) (parameter_infos : Nat → ParamInfo32) (rate : F32) :
    DSP32 where
  params := Param.fields.foldl
    (fun v p => Function.update v p (info32_of parameter_infos p).dflt) (fun _ => F32.fin 0)
  param_targets := Param.fields.foldl
    (fun v p => Function.update v p (info32_of parameter_infos p).dflt) (fun _ => F32.fin 0)
  param_smooth := Param.fields.foldl
    (fun v p => Function.update v p (smooth_coeff32 L rate (F32.fin (smooth_time p))))
    (fun p => F32.fin (smooth_time p))
  params_modified := Param.fields.foldl
    (fun v p => Function.update v p true) (fun _ => false)
  param_ports := fun _ => none

/-- The value `param_ports[p] ? *param_ports[p] : parameter_infos[p + 6].dflt`. -/
def port_value32 (parameter_infos : Nat → ParamInfo32) (d : DSP32) (p : Param) : F32 :=
  match d.param_ports p with
  | some v => v
  | none => (info32_of parameter_infos p).dflt

/-- Embedding of `DSP::update_parameter_targets` on `float`. -/
def DSP32.update_parameter_targets (parameter_infos : Nat → ParamInfo32) (d : DSP32) :
    DSP32 :=
  { d with
    param_targets := Param.fields.foldl
      (fun t p => Function.update t p
        (clamp32 (port_value32 parameter_infos d p)
          (info32_of parameter_infos p).min (info32_of parameter_infos p).max))
      d.param_targets }

/-- The value `param_targets[p] - param_smooth[p] * (param_targets[p] - params[p])`
computed in `float`, each operation rounded. -/
def smooth_value32 (t c v : F32) : F32 := F32.sub t (F32.mul c (F32.sub t v))

/-- One iteration of the loop of `DSP::update_parameters` on `float`. -/
def smooth_step32 (targets smooth : Parameters F32)
    (st : Parameters F32 × Parameters Bool) (p : Param) :
    Parameters F32 × Parameters Bool :=
  let new_value := smooth_value32 (targets p) (smooth p) (st.1 p)
  (Function.update st.1 p new_value, Function.update st.2 p (F32.ne new_value (st.1 p)))

/-- Embedding of `DSP::update_parameters` on the parameter blocks in `float`;
the `apply_parameters` it ends with writes none of them. -/
def DSP32.update_parameters (d : DSP32) : DSP32 :=
  let r := Param.fields.foldl (smooth_step32 d.param_targets d.param_smooth)
    (d.params, d.params_modified)
  { d with params := r.1, params_modified := r.2 }

/-- The two calls that write the parameter blocks after construction; before
the refresh of the targets the host may have rewritten any port. -/
inductive ParamOp32 where
  | update_parameter_targets (ports : Param → Option F32)
  | update_parameters

/-- Run one parameter-layer call. -/
def DSP32.param_op (parameter_infos : Nat → ParamInfo32) (d : DSP32) : ParamOp32 → DSP32
  | .update_parameter_targets ports =>
    DSP32.update_parameter_targets parameter_infos { d with param_ports := ports }
  | .update_parameters => d.update_parameters

/-- Run a sequence of parameter-layer calls in order. -/
def DSP32.param_ops (parameter_infos : Nat → ParamInfo32) (d : DSP32)
    (ops : List ParamOp32) : DSP32 :=
  ops.foldl (DSP32.param_op parameter_infos) d

/-- Every port of the call holds a well-formed `float` other than NaN. -/
def ParamOp32.no_nan : ParamOp32 → Prop
  | .update_parameter_targets ports =>
    ∀ (p : Param) (v : F32), ports p = some v → v.is_value ∧ v ≠ F32.nan
  | .update_parameters => True

/-- The entry declares finite `float`s with `min ≤ default ≤ max`, and the width
`max - min` of the range is finite in `float`. -/
def ParamInfo32.well_formed (i : ParamInfo32) : Prop :=
  ∃ lo hi df : ℚ, i.min = F32.fin lo ∧ i.max = F32.fin hi ∧ i.dflt = F32.fin df
    ∧ F32.representable lo ∧ F32.representable hi ∧ F32.representable df
    ∧ lo ≤ df ∧ df ≤ hi ∧ (F32.sub i.max i.min).is_finite = true

/-- A finite `float` in `[0, 1)`. -/
def F32.is_coeff (x : F32) : Prop :=
  ∃ c : ℚ, x = F32.fin c ∧ F32.representable c ∧ 0 ≤ c ∧ c < 1

/-- Current value and target of every parameter are finite `float`s inside the
declared range. -/
def DSP32.in_range (parameter_infos : Nat → ParamInfo32) (d : DSP32) : Prop :=
  ∀ p : Param, ∃ lo hi v t : ℚ,
    (info32_of parameter_infos p).min = F32.fin lo
    ∧ (info32_of parameter_infos p).max = F32.fin hi
    ∧ d.params p = F32.fin v ∧ d.param_targets p = F32.fin t
    ∧ F32.representable v ∧ F32.representable t
    ∧ (lo ≤ v ∧ v ≤ hi) ∧ (lo ≤ t ∧ t ≤ hi)

/-! ## The output arithmetic of a sample in binary32 -/

/-- The values returned by the `push` calls whose results enter the output of a
sample: the predelays, the early diffusers and the late networks. -/
structure StageValues where
  predelay_left : F32
  predelay_right : F32
  early_left : F32
  early_right : F32
  late_left : F32
  late_right : F32

/-- Embedding of `math::lerp(a, b, t)` on `float`, taken as `a + t * (b - a)`. -/
def lerp32 (a b t : F32) : F32 := F32.add a (F32.mul t (F32.sub b a))

/-- The value accumulated in `audio_out[sample]` of one channel before the final
mix: `dry_level * dry`, then `+= predelay_level * predelay`,
`+= early_level * early` and `+= late_level * late`, each level being the
parameter divided by `100.f`. -/
def Object.wet32 (params : Parameters F32) (dry predelay early late : F32) : F32 :=
  let out0 := F32.mul (F32.div (params .dry_level) (F32.fin 100)) dry
  let out1 := F32.add out0 (F32.mul (F32.div (params .predelay_level) (F32.fin 100)) predelay)
  let out2 := F32.add out1 (F32.mul (F32.div (params .early_level) (F32.fin 100)) early)
  F32.add out2 (F32.mul (F32.div (params .late_level) (F32.fin 100)) late)

/-- The pair written to the output channels for one sample, as a function of
the current parameters, the input pair and the values the stages returned:
`lerp(dry, audio_out[sample], mix / 100.f)` on each channel. -/
def Object.mix32 (params : Parameters F32) (dry_left dry_right : F32) (s : StageValues) :
    F32 × F32 :=
  (lerp32 dry_left
      (Object.wet32 params dry_left s.predelay_left s.early_left s.late_left)
      (F32.div (params .mix) (F32.fin 100)),
   lerp32 dry_right
      (Object.wet32 params dry_right s.predelay_right s.early_right s.late_right)
      (F32.div (params .mix) (F32.fin 100)))

/-- One pass of the sample loop of `Object::operator()` on `float`:
`dsp.update_parameters()`, then the output arithmetic on the refreshed
parameters, for the input pair of the sample and the values the stages return. -/
def Object.process_sample32 (d : DSP32) (dry_left dry_right : F32) (s : StageValues) :
    (F32 × F32) × DSP32 :=
  (Object.mix32 d.update_parameters.params dry_left dry_right s, d.update_parameters)

/-! ## Concrete instances used to exercise the statements -/

/-- A stand-in for libm: `exp` is constantly `1/2`, `pow` constantly `1`, `pi` is `3`. -/
def demo_lib : FloatLib where
  exp := fun _ => 1 / 2
  pow := fun _ _ => 1
  pi := 3

/-- Components without state whose every `push` returns `7`. -/
def demo_components : Components Unit where
  construct := fun _ => ()
  exec := fun _ _ => ()
  ret := fun _ _ => 7

/-- A parameter table giving every port the range `[0, 100]` and default `50`. -/
def demo_infos : Nat → ParamInfo := fun _ => { min := 0, max := 100, dflt := 50 }

/-- An engine state at rest with `mix` at `0` and every other parameter at `30`. -/
def demo_dry_dsp : DSP Unit where
  params := fun p => if p = Param.mix then 0 else 30
  param_targets := fun p => if p = Param.mix then 0 else 30
  param_smooth := fun _ => 1 / 2
  params_modified := fun _ => false
  param_ports := fun _ => none
  m_rate := 48000
  comps := ()

/-- An engine state in which every parameter has the current value `1` and
every modified flag is set. -/
def demo_unity_dsp : DSP (List Call) where
  params := fun _ => 1
  param_targets := fun _ => 1
  param_smooth := fun _ => 0
  params_modified := fun _ => true
  param_ports := fun _ => none
  m_rate := 48000
  comps := []

/-- The state `demo_unity_dsp` over the traced stand-in components, with an
empty trace. -/
def demo_traced_dsp : DSP (Unit × List Call) where
  params := fun _ => 1
  param_targets := fun _ => 1
  param_smooth := fun _ => 0
  params_modified := fun _ => true
  param_ports := fun _ => none
  m_rate := 48000
  comps := ((), [])

/-- An engine state over the traced stand-in components in which every parameter
is `0`: both early cut flags and the interpolate toggle are off, the width is `0`. -/
def demo_bypass_dsp : DSP (Unit × List Call) where
  params := fun _ => 0
  param_targets := fun _ => 0
  param_smooth := fun _ => 0
  params_modified := fun _ => false
  param_ports := fun _ => none
  m_rate := 48000
  comps := ((), [])

/-- An `Object` holding `demo_dry_dsp` (rate `48000`), every port still null and
every control at `150` except `width` at `40`. -/
def demo_object : Object Unit where
  dsp := demo_dry_dsp
  inputs := fun p => if p = Param.width then 40 else 150
  bound := fun _ => none

/-- A `float` parameter table giving every port the range `[0, 100]` and
default `50`. -/
def demo_infos32 : Nat → ParamInfo32 :=
  fun _ => { min := F32.fin 0, max := F32.fin 100, dflt := F32.fin 50 }

/-- A `float` parameter table giving every port the range `[1, 2 ^ 25]` and
default `1`. -/
def demo_wide_infos32 : Nat → ParamInfo32 :=
  fun _ => { min := F32.fin 1, max := F32.fin (2 ^ 25), dflt := F32.fin 1 }

/-- A `float` parameter table giving every port the range `[-2 ^ 127, 2 ^ 127]`
and the default `-2 ^ 127`. -/
def demo_huge_infos32 : Nat → ParamInfo32 :=
  fun _ => { min := F32.fin (-2 ^ 127), max := F32.fin (2 ^ 127), dflt := F32.fin (-2 ^ 127) }

/-- A stand-in for libm on `float`: `exp` is constantly `1/2`, `pi` is `3`. -/
def demo_lib32 : FloatLib32 where
  exp := fun _ => F32.fin (1 / 2)
  pi := F32.fin 3

/-- A stand-in for libm on `float` whose `exp` is constantly `1`, the value
`std::exp` delivers for an argument of magnitude below `2 ^ (-25)`. -/
def demo_unit_lib32 : FloatLib32 where
  exp := fun _ => F32.fin 1
  pi := F32.fin 3

/-- A `float` state at rest with `mix` at `0`, `late_level` at `100` and every
other parameter at `0`. -/
def demo_dry_dsp32 : DSP32 where
  params := fun p => if p = Param.mix then F32.fin 0
    else if p = Param.late_level then F32.fin 100 else F32.fin 0
  param_targets := fun p => if p = Param.mix then F32.fin 0
    else if p = Param.late_level then F32.fin 100 else F32.fin 0
  param_smooth := fun _ => F32.fin 0
  params_modified := fun _ => false
  param_ports := fun _ => none

/-- A `float` state at rest with `mix` at `100` and every other parameter, the
four levels among them, at `0`. -/
def demo_silent_dsp32 : DSP32 where
  params := fun p => if p = Param.mix then F32.fin 100 else F32.fin 0
  param_targets := fun p => if p = Param.mix then F32.fin 100 else F32.fin 0
  param_smooth := fun _ => F32.fin 0
  params_modified := fun _ => false
  param_ports := fun _ => none

/-- Stage results that are all `7`. -/
def demo_stage_values : StageValues where
  predelay_left := F32.fin 7
  predelay_right := F32.fin 7
  early_left := F32.fin 7
  early_right := F32.fin 7
  late_left := F32.fin 7
  late_right := F32.fin 7

/-- Stage results that are all `7` except that the left late network returns
`+inf`. -/
def demo_hot_stage_values : StageValues :=
  { demo_stage_values with late_left := F32.inf false }

/-- The state `demo_dry_dsp32` with the `mix` port bound to `150`, the `width`
port to `-3`, the `predelay` port to `+inf`, the `interpolate` port to NaN and
every other port null. -/
def demo_ported_dsp32 : DSP32 :=
  { demo_dry_dsp32 with
    param_ports := fun p =>
      if p = Param.mix then some (F32.fin 150)
      else if p = Param.width then some (F32.fin (-3))
      else if p = Param.predelay then some (F32.inf false)
      else if p = Param.interpolate then some F32.nan
      else none }

/-- A `float` state whose every parameter glides from `0` toward the target `80`
with smoothing coefficient `1/2`. -/
def demo_gliding_dsp32 : DSP32 where
  params := fun _ => F32.fin 0
  param_targets := fun _ => F32.fin 80
  param_smooth := fun _ => F32.fin (1 / 2)
  params_modified := fun _ => false
  param_ports := fun _ => none

/-- A `float` state whose every parameter has the value `1 - 2 ^ (-24)`, the
`float` just below `1`, the target `1` and the smoothing coefficient `1/2`. -/
def demo_near_dsp32 : DSP32 where
  params := fun _ => F32.fin (1 - 1 / 2 ^ 24)
  param_targets := fun _ => F32.fin 1
  param_smooth := fun _ => F32.fin (1 / 2)
  params_modified := fun _ => false
  param_ports := fun _ => none

/-- A `float` state whose every parameter has the value `1`, the target
`1 + 2 ^ (-23)`, the `float` just above `1`, and the smoothing coefficient `1/2`. -/
def demo_stuck_dsp32 : DSP32 where
  params := fun _ => F32.fin 1
  param_targets := fun _ => F32.fin (1 + 1 / 2 ^ 23)
  param_smooth := fun _ => F32.fin (1 / 2)
  params_modified := fun _ => false
  param_ports := fun _ => none

/-! ## Auxiliary facts -/

theorem Param.fields_length : Param.fields.length = 47 := rfl

theorem Param.fields_nodup : Param.fields.Nodup := by decide

theorem Param.mem_fields (p : Param) : p ∈ Param.fields := by
  cases p <;> decide

theorem Param.idx_lt (p : Param) : p.idx < 47 := by
  cases p <;> decide

theorem foldl_update_const {β : Type} (f : Param → β) (l : List Param) (g : Param → β)
    (x : Param) :
    (l.foldl (fun v p => Function.update v p (f p)) g) x = if x ∈ l then f x else g x := by
  induction l generalizing g with
  | nil => simp
  | cons a l ih =>
    rw [List.foldl_cons, ih]
    by_cases hx : x ∈ l
    · simp [hx]
    · by_cases hxa : x = a
      · subst hxa; simp [hx]
      · simp [hx, hxa, Function.update_noteq hxa]

theorem foldl_smooth_step (targets smooth : Parameters ℚ) (l : List Param) (hl : l.Nodup)
    (st : Parameters ℚ × Parameters Bool) (x : Param) :
    (l.foldl (smooth_step targets smooth) st).1 x
        = (if x ∈ l then targets x - smooth x * (targets x - st.1 x) else st.1 x)
    ∧ (l.foldl (smooth_step targets smooth) st).2 x
        = (if x ∈ l then decide (targets x - smooth x * (targets x - st.1 x) ≠ st.1 x)
            else st.2 x) := by
  induction l generalizing st with
  | nil => simp
  | cons a l ih =>
    have hnd := List.nodup_cons.mp hl
    rw [List.foldl_cons]
    have h := ih hnd.2 (smooth_step targets smooth st a)
    rw [h.1, h.2]
    by_cases hxa : x = a
    · subst hxa; simp [hnd.1, smooth_step]
    · simp [hxa, smooth_step, Function.update_noteq hxa]

theorem smooth_parameters_params {σ : Type} (d : DSP σ) (p : Param) :
    d.smooth_parameters.params p
      = d.param_targets p - d.param_smooth p * (d.param_targets p - d.params p) := by
  have h := (foldl_smooth_step d.param_targets d.param_smooth Param.fields
    Param.fields_nodup (d.params, d.params_modified) p).1
  simpa [DSP.smooth_parameters, Param.mem_fields] using h

theorem smooth_parameters_modified {σ : Type} (d : DSP σ) (p : Param) :
    d.smooth_parameters.params_modified p
      = decide (d.param_targets p - d.param_smooth p * (d.param_targets p - d.params p)
          ≠ d.params p) := by
  have h := (foldl_smooth_step d.param_targets d.param_smooth Param.fields
    Param.fields_nodup (d.params, d.params_modified) p).2
  simpa [DSP.smooth_parameters, Param.mem_fields] using h

theorem update_parameters_params {σ : Type} (F : FloatLib) (K : Components σ) (d : DSP σ)
    (p : Param) :
    (d.update_parameters F K).params p
      = d.param_targets p - d.param_smooth p * (d.param_targets p - d.params p) := by
  simpa [DSP.update_parameters, DSP.apply_parameters] using smooth_parameters_params d p

theorem update_parameter_targets_target {σ : Type} (infos : Nat → ParamInfo) (d : DSP σ)
    (p : Param) :
    (d.update_parameter_targets infos).param_targets p
      = clamp (port_value infos d p) (info_of infos p).min (info_of infos p).max := by
  simp [DSP.update_parameter_targets, foldl_update_const, Param.mem_fields]

/-! ## Facts about binary32 rounding -/

theorem rhe_int (n : ℤ) : round_half_even (n : ℚ) = n := by
  simp [round_half_even]

theorem rhe_floor_le (x : ℚ) : ⌊x⌋ ≤ round_half_even x := by
  unfold round_half_even
  split_ifs <;> omega

theorem rhe_le_floor_succ (x : ℚ) : round_half_even x ≤ ⌊x⌋ + 1 := by
  unfold round_half_even
  split_ifs <;> omega

theorem rhe_mono {x y : ℚ} (h : x ≤ y) : round_half_even x ≤ round_half_even y := by
  rcases lt_or_eq_of_le (Int.floor_mono h) with hlt | heq
  · exact le_trans (rhe_le_floor_succ x) (le_trans hlt (rhe_floor_le y))
  · unfold round_half_even
    rw [heq]
    have hx : x - ⌊y⌋ ≤ y - ⌊y⌋ := by linarith
    split_ifs <;> first | omega | linarith

theorem rhe_le_add_half (x : ℚ) : (round_half_even x : ℚ) ≤ x + 1 / 2 := by
  have h1 := Int.floor_le x
  unfold round_half_even
  split_ifs with h2 h3 h4
  · linarith
  · push_cast; linarith [Int.lt_floor_add_one x]
  · linarith
  · push_cast
    have : x - ⌊x⌋ = 1 / 2 := le_antisymm (not_lt.mp h3) (not_lt.mp h2)
    linarith

theorem rhe_nonneg {x : ℚ} (h : 0 ≤ x) : 0 ≤ round_half_even x := by
  have := rhe_mono h
  rwa [show ((0 : ℚ)) = ((0 : ℤ) : ℚ) by norm_num, rhe_int] at this


theorem quantum_pos (x : ℚ) : 0 < F32.quantum x := zpow_pos (by norm_num) _

theorem quantum_neg (x : ℚ) : F32.quantum (-x) = F32.quantum x := by
  simp [F32.quantum, F32.quantum_exp]

theorem quantum_exp_ge (x : ℚ) : -149 ≤ F32.quantum_exp x := le_max_right _ _

theorem round_of_nonneg {x : ℚ} (h : 0 ≤ x) :
    F32.round x = round_half_even (x / F32.quantum x) * F32.quantum x := by
  simp [F32.round, h]

theorem round_zero : F32.round 0 = 0 := by
  rw [round_of_nonneg (le_refl _), zero_div]
  have := rhe_int 0
  simp only [Int.cast_zero] at this
  rw [this]; simp

theorem round_neg (x : ℚ) : F32.round (-x) = -F32.round x := by
  rcases lt_trichotomy x 0 with h | h | h
  · have h1 : 0 ≤ -x := by linarith
    have h2 : ¬ 0 ≤ x := not_le.mpr h
    simp [F32.round, h1, h2, quantum_neg]
  · subst h; simp [round_zero]
  · have h1 : ¬ 0 ≤ -x := by linarith
    have h2 : 0 ≤ x := le_of_lt h
    simp [F32.round, h1, h2, quantum_neg]

theorem round_nonneg {x : ℚ} (h : 0 ≤ x) : 0 ≤ F32.round x := by
  rw [round_of_nonneg h]
  exact mul_nonneg (by exact_mod_cast rhe_nonneg (div_nonneg h (le_of_lt (quantum_pos x))))
    (le_of_lt (quantum_pos x))

theorem rhe_zpow_div (a b : ℤ) (h : b ≤ a) :
    (round_half_even ((2 : ℚ) ^ a / (2 : ℚ) ^ b) : ℚ) * (2 : ℚ) ^ b = (2 : ℚ) ^ a := by
  obtain ⟨n, hn⟩ := Int.eq_ofNat_of_zero_le (sub_nonneg.mpr h)
  have h2 : (2 : ℚ) ^ a / (2 : ℚ) ^ b = (((2 : ℤ) ^ n : ℤ) : ℚ) := by
    rw [← zpow_sub₀ (by norm_num : (2 : ℚ) ≠ 0), hn, zpow_natCast]
    push_cast; rfl
  rw [h2, rhe_int, ← h2]
  field_simp

theorem round_mono_nonneg {x y : ℚ} (hx : 0 ≤ x) (hxy : x ≤ y) :
    F32.round x ≤ F32.round y := by
  have hy : 0 ≤ y := le_trans hx hxy
  rcases eq_or_lt_of_le hx with h0 | hpos
  · rw [← h0, round_zero]; exact round_nonneg hy
  have hypos : 0 < y := lt_of_lt_of_le hpos hxy
  have hlog : Int.log 2 x ≤ Int.log 2 y := Int.log_mono_right hpos hxy
  have hq : F32.quantum_exp x ≤ F32.quantum_exp y := by
    unfold F32.quantum_exp
    rw [abs_of_pos hpos, abs_of_pos hypos]
    exact max_le_max (by omega) (le_refl _)
  rw [round_of_nonneg hx, round_of_nonneg hy]
  rcases eq_or_lt_of_le hq with heq | hlt
  · have hQ : F32.quantum x = F32.quantum y := by unfold F32.quantum; rw [heq]
    rw [hQ]
    apply mul_le_mul_of_nonneg_right _ (le_of_lt (quantum_pos y))
    exact_mod_cast rhe_mono (div_le_div_of_nonneg_right hxy (le_of_lt (quantum_pos y)))
  · -- different binades: separate by the power of two at the bottom of the binade of `y`
    have hqy : F32.quantum_exp y = Int.log 2 y - 23 := by
      have h149 := quantum_exp_ge x
      unfold F32.quantum_exp at hlt ⊢
      rw [abs_of_pos hypos] at hlt ⊢
      rcases max_cases (Int.log 2 y - 23) (-149) with h | h
      · exact h.1
      · rw [h.1] at hlt
        unfold F32.quantum_exp at h149
        omega
    have hqx : Int.log 2 x - 23 ≤ F32.quantum_exp x := by
      unfold F32.quantum_exp; rw [abs_of_pos hpos]; exact le_max_left _ _
    have hB1 : x ≤ (2 : ℚ) ^ Int.log 2 y := by
      have h1 := Int.lt_zpow_succ_log_self (by norm_num : 1 < 2) x
      have h2 : (2 : ℚ) ^ (Int.log 2 x + 1) ≤ (2 : ℚ) ^ Int.log 2 y :=
        zpow_le_zpow_right₀ (by norm_num) (by omega)
      exact le_of_lt (lt_of_lt_of_le (by exact_mod_cast h1) h2)
    have hB2 : (2 : ℚ) ^ Int.log 2 y ≤ y := by
      exact_mod_cast Int.zpow_log_le_self (by norm_num : 1 < 2) hypos
    have e1 := rhe_zpow_div (Int.log 2 y) (F32.quantum_exp x) (by omega)
    have e2 := rhe_zpow_div (Int.log 2 y) (F32.quantum_exp y) (by omega)
    calc (round_half_even (x / F32.quantum x) : ℚ) * F32.quantum x
        ≤ (round_half_even ((2 : ℚ) ^ Int.log 2 y / F32.quantum x) : ℚ) * F32.quantum x := by
          apply mul_le_mul_of_nonneg_right _ (le_of_lt (quantum_pos x))
          exact_mod_cast rhe_mono (div_le_div_of_nonneg_right hB1 (le_of_lt (quantum_pos x)))
      _ = (2 : ℚ) ^ Int.log 2 y := e1
      _ = (round_half_even ((2 : ℚ) ^ Int.log 2 y / F32.quantum y) : ℚ) * F32.quantum y :=
          e2.symm
      _ ≤ (round_half_even (y / F32.quantum y) : ℚ) * F32.quantum y := by
          apply mul_le_mul_of_nonneg_right _ (le_of_lt (quantum_pos y))
          exact_mod_cast rhe_mono (div_le_div_of_nonneg_right hB2 (le_of_lt (quantum_pos y)))

theorem round_mono {x y : ℚ} (hxy : x ≤ y) : F32.round x ≤ F32.round y := by
  rcases le_or_lt 0 x with hx | hx
  · exact round_mono_nonneg hx hxy
  · rcases le_or_lt 0 y with hy | hy
    · have h1 : F32.round x ≤ 0 := by
        have := round_nonneg (show 0 ≤ -x by linarith)
        rw [round_neg] at this; linarith
      exact le_trans h1 (round_nonneg hy)
    · have := round_mono_nonneg (show 0 ≤ -y by linarith) (show -y ≤ -x by linarith)
      rw [round_neg, round_neg] at this
      linarith


theorem quantum_exp_of_pos {x : ℚ} (h : 0 < x) :
    F32.quantum_exp x = max (Int.log 2 x - 23) (-149) := by
  unfold F32.quantum_exp; rw [abs_of_pos h]

theorem round_two_zpow (k : ℤ) (hk : -149 ≤ k) : F32.round ((2 : ℚ) ^ k) = (2 : ℚ) ^ k := by
  have hpos : (0 : ℚ) < (2 : ℚ) ^ k := zpow_pos (by norm_num) _
  rw [round_of_nonneg (le_of_lt hpos)]
  have hq : F32.quantum_exp ((2 : ℚ) ^ k) ≤ k := by
    rw [quantum_exp_of_pos hpos]
    have : Int.log 2 ((2 : ℚ) ^ k) = k := by
      exact_mod_cast Int.log_zpow (R := ℚ) (by norm_num : 1 < 2) k
    rw [this]
    exact max_le (by omega) hk
  exact rhe_zpow_div k _ hq

/-- A rational `m * 2 ^ k` with `|m| ≤ 2 ^ 24` and `k ≥ -149` is left unchanged by rounding. -/
theorem round_of_rep (m k : ℤ) (hm : |m| ≤ 2 ^ 24) (hk : -149 ≤ k) :
    F32.round ((m : ℚ) * (2 : ℚ) ^ k) = (m : ℚ) * (2 : ℚ) ^ k := by
  have key : ∀ n : ℤ, 0 ≤ n → n ≤ 2 ^ 24 →
      F32.round ((n : ℚ) * (2 : ℚ) ^ k) = (n : ℚ) * (2 : ℚ) ^ k := by
    intro n hn0 hn
    have h2k : (0 : ℚ) < (2 : ℚ) ^ k := zpow_pos (by norm_num) _
    rcases eq_or_lt_of_le hn0 with h0 | hnpos
    · rw [← h0]; simp [round_zero]
    rcases eq_or_lt_of_le hn with h24 | hlt
    · rw [h24]
      have : (((2 : ℤ) ^ 24 : ℤ) : ℚ) * (2 : ℚ) ^ k = (2 : ℚ) ^ (k + 24) := by
        rw [zpow_add₀ (by norm_num : (2 : ℚ) ≠ 0)]; push_cast; ring
      rw [this]
      exact round_two_zpow _ (by omega)
    · have hx : (0 : ℚ) < (n : ℚ) * (2 : ℚ) ^ k :=
        mul_pos (by exact_mod_cast hnpos) h2k
      rw [round_of_nonneg (le_of_lt hx)]
      have hlog : Int.log 2 ((n : ℚ) * (2 : ℚ) ^ k) < k + 24 := by
        rw [← Int.lt_zpow_iff_log_lt (by norm_num : 1 < 2) hx]
        have h1 : (n : ℚ) < (2 : ℚ) ^ (24 : ℤ) := by
          have h3 : (n : ℚ) < (((2 : ℤ) ^ 24 : ℤ) : ℚ) := by exact_mod_cast hlt
          norm_num at h3 ⊢
          exact h3
        calc (n : ℚ) * (2 : ℚ) ^ k < (2 : ℚ) ^ (24 : ℤ) * (2 : ℚ) ^ k :=
              mul_lt_mul_of_pos_right h1 h2k
          _ = ((2 : ℕ) : ℚ) ^ (k + 24) := by
              rw [zpow_add₀ (by norm_num : ((2 : ℕ) : ℚ) ≠ 0)]; push_cast; ring
      have hq : F32.quantum_exp ((n : ℚ) * (2 : ℚ) ^ k) ≤ k := by
        rw [quantum_exp_of_pos hx]
        exact max_le (by omega) hk
      obtain ⟨j, hj⟩ := Int.eq_ofNat_of_zero_le (sub_nonneg.mpr hq)
      have hdiv : (n : ℚ) * (2 : ℚ) ^ k / F32.quantum ((n : ℚ) * (2 : ℚ) ^ k)
          = ((n * (2 : ℤ) ^ j : ℤ) : ℚ) := by
        unfold F32.quantum
        rw [mul_div_assoc, ← zpow_sub₀ (by norm_num : (2 : ℚ) ≠ 0), hj, zpow_natCast]
        push_cast; rfl
      rw [hdiv, rhe_int, ← hdiv]
      exact div_mul_cancel₀ _ (ne_of_gt (quantum_pos _))
  rcases le_or_lt 0 m with h | h
  · exact key m h (le_trans (le_abs_self m) hm)
  · have h1 := key (-m) (by omega) (le_trans (neg_le_abs m) hm)
    have h2 : ((-m : ℤ) : ℚ) * (2 : ℚ) ^ k = -((m : ℚ) * (2 : ℚ) ^ k) := by push_cast; ring
    rw [h2, round_neg] at h1
    linarith


theorem round_rep (u : ℚ) :
    ∃ m k : ℤ, F32.round u = (m : ℚ) * (2 : ℚ) ^ k ∧ |m| ≤ 2 ^ 24 ∧ -149 ≤ k := by
  have key : ∀ x : ℚ, 0 ≤ x →
      ∃ m k : ℤ, F32.round x = (m : ℚ) * (2 : ℚ) ^ k ∧ |m| ≤ 2 ^ 24 ∧ -149 ≤ k := by
    intro x hx
    refine ⟨round_half_even (x / F32.quantum x), F32.quantum_exp x, round_of_nonneg hx, ?_,
      quantum_exp_ge x⟩
    have hm0 : 0 ≤ round_half_even (x / F32.quantum x) :=
      rhe_nonneg (div_nonneg hx (le_of_lt (quantum_pos x)))
    rw [abs_of_nonneg hm0]
    rcases eq_or_lt_of_le hx with h0 | hpos
    · rw [← h0, zero_div]
      have := rhe_int 0
      simp only [Int.cast_zero] at this
      rw [this]; norm_num
    have h1 : x < (2 : ℚ) ^ (Int.log 2 x + 1) := by
      exact_mod_cast Int.lt_zpow_succ_log_self (by norm_num : 1 < 2) x
    have hq : Int.log 2 x - 23 ≤ F32.quantum_exp x := by
      rw [quantum_exp_of_pos hpos]; exact le_max_left _ _
    have h2 : x / F32.quantum x ≤ (((2 : ℤ) ^ 24 : ℤ) : ℚ) := by
      rw [div_le_iff₀ (quantum_pos x)]
      unfold F32.quantum
      have h3 : (2 : ℚ) ^ (Int.log 2 x + 1) ≤ (2 : ℚ) ^ (24 + F32.quantum_exp x) :=
        zpow_le_zpow_right₀ (by norm_num) (by omega)
      have h3b : (2 : ℚ) ^ (24 + F32.quantum_exp x)
          = (2 : ℚ) ^ (24 : ℤ) * (2 : ℚ) ^ F32.quantum_exp x :=
        zpow_add₀ (by norm_num : (2 : ℚ) ≠ 0) _ _
      have h4 : (((2 : ℤ) ^ 24 : ℤ) : ℚ) = (2 : ℚ) ^ (24 : ℤ) := by norm_num
      rw [h4, ← h3b]
      exact le_of_lt (lt_of_lt_of_le h1 h3)
    have h5 := rhe_mono h2
    rwa [rhe_int] at h5
  rcases le_or_lt 0 u with h | h
  · exact key u h
  · obtain ⟨m, k, e, hm, hk⟩ := key (-u) (by linarith)
    refine ⟨-m, k, ?_, by rwa [abs_neg], hk⟩
    rw [round_neg] at e
    push_cast
    linarith

theorem round_round (u : ℚ) : F32.round (F32.round u) = F32.round u := by
  obtain ⟨m, k, e, hm, hk⟩ := round_rep u
  rw [e]
  exact round_of_rep m k hm hk

theorem round_grid {x : ℚ} (h : F32.round x = x) :
    ∃ m : ℤ, x = (m : ℚ) * (2 : ℚ) ^ (-149 : ℤ) := by
  obtain ⟨m, k, e, _, hk⟩ := round_rep x
  obtain ⟨j, hj⟩ := Int.eq_ofNat_of_zero_le (show 0 ≤ k + 149 by omega)
  refine ⟨m * 2 ^ j, ?_⟩
  rw [← h, e]
  have hk2 : k = (j : ℤ) + (-149) := by omega
  rw [hk2, zpow_add₀ (by norm_num : (2 : ℚ) ≠ 0), zpow_natCast]
  push_cast
  ring

theorem round_small_grid (m : ℤ) (h0 : 0 ≤ m)
    (hlt : (m : ℚ) * (2 : ℚ) ^ (-149 : ℤ) < (2 : ℚ) ^ (-126 : ℤ)) :
    F32.round ((m : ℚ) * (2 : ℚ) ^ (-149 : ℤ)) = (m : ℚ) * (2 : ℚ) ^ (-149 : ℤ) := by
  apply round_of_rep m (-149) _ (le_refl _)
  rw [abs_of_nonneg h0]
  have h1 : (m : ℚ) < (2 : ℚ) ^ (23 : ℤ) := by
    have h2 : (2 : ℚ) ^ (-126 : ℤ) = (2 : ℚ) ^ (23 : ℤ) * (2 : ℚ) ^ (-149 : ℤ) := by
      rw [← zpow_add₀ (by norm_num : (2 : ℚ) ≠ 0)]; norm_num
    rw [h2] at hlt
    exact lt_of_mul_lt_mul_right hlt (le_of_lt (zpow_pos (by norm_num) _))
  have h3 : (m : ℚ) < (((2 : ℤ) ^ 23 : ℤ) : ℚ) := by
    norm_num at h1 ⊢; exact h1
  have h4 : m < 2 ^ 23 := by exact_mod_cast h3
  omega

/-! ## Facts about binary32 values and operations -/

theorem representable_zero : F32.representable 0 := ⟨round_zero, by norm_num⟩

theorem representable_neg {q : ℚ} (h : F32.representable q) : F32.representable (-q) :=
  ⟨by rw [round_neg, h.1], by rw [abs_neg]; exact h.2⟩

theorem representable_int (n : ℤ) (h : |n| ≤ 2 ^ 24) : F32.representable (n : ℚ) := by
  constructor
  · have := round_of_rep n 0 h (by norm_num)
    simpa using this
  · have h1 : |(n : ℚ)| ≤ 2 ^ 24 := by exact_mod_cast h
    calc |(n : ℚ)| ≤ 2 ^ 24 := h1
      _ < (2 : ℚ) ^ (128 : ℕ) := by norm_num

theorem representable_round {x : ℚ} (h : |F32.round x| < (2 : ℚ) ^ (128 : ℕ)) :
    F32.representable (F32.round x) := ⟨round_round x, h⟩

theorem of_rat_of_lt {x : ℚ} (h : |F32.round x| < (2 : ℚ) ^ (128 : ℕ)) :
    F32.of_rat x = F32.fin (F32.round x) := by
  simp [F32.of_rat, not_le.mpr h]

theorem of_rat_representable {q : ℚ} (h : F32.representable q) : F32.of_rat q = F32.fin q := by
  have h1 : |F32.round q| < (2 : ℚ) ^ (128 : ℕ) := by rw [h.1]; exact h.2
  rw [of_rat_of_lt h1, h.1]

theorem of_rat_zero : F32.of_rat 0 = F32.fin 0 := of_rat_representable representable_zero

theorem round_two_pow (n : ℕ) : F32.round ((2 : ℚ) ^ n) = (2 : ℚ) ^ n := by
  have h := round_two_zpow (n : ℤ) (by omega)
  rwa [zpow_natCast] at h

theorem add_fin (a b : ℚ) : F32.add (F32.fin a) (F32.fin b) = F32.of_rat (a + b) := rfl

theorem sub_fin (a b : ℚ) : F32.sub (F32.fin a) (F32.fin b) = F32.of_rat (a - b) := by
  simp [F32.sub, F32.neg, F32.add, sub_eq_add_neg]

theorem mul_fin (a b : ℚ) : F32.mul (F32.fin a) (F32.fin b) = F32.of_rat (a * b) := rfl

theorem div_fin (a b : ℚ) (hb : b ≠ 0) :
    F32.div (F32.fin a) (F32.fin b) = F32.of_rat (a / b) := by
  simp [F32.div, hb]

theorem log_eq_of_bounds {x : ℚ} (e : ℤ) (hlo : (2 : ℚ) ^ e ≤ x) (hhi : x < (2 : ℚ) ^ (e + 1)) :
    Int.log 2 x = e := by
  have hpos : 0 < x := lt_of_lt_of_le (zpow_pos (by norm_num) _) hlo
  apply le_antisymm
  · have h1 : Int.log 2 x < e + 1 := by
      rw [← Int.lt_zpow_iff_log_lt (by norm_num : 1 < 2) hpos]
      exact_mod_cast hhi
    omega
  · rw [← Int.zpow_le_iff_le_log (by norm_num : 1 < 2) hpos]
    exact_mod_cast hlo

theorem round_eval {x : ℚ} (e : ℤ) (hlo : (2 : ℚ) ^ e ≤ x) (hhi : x < (2 : ℚ) ^ (e + 1)) :
    F32.round x = round_half_even (x / (2 : ℚ) ^ (max (e - 23) (-149)))
      * (2 : ℚ) ^ (max (e - 23) (-149)) := by
  have hpos : 0 < x := lt_of_lt_of_le (zpow_pos (by norm_num) _) hlo
  rw [round_of_nonneg (le_of_lt hpos)]
  unfold F32.quantum
  rw [quantum_exp_of_pos hpos, log_eq_of_bounds e hlo hhi]

theorem rhe_tie_even (n : ℤ) (h : n % 2 = 0) : round_half_even ((n : ℚ) + 1 / 2) = n := by
  have hf : ⌊(n : ℚ) + 1 / 2⌋ = n := by
    rw [Int.floor_eq_iff]; constructor <;> norm_num
  unfold round_half_even
  rw [hf]
  have e : (n : ℚ) + 1 / 2 - n = 1 / 2 := by ring
  rw [e]
  simp [h]

theorem rhe_tie_odd (n : ℤ) (h : n % 2 = 1) : round_half_even ((n : ℚ) + 1 / 2) = n + 1 := by
  have hf : ⌊(n : ℚ) + 1 / 2⌋ = n := by
    rw [Int.floor_eq_iff]; constructor <;> norm_num
  unfold round_half_even
  rw [hf]
  have e : (n : ℚ) + 1 / 2 - n = 1 / 2 := by ring
  rw [e]
  simp [h]

theorem round_below_one : F32.round (1 - (2 : ℚ) ^ (-25 : ℤ)) = 1 := by
  rw [round_eval (-1) (by norm_num) (by norm_num)]
  have e1 : max ((-1 : ℤ) - 23) (-149) = -24 := by norm_num
  rw [e1]
  have e2 : (1 - (2 : ℚ) ^ (-25 : ℤ)) / (2 : ℚ) ^ (-24 : ℤ) = ((16777215 : ℤ) : ℚ) + 1 / 2 := by
    norm_num
  rw [e2, rhe_tie_odd _ (by norm_num)]
  norm_num

theorem round_above_one : F32.round (1 + (2 : ℚ) ^ (-24 : ℤ)) = 1 := by
  rw [round_eval 0 (by norm_num) (by norm_num)]
  have e1 : max ((0 : ℤ) - 23) (-149) = -23 := by norm_num
  rw [e1]
  have e2 : (1 + (2 : ℚ) ^ (-24 : ℤ)) / (2 : ℚ) ^ (-23 : ℤ) = ((8388608 : ℤ) : ℚ) + 1 / 2 := by
    norm_num
  rw [e2, rhe_tie_even _ (by norm_num)]
  norm_num

theorem round_below_two_pow : F32.round ((2 : ℚ) ^ (25 : ℕ) - 1) = (2 : ℚ) ^ (25 : ℕ) := by
  rw [round_eval 24 (by norm_num) (by norm_num)]
  have e1 : max ((24 : ℤ) - 23) (-149) = 1 := by norm_num
  rw [e1]
  have e2 : ((2 : ℚ) ^ (25 : ℕ) - 1) / (2 : ℚ) ^ (1 : ℤ) = ((16777215 : ℤ) : ℚ) + 1 / 2 := by
    norm_num
  rw [e2, rhe_tie_odd _ (by norm_num)]
  norm_num

/-- Rounded product `c * d` of a coefficient `c ≤ 1 - 2^-24`, the largest
binary32 value below `1`, with the rounded difference `d` of two binary32 values
stays at or below the exact difference. -/
theorem round_scaled_diff_le (t v c : ℚ) (ht : F32.round t = t) (hv : F32.round v = v)
    (hc0 : 0 ≤ c) (hc1 : c ≤ 1 - (2 : ℚ) ^ (-24 : ℤ)) (hvt : v ≤ t) :
    0 ≤ F32.round (c * F32.round (t - v)) ∧ F32.round (c * F32.round (t - v)) ≤ t - v := by
  have hx0 : 0 ≤ t - v := by linarith
  have hd0 : 0 ≤ F32.round (t - v) := round_nonneg hx0
  have hz0 : 0 ≤ c * F32.round (t - v) := mul_nonneg hc0 hd0
  refine ⟨round_nonneg hz0, ?_⟩
  have e24 : (2 : ℚ) ^ (-24 : ℤ) = 1 / 16777216 := by norm_num
  have hc1' : c ≤ 1 := by rw [e24] at hc1; linarith
  obtain ⟨mt, hmt⟩ := round_grid ht
  obtain ⟨mv, hmv⟩ := round_grid hv
  have hgrid : t - v = ((mt - mv : ℤ) : ℚ) * (2 : ℚ) ^ (-149 : ℤ) := by
    rw [hmt, hmv]; push_cast; ring
  have hg0 : (0 : ℚ) < (2 : ℚ) ^ (-149 : ℤ) := zpow_pos (by norm_num) _
  rcases lt_or_le (t - v) ((2 : ℚ) ^ (-126 : ℤ)) with hsmall | hbig
  · -- the difference is exact
    have hm0 : 0 ≤ mt - mv := by
      by_contra hneg
      have : ((mt - mv : ℤ) : ℚ) < 0 := by exact_mod_cast not_le.mp hneg
      have := mul_neg_of_neg_of_pos this hg0
      rw [← hgrid] at this
      linarith
    have hexact : F32.round (t - v) = t - v := by
      rw [hgrid]
      exact round_small_grid _ hm0 (by rw [← hgrid]; exact hsmall)
    rw [hexact]
    calc F32.round (c * (t - v)) ≤ F32.round (t - v) :=
          round_mono (by nlinarith)
      _ = t - v := hexact
  · generalize hxdef : t - v = x at *
    rcases le_or_lt (F32.round x) x with hdx | hdx
    · calc F32.round (c * F32.round x) ≤ F32.round (F32.round x) :=
            round_mono (by nlinarith)
        _ = F32.round x := round_round x
        _ ≤ x := hdx
    · -- the difference was rounded up to `m * Q`
      have hpos : 0 < x := lt_of_lt_of_le (zpow_pos (by norm_num) _) hbig
      obtain ⟨e, he⟩ : ∃ e : ℤ, e = Int.log 2 x := ⟨_, rfl⟩
      have hlog : -126 ≤ e := by
        rw [he, ← Int.zpow_le_iff_le_log (by norm_num : 1 < 2) hpos]
        exact_mod_cast hbig
      have hlo : (2 : ℚ) ^ e ≤ x := by
        rw [he]; exact_mod_cast Int.zpow_log_le_self (by norm_num : 1 < 2) hpos
      have hhi : x < (2 : ℚ) ^ (e + 1) := by
        rw [he]; exact_mod_cast Int.lt_zpow_succ_log_self (by norm_num : 1 < 2) x
      obtain ⟨Q, hQdef⟩ : ∃ Q : ℚ, Q = (2 : ℚ) ^ (e - 23) := ⟨_, rfl⟩
      have hQ : 0 < Q := by rw [hQdef]; exact zpow_pos (by norm_num) _
      have hq : F32.quantum x = Q := by
        unfold F32.quantum
        rw [quantum_exp_of_pos hpos, ← he, max_eq_left (by omega), hQdef]
      have h23 : (2 : ℚ) ^ e = 2 ^ 23 * Q := by
        rw [hQdef, sub_eq_add_neg, zpow_add₀ (by norm_num : (2 : ℚ) ≠ 0)]
        norm_num
        field_simp
      have h24 : (2 : ℚ) ^ (e + 1) = 2 ^ 24 * Q := by
        rw [zpow_add₀ (by norm_num : (2 : ℚ) ≠ 0), h23]
        norm_num
        ring
      obtain ⟨m, hmdef⟩ : ∃ m : ℤ, m = round_half_even (x / Q) := ⟨_, rfl⟩
      have hd : F32.round x = (m : ℚ) * Q := by
        rw [round_of_nonneg (le_of_lt hpos), hq, hmdef]
      have hm_gt : x / Q < (m : ℚ) := by
        rw [div_lt_iff₀ hQ, ← hd]; exact hdx
      have hxQ_lo : (2 : ℚ) ^ 23 ≤ x / Q := by
        rw [le_div_iff₀ hQ, ← h23]; exact hlo
      have hxQ_hi : x / Q < (2 : ℚ) ^ 24 := by
        rw [div_lt_iff₀ hQ, ← h24]; exact hhi
      have hfl_lt : ⌊x / Q⌋ < 2 ^ 24 := by
        rw [Int.floor_lt]; exact_mod_cast hxQ_hi
      have hm_le : m ≤ ⌊x / Q⌋ + 1 := by rw [hmdef]; exact rhe_le_floor_succ _
      have hm_hi : m ≤ 2 ^ 24 := by omega
      have hm_lo : 2 ^ 23 + 1 ≤ m := by
        have h1 : ((2 ^ 23 : ℤ) : ℚ) < (m : ℚ) := by
          push_cast; exact lt_of_le_of_lt hxQ_lo hm_gt
        have h2 : (2 ^ 23 : ℤ) < m := by exact_mod_cast h1
        omega
      have hm1 : ((m : ℚ) - 1) * Q ≤ x := by
        have h1 : ((m : ℚ) - 1) ≤ x / Q := by
          have h2 : ((m : ℤ) : ℚ) ≤ ((⌊x / Q⌋ + 1 : ℤ) : ℚ) := by exact_mod_cast hm_le
          push_cast at h2
          have h3 := Int.floor_le (x / Q)
          linarith
        rwa [le_div_iff₀ hQ] at h1
      have hmq0 : (0 : ℚ) ≤ (m : ℚ) := by
        have : (0 : ℤ) ≤ m := by omega
        exact_mod_cast this
      rw [hd]
      suffices hs : F32.round (c * ((m : ℚ) * Q)) ≤ ((m : ℚ) - 1) * Q from le_trans hs hm1
      rcases eq_or_lt_of_le hm_hi with hm24 | hm24
      · have hle : c * ((m : ℚ) * Q) ≤ ((2 ^ 24 - 1 : ℤ) : ℚ) * (2 : ℚ) ^ (e - 23) := by
          rw [← hQdef, hm24]
          push_cast
          have h1 : c * (2 ^ 24 : ℚ) ≤ (2 ^ 24 - 1 : ℚ) := by
            rw [e24] at hc1
            have := mul_le_mul_of_nonneg_right hc1 (show (0 : ℚ) ≤ 2 ^ 24 by norm_num)
            norm_num at this ⊢
            linarith
          have h2 := mul_le_mul_of_nonneg_right h1 (le_of_lt hQ)
          norm_num at h2 ⊢
          linarith
        calc F32.round (c * ((m : ℚ) * Q))
            ≤ F32.round (((2 ^ 24 - 1 : ℤ) : ℚ) * (2 : ℚ) ^ (e - 23)) := round_mono hle
          _ = ((2 ^ 24 - 1 : ℤ) : ℚ) * (2 : ℚ) ^ (e - 23) :=
              round_of_rep _ _ (by norm_num) (by omega)
          _ = ((m : ℚ) - 1) * Q := by rw [← hQdef, hm24]; push_cast; ring
      · have hmq_lo : (8388609 : ℚ) ≤ (m : ℚ) := by
          have : (8388609 : ℤ) ≤ m := by norm_num at hm_lo; omega
          exact_mod_cast this
        have hcm : c * (m : ℚ) < (m : ℚ) - 1 / 2 := by
          have h1 : c * (m : ℚ) ≤ (1 - (2 : ℚ) ^ (-24 : ℤ)) * (m : ℚ) :=
            mul_le_mul_of_nonneg_right hc1 hmq0
          rw [e24] at h1
          linarith
        have hz_lt : c * ((m : ℚ) * Q) < ((m : ℚ) - 1 / 2) * Q := by
          calc c * ((m : ℚ) * Q) = (c * (m : ℚ)) * Q := by ring
            _ < ((m : ℚ) - 1 / 2) * Q := mul_lt_mul_of_pos_right hcm hQ
        rcases lt_or_le (c * ((m : ℚ) * Q)) ((2 : ℚ) ^ e) with hz | hz
        · calc F32.round (c * ((m : ℚ) * Q)) ≤ F32.round ((2 : ℚ) ^ e) :=
                round_mono (le_of_lt hz)
            _ = (2 : ℚ) ^ e := round_two_zpow e (by omega)
            _ = 2 ^ 23 * Q := h23
            _ ≤ ((m : ℚ) - 1) * Q := by
                apply mul_le_mul_of_nonneg_right _ (le_of_lt hQ)
                norm_num
                linarith
        · have hzhi : c * ((m : ℚ) * Q) < (2 : ℚ) ^ (e + 1) := by
            rw [h24]
            have hm24q : (m : ℚ) ≤ 2 ^ 24 := by exact_mod_cast hm_hi
            calc c * ((m : ℚ) * Q) < ((m : ℚ) - 1 / 2) * Q := hz_lt
              _ ≤ 2 ^ 24 * Q := by
                  apply mul_le_mul_of_nonneg_right _ (le_of_lt hQ)
                  linarith
          rw [round_eval e hz hzhi, max_eq_left (by omega), ← hQdef]
          have h1 := rhe_le_add_half (c * ((m : ℚ) * Q) / Q)
          have h2 : c * ((m : ℚ) * Q) / Q < (m : ℚ) - 1 / 2 := by
            rw [div_lt_iff₀ hQ]; exact hz_lt
          have h3 : (round_half_even (c * ((m : ℚ) * Q) / Q) : ℚ) < (m : ℚ) := by linarith
          have h4 : round_half_even (c * ((m : ℚ) * Q) / Q) ≤ m - 1 := by
            have : round_half_even (c * ((m : ℚ) * Q) / Q) < m := by exact_mod_cast h3
            omega
          calc (round_half_even (c * ((m : ℚ) * Q) / Q) : ℚ) * Q
              ≤ ((m - 1 : ℤ) : ℚ) * Q :=
                mul_le_mul_of_nonneg_right (by exact_mod_cast h4) (le_of_lt hQ)
            _ = ((m : ℚ) - 1) * Q := by push_cast; ring

theorem rhe_ge_sub_half (x : ℚ) : x - 1 / 2 ≤ (round_half_even x : ℚ) := by
  have h1 := Int.lt_floor_add_one x
  have h0 := Int.floor_le x
  unfold round_half_even
  split_ifs with h2 h3 h4
  · linarith
  · push_cast; linarith
  · have : x - ⌊x⌋ = 1 / 2 := le_antisymm (not_lt.mp h3) (not_lt.mp h2)
    linarith
  · push_cast; linarith

theorem quantum_le (x : ℚ) (hx : 0 < x) :
    F32.quantum x ≤ x * (1 / 2 ^ 23) + 1 / 2 ^ 149 := by
  have hle : (2 : ℚ) ^ Int.log 2 x ≤ x := by
    exact_mod_cast Int.zpow_log_le_self (by norm_num : 1 < 2) hx
  have e23 : (2 : ℚ) ^ (-23 : ℤ) = 1 / 2 ^ 23 := by norm_num
  have e149 : (2 : ℚ) ^ (-149 : ℤ) = 1 / 2 ^ 149 := by norm_num
  have h23 : (0 : ℚ) < 1 / 2 ^ 23 := by norm_num
  have h149 : (0 : ℚ) < 1 / 2 ^ 149 := by norm_num
  unfold F32.quantum
  rw [quantum_exp_of_pos hx]
  rcases le_total (Int.log 2 x - 23) (-149) with h | h
  · rw [max_eq_right h, e149]
    have := mul_pos hx h23
    linarith
  · rw [max_eq_left h, sub_eq_add_neg, zpow_add₀ (by norm_num : (2 : ℚ) ≠ 0), e23]
    have := mul_le_mul_of_nonneg_right hle (le_of_lt h23)
    linarith

/-- Rounding to binary32 changes a value by at most half the spacing of the grid
around it: a relative `2 ^ (-24)` plus an absolute `2 ^ (-150)`. -/
theorem round_error (x : ℚ) : |F32.round x - x| ≤ |x| * (1 / 2 ^ 24) + 1 / 2 ^ 150 := by
  have key : ∀ y : ℚ, 0 ≤ y → |F32.round y - y| ≤ y * (1 / 2 ^ 24) + 1 / 2 ^ 150 := by
    intro y hy
    rcases eq_or_lt_of_le hy with h0 | hpos
    · rw [← h0, round_zero]; norm_num
    · have hQ := quantum_pos y
      have hq := quantum_le y hpos
      have hup := mul_le_mul_of_nonneg_right (rhe_le_add_half (y / F32.quantum y)) (le_of_lt hQ)
      have hdn := mul_le_mul_of_nonneg_right (rhe_ge_sub_half (y / F32.quantum y)) (le_of_lt hQ)
      have e3 : y / F32.quantum y * F32.quantum y = y := div_mul_cancel₀ _ (ne_of_gt hQ)
      rw [add_mul, e3] at hup
      rw [sub_mul, e3] at hdn
      rw [round_of_nonneg hy, abs_le]
      generalize (round_half_even (y / F32.quantum y) : ℚ) * F32.quantum y = r at *
      generalize F32.quantum y = Q at *
      constructor
      · linarith
      · linarith
  rcases le_total 0 x with h | h
  · rw [abs_of_nonneg h]; exact key x h
  · have hk := key (-x) (by linarith)
    rw [round_neg] at hk
    rw [abs_of_nonpos h]
    have e : -F32.round x - -x = -(F32.round x - x) := by ring
    rwa [e, abs_neg] at hk

/-- One smoothing step in binary32 differs from the exact `t - c * (t - v)` by
at most `(|t| + |v|) / 2 ^ 21 + 1 / 2 ^ 148`. -/
theorem smooth_step_error (t c v : ℚ) (hc0 : 0 ≤ c) (hc1 : c ≤ 1) :
    |F32.round (t - F32.round (c * F32.round (t - v))) - (t - c * (t - v))|
      ≤ (|t| + |v|) / 2 ^ 21 + 1 / 2 ^ 148 := by
  have h1 := round_error (t - v)
  have h2 := round_error (c * F32.round (t - v))
  have h3 := round_error (t - F32.round (c * F32.round (t - v)))
  generalize F32.round (t - F32.round (c * F32.round (t - v))) = w at *
  generalize hy : F32.round (c * F32.round (t - v)) = y at *
  generalize hd : F32.round (t - v) = d at *
  have hx : |t - v| ≤ |t| + |v| := abs_sub t v
  have hdx : |d| ≤ |t - v| + |d - (t - v)| := by
    have := abs_add (t - v) (d - (t - v))
    rwa [add_sub_cancel] at this
  have hcd : |c * d| ≤ |d| := by
    rw [abs_mul, abs_of_nonneg hc0]
    calc c * |d| ≤ 1 * |d| := mul_le_mul_of_nonneg_right hc1 (abs_nonneg _)
      _ = |d| := one_mul _
  have hyb : |y| ≤ |c * d| + |y - c * d| := by
    have := abs_add (c * d) (y - c * d)
    rwa [add_sub_cancel] at this
  have hty : |t - y| ≤ |t| + |y| := abs_sub t y
  have hcdx : |c * (d - (t - v))| ≤ |d - (t - v)| := by
    rw [abs_mul, abs_of_nonneg hc0]
    calc c * |d - (t - v)| ≤ 1 * |d - (t - v)| :=
          mul_le_mul_of_nonneg_right hc1 (abs_nonneg _)
      _ = |d - (t - v)| := one_mul _
  have htri : |w - (t - c * (t - v))|
      ≤ |w - (t - y)| + |y - c * d| + |c * (d - (t - v))| := by
    have e : w - (t - c * (t - v)) = (w - (t - y)) + -(y - c * d) + -(c * (d - (t - v))) := by
      ring
    rw [e]
    have := abs_add_three (w - (t - y)) (-(y - c * d)) (-(c * (d - (t - v))))
    rwa [abs_neg, abs_neg] at this
  have ht0 := abs_nonneg t
  have hv0 := abs_nonneg v
  have hfinal : |w - (t - y)| + |y - c * d| + |c * (d - (t - v))|
      ≤ (|t| + |v|) / 2 ^ 21 + 1 / 2 ^ 148 := by
    generalize |w - (t - y)| = a1 at *
    generalize |y - c * d| = a2 at *
    generalize |c * (d - (t - v))| = a3 at *
    generalize |d - (t - v)| = a4 at *
    generalize |t - v| = a5 at *
    generalize |c * d| = a6 at *
    generalize |t - y| = a7 at *
    generalize |d| = a8 at *
    generalize |y| = a9 at *
    generalize |t| = a10 at *
    generalize |v| = a11 at *
    norm_num at h1 h2 h3 ⊢
    linarith
  exact le_trans htri hfinal

theorem smooth_between_up (t v c : ℚ) (ht : F32.round t = t) (hv : F32.round v = v)
    (hc0 : 0 ≤ c) (hc1 : c ≤ 1 - (2 : ℚ) ^ (-24 : ℤ)) (hvt : v ≤ t) :
    v ≤ F32.round (t - F32.round (c * F32.round (t - v)))
    ∧ F32.round (t - F32.round (c * F32.round (t - v))) ≤ t := by
  obtain ⟨h0, h1⟩ := round_scaled_diff_le t v c ht hv hc0 hc1 hvt
  constructor
  · calc v = F32.round v := hv.symm
      _ ≤ _ := round_mono (by linarith)
  · calc F32.round (t - F32.round (c * F32.round (t - v))) ≤ F32.round t :=
          round_mono (by linarith)
      _ = t := ht

theorem smooth_between_down (t v c : ℚ) (ht : F32.round t = t) (hv : F32.round v = v)
    (hc0 : 0 ≤ c) (hc1 : c ≤ 1 - (2 : ℚ) ^ (-24 : ℤ)) (htv : t ≤ v) :
    t ≤ F32.round (t - F32.round (c * F32.round (t - v)))
    ∧ F32.round (t - F32.round (c * F32.round (t - v))) ≤ v := by
  have h := smooth_between_up (-t) (-v) c (by rw [round_neg, ht]) (by rw [round_neg, hv])
    hc0 hc1 (by linarith)
  have e : -t - F32.round (c * F32.round (-t - -v))
      = -(t - F32.round (c * F32.round (t - v))) := by
    have e1 : -t - -v = -(t - v) := by ring
    rw [e1, round_neg, mul_neg, round_neg]
    ring
  rw [e, round_neg] at h
  constructor <;> linarith [h.1, h.2]

theorem sub_nan_left (b : F32) : F32.sub F32.nan b = F32.nan := by
  cases b <;> rfl

theorem smooth_value32_zero (t v : ℚ) (ht : F32.representable t)
    (hd : |F32.round (t - v)| < (2 : ℚ) ^ (128 : ℕ)) :
    smooth_value32 (F32.fin t) (F32.fin 0) (F32.fin v) = F32.fin t := by
  unfold smooth_value32
  rw [sub_fin, of_rat_of_lt hd, mul_fin, zero_mul, of_rat_zero, sub_fin, sub_zero,
    of_rat_representable ht]

/-! ## Facts about the parameter layer in binary32 -/

theorem foldl_smooth_step32 (targets smooth : Parameters F32) (l : List Param) (hl : l.Nodup)
    (st : Parameters F32 × Parameters Bool) (x : Param) :
    (l.foldl (smooth_step32 targets smooth) st).1 x
        = (if x ∈ l then smooth_value32 (targets x) (smooth x) (st.1 x) else st.1 x)
    ∧ (l.foldl (smooth_step32 targets smooth) st).2 x
        = (if x ∈ l then F32.ne (smooth_value32 (targets x) (smooth x) (st.1 x)) (st.1 x)
            else st.2 x) := by
  induction l generalizing st with
  | nil => simp
  | cons a l ih =>
    have hnd := List.nodup_cons.mp hl
    rw [List.foldl_cons]
    have h := ih hnd.2 (smooth_step32 targets smooth st a)
    rw [h.1, h.2]
    by_cases hxa : x = a
    · subst hxa; simp [hnd.1, smooth_step32]
    · simp [hxa, smooth_step32, Function.update_noteq hxa]

theorem update_parameters32_params (d : DSP32) (p : Param) :
    d.update_parameters.params p
      = smooth_value32 (d.param_targets p) (d.param_smooth p) (d.params p) := by
  have h := (foldl_smooth_step32 d.param_targets d.param_smooth Param.fields
    Param.fields_nodup (d.params, d.params_modified) p).1
  simpa [DSP32.update_parameters, Param.mem_fields] using h

theorem update_parameter_targets32_target (infos : Nat → ParamInfo32) (d : DSP32) (p : Param) :
    (d.update_parameter_targets infos).param_targets p
      = clamp32 (port_value32 infos d p) (info32_of infos p).min (info32_of infos p).max := by
  simp [DSP32.update_parameter_targets, foldl_update_const, Param.mem_fields]

theorem construct32_params (L : FloatLib32) (infos : Nat → ParamInfo32) (rate : F32)
    (p : Param) : (DSP32.construct L infos rate).params p = (info32_of infos p).dflt := by
  simp [DSP32.construct, foldl_update_const, Param.mem_fields]

theorem construct32_targets (L : FloatLib32) (infos : Nat → ParamInfo32) (rate : F32)
    (p : Param) : (DSP32.construct L infos rate).param_targets p = (info32_of infos p).dflt := by
  simp [DSP32.construct, foldl_update_const, Param.mem_fields]

theorem construct32_smooth (L : FloatLib32) (infos : Nat → ParamInfo32) (rate : F32)
    (p : Param) :
    (DSP32.construct L infos rate).param_smooth p
      = smooth_coeff32 L rate (F32.fin (smooth_time p)) := by
  simp [DSP32.construct, foldl_update_const, Param.mem_fields]

/-! ## Final mix in binary32 -/

theorem representable_one : F32.representable (1 : ℚ) := by
  have := representable_int 1 (by norm_num); simpa using this

theorem div_hundred_zero : F32.div (F32.fin 0) (F32.fin 100) = F32.fin 0 := by
  rw [div_fin _ _ (by norm_num), zero_div, of_rat_zero]

theorem div_hundred_full : F32.div (F32.fin 100) (F32.fin 100) = F32.fin 1 := by
  rw [div_fin _ _ (by norm_num), div_self (by norm_num), of_rat_representable representable_one]

theorem add_nan_left (b : F32) : F32.add F32.nan b = F32.nan := by
  cases b <;> rfl

theorem add_nan_right (a : F32) : F32.add a F32.nan = F32.nan := by
  cases a <;> rfl

theorem mul_nan_right (a : F32) : F32.mul a F32.nan = F32.nan := by
  cases a <;> rfl

theorem mul_zero_left (x : F32) :
    F32.mul (F32.fin 0) x = if x.is_finite then F32.fin 0 else F32.nan := by
  cases x with
  | nan => rfl
  | inf s => simp [F32.mul, F32.is_finite]
  | fin a => simp [F32.mul, F32.is_finite, of_rat_zero]

theorem is_finite_sub_right {a b : F32} (h : (F32.sub b a).is_finite = true) :
    a.is_finite = true := by
  cases a with
  | nan => cases b <;> simp [F32.sub, F32.neg, F32.add, F32.is_finite] at h
  | inf s =>
    cases b with
    | nan => simp [F32.sub, F32.neg, F32.add, F32.is_finite] at h
    | inf r =>
      simp only [F32.sub, F32.neg, F32.add] at h
      split_ifs at h <;> simp [F32.is_finite] at h
    | fin q => simp [F32.sub, F32.neg, F32.add, F32.is_finite] at h
  | fin q => rfl

theorem lerp32_zero (a b : F32) (ha : a.is_value) :
    ((F32.sub b a).is_finite = true → lerp32 a b (F32.fin 0) = a)
    ∧ ((F32.sub b a).is_finite = false → lerp32 a b (F32.fin 0) = F32.nan) := by
  constructor
  · intro h
    have hfa := is_finite_sub_right h
    unfold lerp32
    rw [mul_zero_left, h]
    cases a with
    | nan => simp [F32.is_finite] at hfa
    | inf s => simp [F32.is_finite] at hfa
    | fin q =>
      simp only [if_true]
      rw [add_fin, add_zero, of_rat_representable ha]
  · intro h
    unfold lerp32
    rw [mul_zero_left, h]
    simp only [Bool.false_eq_true, if_false]
    exact add_nan_right a

theorem at_rest32 (d : DSP32) (p : Param) (t : ℚ) (ht : d.param_targets p = F32.fin t)
    (hc : d.param_smooth p = F32.fin 0) (hv : d.params p = F32.fin t)
    (hr : F32.representable t) : d.update_parameters.params p = F32.fin t := by
  rw [update_parameters32_params, ht, hc, hv]
  apply smooth_value32_zero t t hr
  rw [sub_self, round_zero]
  norm_num

theorem demo_dry_params32 :
    demo_dry_dsp32.update_parameters.params Param.mix = F32.fin 0
    ∧ demo_dry_dsp32.update_parameters.params Param.dry_level = F32.fin 0
    ∧ demo_dry_dsp32.update_parameters.params Param.predelay_level = F32.fin 0
    ∧ demo_dry_dsp32.update_parameters.params Param.early_level = F32.fin 0
    ∧ demo_dry_dsp32.update_parameters.params Param.late_level = F32.fin 100 := by
  have h100 : F32.representable (100 : ℚ) := by
    have := representable_int 100 (by norm_num); simpa using this
  exact ⟨at_rest32 _ _ 0 rfl rfl rfl representable_zero,
    at_rest32 _ _ 0 rfl rfl rfl representable_zero,
    at_rest32 _ _ 0 rfl rfl rfl representable_zero,
    at_rest32 _ _ 0 rfl rfl rfl representable_zero,
    at_rest32 _ _ 100 rfl rfl rfl h100⟩

theorem demo_silent_params32 :
    demo_silent_dsp32.update_parameters.params Param.mix = F32.fin 100
    ∧ demo_silent_dsp32.update_parameters.params Param.dry_level = F32.fin 0
    ∧ demo_silent_dsp32.update_parameters.params Param.predelay_level = F32.fin 0
    ∧ demo_silent_dsp32.update_parameters.params Param.early_level = F32.fin 0
    ∧ demo_silent_dsp32.update_parameters.params Param.late_level = F32.fin 0 := by
  have h100 : F32.representable (100 : ℚ) := by
    have := representable_int 100 (by norm_num); simpa using this
  exact ⟨at_rest32 _ _ 100 rfl rfl rfl h100,
    at_rest32 _ _ 0 rfl rfl rfl representable_zero,
    at_rest32 _ _ 0 rfl rfl rfl representable_zero,
    at_rest32 _ _ 0 rfl rfl rfl representable_zero,
    at_rest32 _ _ 0 rfl rfl rfl representable_zero⟩

theorem of_rat_small (n : ℤ) (h : |n| ≤ 2 ^ 24) : F32.of_rat (n : ℚ) = F32.fin (n : ℚ) :=
  of_rat_representable (representable_int n h)

theorem demo_dry_wet32 (dry : F32) (hd : dry.is_finite = true) (late : F32) :
    Object.wet32 demo_dry_dsp32.update_parameters.params dry (F32.fin 7) (F32.fin 7) late
      = F32.add (F32.fin 0) (F32.mul (F32.fin 1) late) := by
  obtain ⟨hm, h1, h2, h3, h4⟩ := demo_dry_params32
  cases dry with
  | nan => simp [F32.is_finite] at hd
  | inf s => simp [F32.is_finite] at hd
  | fin a =>
    unfold Object.wet32
    simp only [h1, h2, h3, h4, div_hundred_zero, div_hundred_full, mul_fin, add_fin, zero_mul,
      add_zero, of_rat_zero]

/-- C1 (as stated, refuted): with the smoothed `mix` at `0`, an input pair
`(3, -5)` and the left late network returning `+inf` at late level `100`, the
left output sample is NaN, not `3`: the accumulated value is `+inf` and
`0 * inf` is NaN.  With the input pair `(+inf, -5)` and every stage returning
`7`, the left output sample is NaN as well. -/
theorem mix_zero_output_is_nan :
    demo_dry_dsp32.update_parameters.params Param.mix = F32.fin 0
    ∧ (Object.process_sample32 demo_dry_dsp32 (F32.fin 3) (F32.fin (-5))
        demo_hot_stage_values).1.1 = F32.nan
    ∧ F32.ne F32.nan (F32.fin 3) = true
    ∧ (Object.process_sample32 demo_dry_dsp32 (F32.inf false) (F32.fin (-5))
        demo_stage_values).1.1 = F32.nan
    ∧ F32.ne F32.nan (F32.inf false) = true := by
  obtain ⟨hm, h1, h2, h3, h4⟩ := demo_dry_params32
  refine ⟨hm, ?_, rfl, ?_, rfl⟩
  · show lerp32 (F32.fin 3) (Object.wet32 demo_dry_dsp32.update_parameters.params (F32.fin 3)
      (F32.fin 7) (F32.fin 7) (F32.inf false))
      (F32.div (demo_dry_dsp32.update_parameters.params Param.mix) (F32.fin 100)) = F32.nan
    rw [demo_dry_wet32 (F32.fin 3) rfl, hm, div_hundred_zero]
    apply (lerp32_zero _ _ _).2
    · simp [F32.mul, F32.add, F32.sub, F32.neg, F32.is_finite]
    · have := representable_int 3 (by norm_num)
      simpa [F32.is_value] using this
  · show lerp32 (F32.inf false) (Object.wet32 demo_dry_dsp32.update_parameters.params
      (F32.inf false) (F32.fin 7) (F32.fin 7) (F32.fin 7))
      (F32.div (demo_dry_dsp32.update_parameters.params Param.mix) (F32.fin 100)) = F32.nan
    rw [hm, div_hundred_zero]
    apply (lerp32_zero (F32.inf false) _ trivial).2
    cases hw : Object.wet32 demo_dry_dsp32.update_parameters.params
      (F32.inf false) (F32.fin 7) (F32.fin 7) (F32.fin 7) with
    | nan => rfl
    | inf r => cases r <;> rfl
    | fin q => rfl

/-- C1 (amended): whenever the smoothed `mix` value used for a sample is `0`, the
sample that `Object::operator()` writes to a channel equals that channel's
input sample provided the value accumulated for the channel from the dry input
and the stage results, minus the input sample, is a finite `float`, which
requires the input sample to be finite; when that difference is NaN or infinite
the sample written is NaN.  This holds for every engine state, every other
parameter value and every value of the predelay, early and late stages. -/
theorem mix32_zero_output_is_dry (d : DSP32) (dry_left dry_right : F32) (s : StageValues)
    (hmix : d.update_parameters.params Param.mix = F32.fin 0)
    (hl : dry_left.is_value) (hr : dry_right.is_value) :
    ((F32.sub (Object.wet32 d.update_parameters.params dry_left s.predelay_left s.early_left
          s.late_left) dry_left).is_finite = true →
        dry_left.is_finite = true
        ∧ (Object.process_sample32 d dry_left dry_right s).1.1 = dry_left)
    ∧ ((F32.sub (Object.wet32 d.update_parameters.params dry_right s.predelay_right
          s.early_right s.late_right) dry_right).is_finite = true →
        dry_right.is_finite = true
        ∧ (Object.process_sample32 d dry_left dry_right s).1.2 = dry_right)
    ∧ ((F32.sub (Object.wet32 d.update_parameters.params dry_left s.predelay_left s.early_left
          s.late_left) dry_left).is_finite = false →
        (Object.process_sample32 d dry_left dry_right s).1.1 = F32.nan)
    ∧ ((F32.sub (Object.wet32 d.update_parameters.params dry_right s.predelay_right
          s.early_right s.late_right) dry_right).is_finite = false →
        (Object.process_sample32 d dry_left dry_right s).1.2 = F32.nan) := by
  simp only [Object.process_sample32, Object.mix32, hmix, div_hundred_zero]
  exact ⟨fun h => ⟨is_finite_sub_right h, (lerp32_zero _ _ hl).1 h⟩,
    fun h => ⟨is_finite_sub_right h, (lerp32_zero _ _ hr).1 h⟩,
    (lerp32_zero _ _ hl).2, (lerp32_zero _ _ hr).2⟩

theorem mix32_zero_output_is_dry_witness :
    demo_dry_dsp32.update_parameters.params Param.mix = F32.fin 0
    ∧ (Object.process_sample32 demo_dry_dsp32 (F32.fin 3) (F32.fin (-5))
        demo_stage_values).1.1 = F32.fin 3
    ∧ (Object.process_sample32 demo_dry_dsp32 (F32.fin 3) (F32.fin (-5))
        demo_stage_values).1.2 = F32.fin (-5) := by
  have r3 : F32.representable (3 : ℚ) := by
    have := representable_int 3 (by norm_num); simpa using this
  have r5 : F32.representable (-5 : ℚ) := by
    have := representable_int (-5) (by norm_num); simpa using this
  have e7 : F32.of_rat (7 : ℚ) = F32.fin 7 := by
    have := of_rat_small 7 (by norm_num); simpa using this
  have e4 : F32.of_rat (4 : ℚ) = F32.fin 4 := by
    have := of_rat_small 4 (by norm_num); simpa using this
  have e12 : F32.of_rat (12 : ℚ) = F32.fin 12 := by
    have := of_rat_small 12 (by norm_num); simpa using this
  have h := mix32_zero_output_is_dry demo_dry_dsp32 (F32.fin 3) (F32.fin (-5))
    demo_stage_values demo_dry_params32.1 r3 r5
  refine ⟨demo_dry_params32.1, (h.1 ?_).2, (h.2.1 ?_).2⟩
  · show (F32.sub (Object.wet32 demo_dry_dsp32.update_parameters.params (F32.fin 3)
      (F32.fin 7) (F32.fin 7) (F32.fin 7)) (F32.fin 3)).is_finite = true
    rw [demo_dry_wet32 (F32.fin 3) rfl, mul_fin, one_mul, e7, add_fin, zero_add, e7, sub_fin]
    norm_num
    rw [e4]; rfl
  · show (F32.sub (Object.wet32 demo_dry_dsp32.update_parameters.params (F32.fin (-5))
      (F32.fin 7) (F32.fin 7) (F32.fin 7)) (F32.fin (-5))).is_finite = true
    rw [demo_dry_wet32 (F32.fin (-5)) rfl, mul_fin, one_mul, e7, add_fin, zero_add, e7, sub_fin]
    norm_num
    rw [e12]; rfl

theorem wet32_levels_zero (params : Parameters F32) (dry predelay early late : F32)
    (hdry : params Param.dry_level = F32.fin 0)
    (hpre : params Param.predelay_level = F32.fin 0)
    (hearly : params Param.early_level = F32.fin 0)
    (hlate : params Param.late_level = F32.fin 0) :
    (dry.is_finite = true → predelay.is_finite = true → early.is_finite = true →
        late.is_finite = true → Object.wet32 params dry predelay early late = F32.fin 0)
    ∧ (dry.is_finite = false → Object.wet32 params dry predelay early late = F32.nan) := by
  unfold Object.wet32
  simp only [hdry, hpre, hearly, hlate, div_hundred_zero, mul_zero_left]
  constructor
  · intro h1 h2 h3 h4
    simp only [h1, h2, h3, h4, if_true, add_fin, add_zero, of_rat_zero]
  · intro h1
    simp only [h1, Bool.false_eq_true, if_false, add_nan_left]

theorem lerp32_full_of_zero (a : ℚ) (ha : F32.representable a) :
    lerp32 (F32.fin a) (F32.fin 0) (F32.fin 1) = F32.fin 0 := by
  unfold lerp32
  rw [sub_fin, zero_sub, of_rat_representable (representable_neg ha), mul_fin, one_mul,
    of_rat_representable (representable_neg ha), add_fin, add_neg_cancel, of_rat_zero]

/-- C2 (as stated, refuted): with the four smoothed levels at `0`, the smoothed
`mix` at `100`, every stage returning the finite value `7` and the input pair
`(+inf, -5)`, the left output sample is NaN, not `0`: `0 * inf` is NaN. -/
theorem levels_zero_mix_full_is_nan :
    demo_silent_dsp32.update_parameters.params Param.dry_level = F32.fin 0
    ∧ demo_silent_dsp32.update_parameters.params Param.predelay_level = F32.fin 0
    ∧ demo_silent_dsp32.update_parameters.params Param.early_level = F32.fin 0
    ∧ demo_silent_dsp32.update_parameters.params Param.late_level = F32.fin 0
    ∧ demo_silent_dsp32.update_parameters.params Param.mix = F32.fin 100
    ∧ (Object.process_sample32 demo_silent_dsp32 (F32.inf false) (F32.fin (-5))
        demo_stage_values).1.1 = F32.nan
    ∧ F32.ne F32.nan (F32.fin 0) = true := by
  obtain ⟨hm, h1, h2, h3, h4⟩ := demo_silent_params32
  refine ⟨h1, h2, h3, h4, hm, ?_, rfl⟩
  show lerp32 (F32.inf false) (Object.wet32 demo_silent_dsp32.update_parameters.params
    (F32.inf false) (F32.fin 7) (F32.fin 7) (F32.fin 7))
    (F32.div (demo_silent_dsp32.update_parameters.params Param.mix) (F32.fin 100)) = F32.nan
  rw [(wet32_levels_zero _ (F32.inf false) (F32.fin 7) (F32.fin 7) (F32.fin 7) h1 h2 h3 h4).2 rfl]
  unfold lerp32
  rw [sub_nan_left, mul_nan_right, add_nan_right]

/-- C2 (amended): whenever the four smoothed path levels used for a sample are
`0` and the smoothed `mix` is `100`, `Object::operator()` writes `0` to an
output channel for every finite input sample of that channel and every finite
value returned by the predelay, early and late stages; for an input sample that
is NaN or infinite it writes NaN. -/
theorem levels_zero_mix_full_is_silent32 (d : DSP32) (dry_left dry_right : F32)
    (s : StageValues)
    (hdry : d.update_parameters.params Param.dry_level = F32.fin 0)
    (hpre : d.update_parameters.params Param.predelay_level = F32.fin 0)
    (hearly : d.update_parameters.params Param.early_level = F32.fin 0)
    (hlate : d.update_parameters.params Param.late_level = F32.fin 0)
    (hmix : d.update_parameters.params Param.mix = F32.fin 100)
    (hl : dry_left.is_value) (hr : dry_right.is_value) :
    (dry_left.is_finite = true → s.predelay_left.is_finite = true →
        s.early_left.is_finite = true → s.late_left.is_finite = true →
        (Object.process_sample32 d dry_left dry_right s).1.1 = F32.fin 0)
    ∧ (dry_right.is_finite = true → s.predelay_right.is_finite = true →
        s.early_right.is_finite = true → s.late_right.is_finite = true →
        (Object.process_sample32 d dry_left dry_right s).1.2 = F32.fin 0)
    ∧ (dry_left.is_finite = false →
        (Object.process_sample32 d dry_left dry_right s).1.1 = F32.nan)
    ∧ (dry_right.is_finite = false →
        (Object.process_sample32 d dry_left dry_right s).1.2 = F32.nan) := by
  have key : ∀ (dry pre early late : F32), dry.is_value →
      (dry.is_finite = true → pre.is_finite = true → early.is_finite = true →
        late.is_finite = true →
        lerp32 dry (Object.wet32 d.update_parameters.params dry pre early late)
          (F32.div (d.update_parameters.params Param.mix) (F32.fin 100)) = F32.fin 0)
      ∧ (dry.is_finite = false →
        lerp32 dry (Object.wet32 d.update_parameters.params dry pre early late)
          (F32.div (d.update_parameters.params Param.mix) (F32.fin 100)) = F32.nan) := by
    intro dry pre early late hv
    obtain ⟨hw1, hw2⟩ := wet32_levels_zero d.update_parameters.params dry pre early late
      hdry hpre hearly hlate
    rw [hmix, div_hundred_full]
    constructor
    · intro h1 h2 h3 h4
      rw [hw1 h1 h2 h3 h4]
      cases dry with
      | nan => simp [F32.is_finite] at h1
      | inf r => simp [F32.is_finite] at h1
      | fin a => exact lerp32_full_of_zero a hv
    · intro h1
      rw [hw2 h1]
      unfold lerp32
      rw [sub_nan_left, mul_nan_right, add_nan_right]
  exact ⟨(key dry_left _ _ _ hl).1, (key dry_right _ _ _ hr).1, (key dry_left _ _ _ hl).2,
    (key dry_right _ _ _ hr).2⟩

theorem levels_zero_mix_full_is_silent32_witness :
    demo_silent_dsp32.update_parameters.params Param.mix = F32.fin 100
    ∧ (Object.process_sample32 demo_silent_dsp32 (F32.fin 3) (F32.fin (-5))
        demo_stage_values).1 = (F32.fin 0, F32.fin 0) := by
  have r3 : F32.representable (3 : ℚ) := by
    have := representable_int 3 (by norm_num); simpa using this
  have r5 : F32.representable (-5 : ℚ) := by
    have := representable_int (-5) (by norm_num); simpa using this
  obtain ⟨hm, h1, h2, h3, h4⟩ := demo_silent_params32
  have h := levels_zero_mix_full_is_silent32 demo_silent_dsp32 (F32.fin 3) (F32.fin (-5))
    demo_stage_values h1 h2 h3 h4 hm r3 r5
  exact ⟨hm, Prod.ext (h.1 rfl rfl rfl rfl) (h.2.1 rfl rfl rfl rfl)⟩

/-! ## Clamping of the targets in binary32 -/

theorem le_of_not_lt32 (v lo : F32) (hv : v ≠ F32.nan) (hlo : lo ≠ F32.nan)
    (h : F32.lt v lo = false) : F32.le lo v = true := by
  cases v with
  | nan => exact absurd rfl hv
  | inf s =>
    cases lo with
    | nan => exact absurd rfl hlo
    | inf r => cases s <;> cases r <;> simp_all [F32.lt, F32.le]
    | fin b => cases s <;> simp_all [F32.lt, F32.le]
  | fin a =>
    cases lo with
    | nan => exact absurd rfl hlo
    | inf r => cases r <;> simp_all [F32.lt, F32.le]
    | fin b => simp_all [F32.lt, F32.le]

theorem le_refl32 (v : F32) (hv : v ≠ F32.nan) : F32.le v v = true := by
  cases v with
  | nan => exact absurd rfl hv
  | inf s => cases s <;> simp [F32.le]
  | fin a => simp [F32.le]

theorem ne_nan_of_le_left {a b : F32} (h : F32.le a b = true) : a ≠ F32.nan := by
  intro e; subst e; simp [F32.le] at h

theorem ne_nan_of_le_right {a b : F32} (h : F32.le a b = true) : b ≠ F32.nan := by
  intro e; subst e
  cases a <;> simp [F32.le] at h

theorem not_lt_of_le_of_lt32 {lo hi v : F32} (h : F32.le lo hi = true)
    (hlt : F32.lt hi v = true) : F32.lt v lo = false := by
  cases lo with
  | nan => simp [F32.le] at h
  | inf r =>
    cases hi with
    | nan => simp [F32.le] at h
    | inf s =>
      cases v with
      | nan => simp [F32.lt] at hlt
      | inf q => cases r <;> cases s <;> cases q <;> simp_all [F32.lt, F32.le]
      | fin c => cases r <;> cases s <;> simp_all [F32.lt, F32.le]
    | fin b =>
      cases v with
      | nan => simp [F32.lt] at hlt
      | inf q => cases r <;> cases q <;> simp_all [F32.lt, F32.le]
      | fin c => cases r <;> simp_all [F32.lt, F32.le]
  | fin a =>
    cases hi with
    | nan => simp [F32.le] at h
    | inf s =>
      cases v with
      | nan => simp [F32.lt] at hlt
      | inf q => cases s <;> cases q <;> simp_all [F32.lt, F32.le]
      | fin c => cases s <;> simp_all [F32.lt, F32.le]
    | fin b =>
      cases v with
      | nan => simp [F32.lt] at hlt
      | inf q => cases q <;> simp_all [F32.lt, F32.le]
      | fin c =>
        simp only [F32.lt, F32.le, decide_eq_true_eq, decide_eq_false_iff_not, not_lt] at *
        linarith

theorem clamp32_mem (v lo hi : F32) (h : F32.le lo hi = true) (hv : v ≠ F32.nan) :
    F32.le lo (clamp32 v lo hi) = true ∧ F32.le (clamp32 v lo hi) hi = true := by
  have hlo := ne_nan_of_le_left h
  have hhi := ne_nan_of_le_right h
  unfold clamp32
  by_cases h1 : F32.lt v lo = true
  · simp only [h1, if_true]
    exact ⟨le_refl32 lo hlo, h⟩
  · have h1f : F32.lt v lo = false := by simpa using h1
    by_cases h2 : F32.lt hi v = true
    · simp only [h1f, h2, if_true]
      exact ⟨h, le_refl32 hi hhi⟩
    · have h2f : F32.lt hi v = false := by simpa using h2
      simp only [h1f, h2f]
      exact ⟨le_of_not_lt32 v lo hv hlo h1f, le_of_not_lt32 hi v hhi hv h2f⟩

theorem lt_nan_right (a : F32) : F32.lt a F32.nan = false := by
  cases a <;> rfl

theorem lt_nan_left (b : F32) : F32.lt F32.nan b = false := by
  cases b <;> rfl

theorem clamp32_nan (lo hi : F32) : clamp32 F32.nan lo hi = F32.nan := by
  simp only [clamp32, lt_nan_left, lt_nan_right]
  simp

/-- C3 (as stated, refuted): a NaN read through a bound port is stored as the
target unchanged, so the target is not inside `[min, max]` although
`min ≤ max`, and no bound replaces it. -/
theorem nan_port_is_stored_as_target :
    demo_ported_dsp32.param_ports Param.interpolate = some F32.nan
    ∧ F32.le (info32_of demo_infos32 Param.interpolate).min
        (info32_of demo_infos32 Param.interpolate).max = true
    ∧ (demo_ported_dsp32.update_parameter_targets demo_infos32).param_targets Param.interpolate
        = F32.nan
    ∧ F32.le (info32_of demo_infos32 Param.interpolate).min
        ((demo_ported_dsp32.update_parameter_targets demo_infos32).param_targets
          Param.interpolate) = false
    ∧ F32.le ((demo_ported_dsp32.update_parameter_targets demo_infos32).param_targets
          Param.interpolate) (info32_of demo_infos32 Param.interpolate).max = false := by
  have h : (demo_ported_dsp32.update_parameter_targets demo_infos32).param_targets
      Param.interpolate = F32.nan := by
    rw [update_parameter_targets32_target]
    simp [port_value32, demo_ported_dsp32, clamp32_nan]
  rw [h]
  refine ⟨by simp [demo_ported_dsp32], ?_, rfl, ?_, ?_⟩ <;>
    simp [info32_of, demo_infos32, F32.le]

/-- C3 (amended): after `update_parameter_targets` the target of every one of the
47 parameters is `clamp(v, min, max)`, computed as `std::clamp` does, with `v`
the value read through the port when it is bound and the declared default when
it is null; for `min ≤ max` and `v` not NaN the target lies in `[min, max]`, a
port value below `min` gives `min` and one above `max`, `+inf` included, gives
`max`; a NaN is stored as the target unchanged; current values, coefficients,
flags and ports are unchanged. -/
theorem update_parameter_targets32_clamps (infos : Nat → ParamInfo32) (d : DSP32) :
    Parameters.size = 47
    ∧ (∀ p : Param, ∀ v : F32, d.param_ports p = some v →
        (d.update_parameter_targets infos).param_targets p
          = clamp32 v (info32_of infos p).min (info32_of infos p).max)
    ∧ (∀ p : Param, d.param_ports p = none →
        (d.update_parameter_targets infos).param_targets p
          = clamp32 (info32_of infos p).dflt (info32_of infos p).min (info32_of infos p).max)
    ∧ (∀ p : Param, F32.le (info32_of infos p).min (info32_of infos p).max = true →
        port_value32 infos d p ≠ F32.nan →
        F32.le (info32_of infos p).min ((d.update_parameter_targets infos).param_targets p)
            = true
        ∧ F32.le ((d.update_parameter_targets infos).param_targets p) (info32_of infos p).max
            = true)
    ∧ (∀ p : Param, ∀ v : F32, d.param_ports p = some v →
        F32.lt v (info32_of infos p).min = true →
        (d.update_parameter_targets infos).param_targets p = (info32_of infos p).min)
    ∧ (∀ p : Param, ∀ v : F32, d.param_ports p = some v →
        F32.le (info32_of infos p).min (info32_of infos p).max = true →
        F32.lt (info32_of infos p).max v = true →
        (d.update_parameter_targets infos).param_targets p = (info32_of infos p).max)
    ∧ (∀ p : Param, d.param_ports p = some F32.nan →
        (d.update_parameter_targets infos).param_targets p = F32.nan)
    ∧ (d.update_parameter_targets infos).params = d.params
    ∧ (d.update_parameter_targets infos).param_smooth = d.param_smooth
    ∧ (d.update_parameter_targets infos).params_modified = d.params_modified
    ∧ (d.update_parameter_targets infos).param_ports = d.param_ports := by
  refine ⟨rfl, ?_, ?_, ?_, ?_, ?_, ?_, rfl, rfl, rfl, rfl⟩
  · intro p v hv
    rw [update_parameter_targets32_target, port_value32, hv]
  · intro p hv
    rw [update_parameter_targets32_target, port_value32, hv]
  · intro p h hn
    rw [update_parameter_targets32_target]
    exact clamp32_mem _ _ _ h hn
  · intro p v hv hlt
    rw [update_parameter_targets32_target, port_value32, hv]
    simp [clamp32, hlt]
  · intro p v hv hle hlt
    rw [update_parameter_targets32_target, port_value32, hv]
    simp [clamp32, not_lt_of_le_of_lt32 hle hlt, hlt]
  · intro p hv
    rw [update_parameter_targets32_target, port_value32, hv]
    exact clamp32_nan _ _

theorem update_parameter_targets32_clamps_witness :
    (demo_ported_dsp32.update_parameter_targets demo_infos32).param_targets Param.mix
        = F32.fin 100
    ∧ (demo_ported_dsp32.update_parameter_targets demo_infos32).param_targets Param.width
        = F32.fin 0
    ∧ (demo_ported_dsp32.update_parameter_targets demo_infos32).param_targets Param.predelay
        = F32.fin 100
    ∧ (demo_ported_dsp32.update_parameter_targets demo_infos32).param_targets Param.late_order
        = clamp32 (F32.fin 50) (F32.fin 0) (F32.fin 100) :=
  ⟨(update_parameter_targets32_clamps demo_infos32 demo_ported_dsp32).2.2.2.2.2.1 Param.mix
      (F32.fin 150) rfl (by simp [info32_of, demo_infos32, F32.le])
      (by simp [info32_of, demo_infos32, F32.lt]; norm_num),
   (update_parameter_targets32_clamps demo_infos32 demo_ported_dsp32).2.2.2.2.1 Param.width
      (F32.fin (-3)) rfl (by simp [info32_of, demo_infos32, F32.lt]),
   (update_parameter_targets32_clamps demo_infos32 demo_ported_dsp32).2.2.2.2.2.1
      Param.predelay (F32.inf false) rfl (by simp [info32_of, demo_infos32, F32.le])
      (by simp [info32_of, demo_infos32, F32.lt]),
   (update_parameter_targets32_clamps demo_infos32 demo_ported_dsp32).2.2.1 Param.late_order
      rfl⟩

/-! ## Range invariant and smoothing in binary32 -/

theorem round_abs_le_round {x D : ℚ} (h : |x| ≤ D) : |F32.round x| ≤ F32.round D := by
  rw [abs_le] at h ⊢
  constructor
  · have h1 := round_mono h.1
    rwa [round_neg] at h1
  · exact round_mono h.2

theorem is_finite_of_rat (x : ℚ) :
    (F32.of_rat x).is_finite = true ↔ |F32.round x| < (2 : ℚ) ^ (128 : ℕ) := by
  unfold F32.of_rat
  split_ifs with h
  · simp [F32.is_finite, not_lt.mpr h]
  · simp [F32.is_finite, not_le.mp h]

theorem lt_one_le_pred {c : ℚ} (hr : F32.round c = c) (h : c < 1) :
    c ≤ 1 - (2 : ℚ) ^ (-24 : ℤ) := by
  rcases lt_or_le c ((2 : ℚ) ^ (-1 : ℤ)) with hs | hs
  · have : (2 : ℚ) ^ (-1 : ℤ) ≤ 1 - (2 : ℚ) ^ (-24 : ℤ) := by norm_num
    linarith
  · have he := round_eval (-1) hs (by norm_num; exact h)
    rw [hr, max_eq_left (by norm_num)] at he
    have e1 : ((-1 : ℤ) - 23) = -24 := by norm_num
    rw [e1] at he
    obtain ⟨n, hn⟩ : ∃ n : ℤ, n = round_half_even (c / (2 : ℚ) ^ (-24 : ℤ)) := ⟨_, rfl⟩
    rw [← hn] at he
    have e24 : (2 : ℚ) ^ (-24 : ℤ) = 1 / 16777216 := by norm_num
    rw [e24] at he ⊢
    have h2 : (n : ℚ) < ((16777216 : ℤ) : ℚ) := by
      push_cast
      linarith
    have h3 : n ≤ 16777215 := by
      have : n < 16777216 := by exact_mod_cast h2
      omega
    have h4 : (n : ℚ) ≤ ((16777215 : ℤ) : ℚ) := by exact_mod_cast h3
    push_cast at h4
    linarith

theorem smooth_value32_between (t c v D : ℚ) (ht : F32.representable t)
    (hv : F32.representable v) (hc0 : 0 ≤ c) (hc1 : c ≤ 1 - (2 : ℚ) ^ (-24 : ℤ))
    (hD : |t - v| ≤ D) (hDr : F32.round D < (2 : ℚ) ^ (128 : ℕ)) :
    smooth_value32 (F32.fin t) (F32.fin c) (F32.fin v)
        = F32.fin (F32.round (t - F32.round (c * F32.round (t - v))))
    ∧ F32.representable (F32.round (t - F32.round (c * F32.round (t - v))))
    ∧ (v ≤ t → v ≤ F32.round (t - F32.round (c * F32.round (t - v)))
        ∧ F32.round (t - F32.round (c * F32.round (t - v))) ≤ t)
    ∧ (t ≤ v → t ≤ F32.round (t - F32.round (c * F32.round (t - v)))
        ∧ F32.round (t - F32.round (c * F32.round (t - v))) ≤ v) := by
  have hc1' : c ≤ 1 := by
    have : (0 : ℚ) < (2 : ℚ) ^ (-24 : ℤ) := zpow_pos (by norm_num) _
    linarith
  have hd := round_abs_le_round hD
  have hcd : |c * F32.round (t - v)| ≤ F32.round D := by
    rw [abs_mul, abs_of_nonneg hc0]
    calc c * |F32.round (t - v)| ≤ 1 * |F32.round (t - v)| :=
          mul_le_mul_of_nonneg_right hc1' (abs_nonneg _)
      _ ≤ F32.round D := by rw [one_mul]; exact hd
  have hy : |F32.round (c * F32.round (t - v))| ≤ F32.round D := by
    have h1 := round_abs_le_round hcd
    rwa [round_round] at h1
  have hup := fun h => smooth_between_up t v c ht.1 hv.1 hc0 hc1 h
  have hdown := fun h => smooth_between_down t v c ht.1 hv.1 hc0 hc1 h
  have hW : |F32.round (t - F32.round (c * F32.round (t - v)))| < (2 : ℚ) ^ (128 : ℕ) := by
    have h1 := abs_lt.mp ht.2
    have h2 := abs_lt.mp hv.2
    rw [abs_lt]
    rcases le_total v t with h | h
    · obtain ⟨a, b⟩ := hup h
      constructor <;> linarith
    · obtain ⟨a, b⟩ := hdown h
      constructor <;> linarith
  refine ⟨?_, ⟨round_round _, hW⟩, hup, hdown⟩
  unfold smooth_value32
  rw [sub_fin, of_rat_of_lt (lt_of_le_of_lt hd hDr), mul_fin,
    of_rat_of_lt (lt_of_le_of_lt hy hDr), sub_fin, of_rat_of_lt hW]

theorem clamp32_fin_mem (v : F32) (lo hi : ℚ) (hv : v.is_value) (hn : v ≠ F32.nan)
    (hlo : F32.representable lo) (hhi : F32.representable hi) (hle : lo ≤ hi) :
    ∃ t : ℚ, clamp32 v (F32.fin lo) (F32.fin hi) = F32.fin t ∧ F32.representable t
      ∧ lo ≤ t ∧ t ≤ hi := by
  cases v with
  | nan => exact absurd rfl hn
  | inf s =>
    cases s with
    | true => exact ⟨lo, by simp [clamp32, F32.lt], hlo, le_refl _, hle⟩
    | false => exact ⟨hi, by simp [clamp32, F32.lt], hhi, hle, le_refl _⟩
  | fin a =>
    by_cases h1 : a < lo
    · exact ⟨lo, by simp [clamp32, F32.lt, h1], hlo, le_refl _, hle⟩
    · by_cases h2 : hi < a
      · exact ⟨hi, by simp [clamp32, F32.lt, h1, h2], hhi, hle, le_refl _⟩
      · exact ⟨a, by simp [clamp32, F32.lt, h1, h2], hv, not_lt.mp h1, not_lt.mp h2⟩

theorem in_range32_construct (L : FloatLib32) (infos : Nat → ParamInfo32) (rate : F32)
    (hi : ∀ p : Param, (info32_of infos p).well_formed) :
    (DSP32.construct L infos rate).in_range infos := by
  intro p
  obtain ⟨lo, hi, df, hmin, hmax, hdf, _, _, rdf, h1, h2, _⟩ := hi p
  exact ⟨lo, hi, df, df, hmin, hmax, by rw [construct32_params, hdf],
    by rw [construct32_targets, hdf], rdf, rdf, ⟨h1, h2⟩, ⟨h1, h2⟩⟩

theorem in_range32_update_parameter_targets (infos : Nat → ParamInfo32) (d : DSP32)
    (hi : ∀ p : Param, (info32_of infos p).well_formed)
    (hp : ∀ (p : Param) (v : F32), d.param_ports p = some v → v.is_value ∧ v ≠ F32.nan)
    (h : d.in_range infos) : (d.update_parameter_targets infos).in_range infos := by
  intro p
  obtain ⟨lo, hi, df, hmin, hmax, hdf, rlo, rhi, rdf, h1, h2, _⟩ := hi p
  obtain ⟨lo', hi', v, t, hmin', hmax', hv, _, rv, _, hvr, _⟩ := h p
  have elo : lo' = lo := by rw [hmin] at hmin'; exact (F32.fin.inj hmin').symm
  have ehi : hi' = hi := by rw [hmax] at hmax'; exact (F32.fin.inj hmax').symm
  subst elo; subst ehi
  have hval : (port_value32 infos d p).is_value ∧ port_value32 infos d p ≠ F32.nan := by
    unfold port_value32
    cases hpp : d.param_ports p with
    | none =>
      simp only [hdf]
      exact ⟨rdf, by simp⟩
    | some w => exact hp p w hpp
  obtain ⟨t', ht', rt', hb⟩ := clamp32_fin_mem (port_value32 infos d p) lo' hi' hval.1 hval.2
    rlo rhi (le_trans h1 h2)
  refine ⟨lo', hi', v, t', hmin, hmax, hv, ?_, rv, rt', hvr, hb⟩
  rw [update_parameter_targets32_target, hmin, hmax, ht']

theorem in_range32_update_parameters (infos : Nat → ParamInfo32) (d : DSP32)
    (hi : ∀ p : Param, (info32_of infos p).well_formed)
    (hc : ∀ p : Param, (d.param_smooth p).is_coeff)
    (h : d.in_range infos) : d.update_parameters.in_range infos := by
  intro p
  obtain ⟨lo, hi, df, hmin, hmax, hdf, rlo, rhi, rdf, h1, h2, hfin⟩ := hi p
  obtain ⟨lo', hi', v, t, hmin', hmax', hv, ht, rv, rt, hvr, htr⟩ := h p
  have elo : lo' = lo := by rw [hmin] at hmin'; exact (F32.fin.inj hmin').symm
  have ehi : hi' = hi := by rw [hmax] at hmax'; exact (F32.fin.inj hmax').symm
  subst elo; subst ehi
  obtain ⟨c, hcs, rc, hc0, hc1⟩ := hc p
  rw [hmin, hmax, sub_fin, is_finite_of_rat] at hfin
  have hD : |t - v| ≤ hi' - lo' := by
    rw [abs_le]; constructor <;> linarith [hvr.1, hvr.2, htr.1, htr.2]
  have hDr : F32.round (hi' - lo') < (2 : ℚ) ^ (128 : ℕ) := lt_of_le_of_lt (le_abs_self _) hfin
  obtain ⟨e, hrw, hup, hdown⟩ := smooth_value32_between t c v (hi' - lo') rt rv hc0
    (lt_one_le_pred rc.1 hc1) hD hDr
  refine ⟨lo', hi', _, t, hmin, hmax, ?_, ht, hrw, rt, ?_, htr⟩
  · rw [update_parameters32_params, ht, hcs, hv, e]
  · rcases le_total v t with hvt | hvt
    · obtain ⟨a, b⟩ := hup hvt
      exact ⟨by linarith [hvr.1], by linarith [htr.2]⟩
    · obtain ⟨a, b⟩ := hdown hvt
      exact ⟨by linarith [htr.1], by linarith [hvr.2]⟩

theorem in_range32_param_ops (infos : Nat → ParamInfo32) (ops : List ParamOp32) (d : DSP32)
    (hi : ∀ p : Param, (info32_of infos p).well_formed)
    (hc : ∀ p : Param, (d.param_smooth p).is_coeff)
    (hops : ∀ op ∈ ops, op.no_nan)
    (h : d.in_range infos) : (d.param_ops infos ops).in_range infos := by
  induction ops generalizing d with
  | nil => exact h
  | cons op ops ih =>
    rw [DSP32.param_ops, List.foldl_cons]
    have hrest : ∀ op' ∈ ops, op'.no_nan := fun op' ho => hops op' (List.mem_cons_of_mem _ ho)
    have hop := hops op (List.mem_cons_self _ _)
    cases op with
    | update_parameter_targets ports =>
      exact ih _ hc hrest
        (in_range32_update_parameter_targets infos { d with param_ports := ports } hi hop h)
    | update_parameters =>
      exact ih _ hc hrest (in_range32_update_parameters infos d hi hc h)

theorem param_ops32_refresh_step (infos : Nat → ParamInfo32) (d : DSP32)
    (ports : Param → Option F32) (p : Param) :
    (d.param_ops infos [ParamOp32.update_parameter_targets ports,
        ParamOp32.update_parameters]).param_targets p
      = clamp32 (port_value32 infos { d with param_ports := ports } p)
          (info32_of infos p).min (info32_of infos p).max
    ∧ (d.param_ops infos [ParamOp32.update_parameter_targets ports,
        ParamOp32.update_parameters]).params p
      = smooth_value32
          (clamp32 (port_value32 infos { d with param_ports := ports } p)
            (info32_of infos p).min (info32_of infos p).max)
          (d.param_smooth p) (d.params p) := by
  have e : d.param_ops infos [ParamOp32.update_parameter_targets ports,
      ParamOp32.update_parameters]
      = (DSP32.update_parameter_targets infos { d with param_ports := ports }).update_parameters :=
    rfl
  rw [e]
  constructor
  · show (DSP32.update_parameter_targets infos { d with param_ports := ports }).param_targets p
      = _
    rw [update_parameter_targets32_target]
  · rw [update_parameters32_params, update_parameter_targets32_target]
    rfl

theorem demo_smooth32 (p : Param) :
    (DSP32.construct demo_lib32 demo_infos32 (F32.fin 48000)).param_smooth p = F32.fin (1 / 2)
    ∨ (DSP32.construct demo_lib32 demo_infos32 (F32.fin 48000)).param_smooth p = F32.fin 0 := by
  rw [construct32_smooth]
  unfold smooth_coeff32
  by_cases h : smooth_time p = 0
  · right; simp [h, F32.ne]
  · left; simp [h, F32.ne, demo_lib32]

theorem representable_half : F32.representable (1 / 2) := by
  constructor
  · have h := round_two_zpow (-1) (by norm_num)
    have e : (2 : ℚ) ^ (-1 : ℤ) = 1 / 2 := by norm_num
    rwa [e] at h
  · rw [abs_of_pos (by norm_num)]; norm_num

theorem demo_infos32_well_formed (p : Param) : (info32_of demo_infos32 p).well_formed := by
  have h0 : F32.representable (0 : ℚ) := representable_zero
  have h100 : F32.representable (100 : ℚ) := by
    have := representable_int 100 (by norm_num); simpa using this
  have h50 : F32.representable (50 : ℚ) := by
    have := representable_int 50 (by norm_num); simpa using this
  refine ⟨0, 100, 50, rfl, rfl, rfl, h0, h100, h50, by norm_num, by norm_num, ?_⟩
  simp only [info32_of, demo_infos32]
  rw [sub_fin, is_finite_of_rat, sub_zero, h100.1]
  exact h100.2

theorem demo_smooth32_is_coeff (p : Param) :
    ((DSP32.construct demo_lib32 demo_infos32 (F32.fin 48000)).param_smooth p).is_coeff := by
  rcases demo_smooth32 p with h | h
  · rw [h]; exact ⟨1 / 2, rfl, representable_half, by norm_num, by norm_num⟩
  · rw [h]; exact ⟨0, rfl, representable_zero, le_refl _, by norm_num⟩

/-- C4 (as stated, refuted): three runs from the constructor in which every
declared default lies in its `[min, max]` and every smoothing coefficient lies
in `[0, 1]`, and yet a current value leaves the range.  A port holding NaN
gives the target NaN and then the value NaN.  With range `[1, 2 ^ 25]`, default
`1` and coefficient `1`, a port holding `2 ^ 25` gives the value `0`, below
`min`, because `2 ^ 25 - 1` rounds to `2 ^ 25`.  With range `[-2 ^ 127, 2 ^ 127]`,
default `-2 ^ 127` and coefficient `1/2`, a port holding `2 ^ 127` gives the
value `-inf`, because `2 ^ 127 - (-2 ^ 127)` overflows. -/
theorem range_invariant_fails_in_float :
    (F32.le (info32_of demo_infos32 Param.mix).min (info32_of demo_infos32 Param.mix).dflt
        = true
      ∧ F32.le (info32_of demo_infos32 Param.mix).dflt (info32_of demo_infos32 Param.mix).max
        = true
      ∧ (DSP32.construct demo_lib32 demo_infos32 (F32.fin 48000)).param_smooth Param.mix
        = F32.fin (1 / 2)
      ∧ ((DSP32.construct demo_lib32 demo_infos32 (F32.fin 48000)).param_ops demo_infos32
          [ParamOp32.update_parameter_targets (fun _ => some F32.nan),
           ParamOp32.update_parameters]).param_targets Param.mix = F32.nan
      ∧ ((DSP32.construct demo_lib32 demo_infos32 (F32.fin 48000)).param_ops demo_infos32
          [ParamOp32.update_parameter_targets (fun _ => some F32.nan),
           ParamOp32.update_parameters]).params Param.mix = F32.nan)
    ∧ (F32.le (info32_of demo_wide_infos32 Param.mix).min
          (info32_of demo_wide_infos32 Param.mix).dflt = true
      ∧ F32.le (info32_of demo_wide_infos32 Param.mix).dflt
          (info32_of demo_wide_infos32 Param.mix).max = true
      ∧ (DSP32.construct demo_unit_lib32 demo_wide_infos32 (F32.fin 48000)).param_smooth
          Param.mix = F32.fin 1
      ∧ ((DSP32.construct demo_unit_lib32 demo_wide_infos32 (F32.fin 48000)).param_ops
          demo_wide_infos32
          [ParamOp32.update_parameter_targets (fun _ => some (F32.fin (2 ^ 25))),
           ParamOp32.update_parameters]).params Param.mix = F32.fin 0
      ∧ F32.lt (F32.fin 0) (info32_of demo_wide_infos32 Param.mix).min = true)
    ∧ (F32.le (info32_of demo_huge_infos32 Param.mix).min
          (info32_of demo_huge_infos32 Param.mix).dflt = true
      ∧ F32.le (info32_of demo_huge_infos32 Param.mix).dflt
          (info32_of demo_huge_infos32 Param.mix).max = true
      ∧ (DSP32.construct demo_lib32 demo_huge_infos32 (F32.fin 48000)).param_smooth Param.mix
          = F32.fin (1 / 2)
      ∧ ((DSP32.construct demo_lib32 demo_huge_infos32 (F32.fin 48000)).param_ops
          demo_huge_infos32
          [ParamOp32.update_parameter_targets (fun _ => some (F32.fin (2 ^ 127))),
           ParamOp32.update_parameters]).params Param.mix = F32.inf true
      ∧ F32.lt (F32.inf true) (info32_of demo_huge_infos32 Param.mix).min = true) := by
  have hs : ∀ (L : FloatLib32) (infos : Nat → ParamInfo32),
      (DSP32.construct L infos (F32.fin 48000)).param_smooth Param.mix
        = L.exp (F32.div (F32.mul (F32.fin (-2)) L.pi)
            (F32.mul (F32.mul (F32.of_rat (1 / 10000)) (F32.fin 50)) (F32.fin 48000))) := by
    intro L infos
    rw [construct32_smooth]
    simp [smooth_coeff32, smooth_time, F32.ne]
  refine ⟨⟨by simp [info32_of, demo_infos32, F32.le],
      by simp [info32_of, demo_infos32, F32.le]; norm_num, ?_, ?_, ?_⟩,
    ⟨by simp [info32_of, demo_wide_infos32, F32.le],
      by simp [info32_of, demo_wide_infos32, F32.le]; norm_num, ?_, ?_, ?_⟩,
    ⟨by simp [info32_of, demo_huge_infos32, F32.le],
      by simp [info32_of, demo_huge_infos32, F32.le], ?_, ?_, ?_⟩⟩
  · rw [hs]; rfl
  · rw [(param_ops32_refresh_step _ _ _ _).1]
    simp only [port_value32]
    exact clamp32_nan _ _
  · rw [(param_ops32_refresh_step _ _ _ _).2]
    simp only [port_value32]
    rw [clamp32_nan]
    unfold smooth_value32
    exact sub_nan_left _
  · rw [hs]; rfl
  · rw [(param_ops32_refresh_step _ _ _ _).2, hs, construct32_params]
    have e0 : demo_unit_lib32.exp (F32.div (F32.mul (F32.fin (-2)) demo_unit_lib32.pi)
        (F32.mul (F32.mul (F32.of_rat (1 / 10000)) (F32.fin 50)) (F32.fin 48000)))
        = F32.fin 1 := rfl
    rw [e0]
    have e1 : clamp32 (port_value32 demo_wide_infos32
        { DSP32.construct demo_unit_lib32 demo_wide_infos32 (F32.fin 48000) with
          param_ports := fun _ => some (F32.fin (2 ^ 25)) } Param.mix)
        (info32_of demo_wide_infos32 Param.mix).min (info32_of demo_wide_infos32 Param.mix).max
        = F32.fin (2 ^ 25) := by
      simp [port_value32, info32_of, demo_wide_infos32, clamp32, F32.lt]
      norm_num
    rw [e1]
    have e2 : (info32_of demo_wide_infos32 Param.mix).dflt = F32.fin 1 := rfl
    rw [e2]
    have r25 : F32.representable ((2 : ℚ) ^ (25 : ℕ)) := ⟨round_two_pow 25, by norm_num⟩
    unfold smooth_value32
    rw [sub_fin, of_rat_of_lt (by rw [round_below_two_pow]; norm_num), round_below_two_pow,
      mul_fin, one_mul, of_rat_representable r25, sub_fin, sub_self, of_rat_zero]
  · simp [info32_of, demo_wide_infos32, F32.lt]
  · rw [hs]; rfl
  · rw [(param_ops32_refresh_step _ _ _ _).2, hs, construct32_params]
    have e0 : demo_lib32.exp (F32.div (F32.mul (F32.fin (-2)) demo_lib32.pi)
        (F32.mul (F32.mul (F32.of_rat (1 / 10000)) (F32.fin 50)) (F32.fin 48000)))
        = F32.fin (1 / 2) := rfl
    rw [e0]
    have e1 : clamp32 (port_value32 demo_huge_infos32
        { DSP32.construct demo_lib32 demo_huge_infos32 (F32.fin 48000) with
          param_ports := fun _ => some (F32.fin (2 ^ 127)) } Param.mix)
        (info32_of demo_huge_infos32 Param.mix).min (info32_of demo_huge_infos32 Param.mix).max
        = F32.fin (2 ^ 127) := by
      simp [port_value32, info32_of, demo_huge_infos32, clamp32, F32.lt]
    rw [e1]
    have e2 : (info32_of demo_huge_infos32 Param.mix).dflt = F32.fin (-2 ^ 127) := rfl
    rw [e2]
    have e3 : F32.of_rat ((2 : ℚ) ^ 127 - -2 ^ 127) = F32.inf false := by
      have e4 : (2 : ℚ) ^ 127 - -2 ^ 127 = (2 : ℚ) ^ (128 : ℕ) := by norm_num
      rw [e4]
      unfold F32.of_rat
      rw [round_two_pow]
      simp
    unfold smooth_value32
    rw [sub_fin, e3]
    simp [F32.mul, F32.sub, F32.neg, F32.add]
  · simp [info32_of, demo_huge_infos32, F32.lt]

/-- C4 (amended): when every entry of the parameter table holds finite `float`s
with `min ≤ default ≤ max` and a width `max - min` that does not overflow, and
every smoothing coefficient computed by the constructor is a `float` in
`[0, 1)`, the constructed state has every current value and every target inside
the declared range, each call of `update_parameter_targets` whose ports hold no
NaN and each call of `update_parameters` keeps it so, and so does every
sequence of such calls. -/
theorem range_invariant32 (L : FloatLib32) (infos : Nat → ParamInfo32) (rate : F32)
    (hi : ∀ p : Param, (info32_of infos p).well_formed)
    (hc : ∀ p : Param, ((DSP32.construct L infos rate).param_smooth p).is_coeff) :
    (DSP32.construct L infos rate).in_range infos
    ∧ (∀ (d : DSP32) (ports : Param → Option F32),
        (∀ (p : Param) (v : F32), ports p = some v → v.is_value ∧ v ≠ F32.nan) →
        d.in_range infos →
        (DSP32.update_parameter_targets infos { d with param_ports := ports }).in_range infos)
    ∧ (∀ d : DSP32, d.param_smooth = (DSP32.construct L infos rate).param_smooth →
        d.in_range infos → d.update_parameters.in_range infos)
    ∧ (∀ ops : List ParamOp32, (∀ op ∈ ops, op.no_nan) →
        ((DSP32.construct L infos rate).param_ops infos ops).in_range infos) := by
  have h0 := in_range32_construct L infos rate hi
  refine ⟨h0, ?_, ?_, ?_⟩
  · intro d ports hp h
    exact in_range32_update_parameter_targets infos _ hi hp h
  · intro d hs h
    exact in_range32_update_parameters infos d hi (by rw [hs]; exact hc) h
  · intro ops hops
    exact in_range32_param_ops infos ops _ hi hc hops h0

theorem range_invariant32_witness :
    ((DSP32.construct demo_lib32 demo_infos32 (F32.fin 48000)).param_ops demo_infos32
      [ParamOp32.update_parameter_targets (fun _ => some (F32.fin 250)),
       ParamOp32.update_parameters,
       ParamOp32.update_parameter_targets (fun _ => some (F32.inf true)),
       ParamOp32.update_parameters]).in_range demo_infos32 :=
  (range_invariant32 demo_lib32 demo_infos32 (F32.fin 48000) demo_infos32_well_formed
    demo_smooth32_is_coeff).2.2.2 _ (by
      have h250 : F32.representable (250 : ℚ) := by
        have := representable_int 250 (by norm_num); simpa using this
      intro op hop
      simp only [List.mem_cons, List.mem_singleton, List.not_mem_nil, or_false] at hop
      rcases hop with h | h | h | h <;> subst h
      · intro p v hv
        cases hv
        exact ⟨h250, by simp⟩
      · trivial
      · intro p v hv
        cases hv
        exact ⟨trivial, by simp⟩
      · trivial)

theorem round_abs (x : ℚ) : F32.round |x| = |F32.round x| := by
  rcases le_total 0 x with h | h
  · rw [abs_of_nonneg h, abs_of_nonneg (round_nonneg h)]
  · have h1 : F32.round x ≤ 0 := by
      have := round_mono h
      rwa [round_zero] at this
    rw [abs_of_nonpos h, abs_of_nonpos h1, round_neg]

theorem abs_sub_le_of_between {t v w : ℚ} (h1 : min v t ≤ w) (h2 : w ≤ max v t) :
    |t - w| ≤ |t - v| := by
  rcases le_total v t with h | h
  · rw [min_eq_left h] at h1
    rw [max_eq_right h] at h2
    rw [abs_of_nonneg (by linarith), abs_of_nonneg (by linarith)]
    linarith
  · rw [min_eq_right h] at h1
    rw [max_eq_left h] at h2
    rw [abs_of_nonpos (by linarith), abs_of_nonpos (by linarith)]
    linarith

theorem iterate32_fixed (d : DSP32) (k : Nat) :
    (DSP32.update_parameters^[k] d).param_targets = d.param_targets
    ∧ (DSP32.update_parameters^[k] d).param_smooth = d.param_smooth := by
  induction k with
  | zero => exact ⟨rfl, rfl⟩
  | succ k ih =>
    rw [Function.iterate_succ_apply']
    exact ih

theorem iterate32_succ (d : DSP32) (p : Param) (k : Nat) :
    (DSP32.update_parameters^[k + 1] d).params p
      = smooth_value32 (d.param_targets p) (d.param_smooth p)
          ((DSP32.update_parameters^[k] d).params p) := by
  rw [Function.iterate_succ_apply', update_parameters32_params,
    (iterate32_fixed d k).1, (iterate32_fixed d k).2]

theorem iterate32_between (d : DSP32) (p : Param) (t c v0 : ℚ)
    (ht : d.param_targets p = F32.fin t) (hc : d.param_smooth p = F32.fin c)
    (hv : d.params p = F32.fin v0)
    (hrt : F32.representable t) (hrv : F32.representable v0)
    (hfin : (F32.sub (F32.fin t) (F32.fin v0)).is_finite = true)
    (hc0 : 0 ≤ c) (hc1 : c ≤ 1 - (2 : ℚ) ^ (-24 : ℤ)) (k : Nat) :
    ∃ w : ℚ, (DSP32.update_parameters^[k] d).params p = F32.fin w ∧ F32.representable w
      ∧ min v0 t ≤ w ∧ w ≤ max v0 t := by
  rw [sub_fin, is_finite_of_rat] at hfin
  have hDr : F32.round |t - v0| < (2 : ℚ) ^ (128 : ℕ) := by rw [round_abs]; exact hfin
  induction k with
  | zero => exact ⟨v0, hv, hrv, min_le_left _ _, le_max_left _ _⟩
  | succ k ih =>
    obtain ⟨w, hw, hrw, h1, h2⟩ := ih
    obtain ⟨e, rn, hup, hdown⟩ := smooth_value32_between t c w |t - v0| hrt hrw hc0 hc1
      (abs_sub_le_of_between h1 h2) hDr
    refine ⟨_, ?_, rn, ?_, ?_⟩
    · rw [iterate32_succ, ht, hc, hw, e]
    · rcases le_total w t with hwt | hwt
      · exact le_trans h1 (hup hwt).1
      · exact le_trans (min_le_right _ _) (hdown hwt).1
    · rcases le_total w t with hwt | hwt
      · exact le_trans (hup hwt).2 (le_max_right _ _)
      · exact le_trans (hdown hwt).2 h2

theorem round_dyadic_eq (x w : ℚ) (m k : ℤ) (hm : |m| ≤ 2 ^ 24) (hk : -149 ≤ k)
    (e1 : (m : ℚ) * (2 : ℚ) ^ k = x) (e2 : x = w) : F32.round x = w := by
  subst e2
  rw [← e1]
  exact round_of_rep m k hm hk

theorem round_tie_odd_eq (x w : ℚ) (e n : ℤ) (hlo : (2 : ℚ) ^ e ≤ x)
    (hhi : x < (2 : ℚ) ^ (e + 1)) (he : -126 ≤ e)
    (hx : x / (2 : ℚ) ^ (e - 23) = (n : ℚ) + 1 / 2) (hodd : n % 2 = 1)
    (hw : ((n : ℚ) + 1) * (2 : ℚ) ^ (e - 23) = w) : F32.round x = w := by
  rw [round_eval e hlo hhi, max_eq_left (by omega), hx, rhe_tie_odd n hodd]
  push_cast
  exact hw

theorem smooth_value32_eval (t c v d y w : ℚ) (hd : F32.round (t - v) = d)
    (hy : F32.round (c * d) = y) (hw : F32.round (t - y) = w)
    (bd : |d| < (2 : ℚ) ^ (128 : ℕ)) (by1 : |y| < (2 : ℚ) ^ (128 : ℕ))
    (bw : |w| < (2 : ℚ) ^ (128 : ℕ)) :
    smooth_value32 (F32.fin t) (F32.fin c) (F32.fin v) = F32.fin w := by
  unfold smooth_value32
  rw [sub_fin, of_rat_of_lt (by rw [hd]; exact bd), hd, mul_fin,
    of_rat_of_lt (by rw [hy]; exact by1), hy, sub_fin, of_rat_of_lt (by rw [hw]; exact bw), hw]

/-- The run of `demo_gliding_dsp32`: from `0` toward `80` with coefficient `1/2`,
the value is `80 - 80 / 2 ^ k` through call 21, `80 - 2 ^ (-16)` after call 22,
`80 - 2 ^ (-17)` after call 23 and `80` after call 24. -/
theorem gliding_run_reaches_target :
    (DSP32.update_parameters^[22] demo_gliding_dsp32).params Param.mix
        = F32.fin (80 - 1 / 2 ^ 16)
    ∧ (DSP32.update_parameters^[23] demo_gliding_dsp32).params Param.mix
        = F32.fin (80 - 1 / 2 ^ 17)
    ∧ (DSP32.update_parameters^[24] demo_gliding_dsp32).params Param.mix = F32.fin 80 := by
  have s0 : smooth_value32 (F32.fin 80) (F32.fin (1 / 2)) (F32.fin (0)) = F32.fin (40) :=
    smooth_value32_eval 80 (1 / 2) (0) (80) (40) (40)
      (round_dyadic_eq (80 - 0) (80) (5) (4) (by norm_num) (by norm_num) (by norm_num) (by norm_num))
      (round_dyadic_eq (1 / 2 * (80)) (40) (5) (3) (by norm_num) (by norm_num) (by norm_num) (by norm_num))
      (round_dyadic_eq (80 - 40) (40) (5) (3) (by norm_num) (by norm_num) (by norm_num) (by norm_num))
      (by rw [abs_lt]; constructor <;> norm_num) (by rw [abs_lt]; constructor <;> norm_num)
      (by rw [abs_lt]; constructor <;> norm_num)
  have s1 : smooth_value32 (F32.fin 80) (F32.fin (1 / 2)) (F32.fin (40)) = F32.fin (60) :=
    smooth_value32_eval 80 (1 / 2) (40) (40) (20) (60)
      (round_dyadic_eq (80 - 40) (40) (5) (3) (by norm_num) (by norm_num) (by norm_num) (by norm_num))
      (round_dyadic_eq (1 / 2 * (40)) (20) (5) (2) (by norm_num) (by norm_num) (by norm_num) (by norm_num))
      (round_dyadic_eq (80 - 20) (60) (15) (2) (by norm_num) (by norm_num) (by norm_num) (by norm_num))
      (by rw [abs_lt]; constructor <;> norm_num) (by rw [abs_lt]; constructor <;> norm_num)
      (by rw [abs_lt]; constructor <;> norm_num)
  have s2 : smooth_value32 (F32.fin 80) (F32.fin (1 / 2)) (F32.fin (60)) = F32.fin (70) :=
    smooth_value32_eval 80 (1 / 2) (60) (20) (10) (70)
      (round_dyadic_eq (80 - 60) (20) (5) (2) (by norm_num) (by norm_num) (by norm_num) (by norm_num))
      (round_dyadic_eq (1 / 2 * (20)) (10) (5) (1) (by norm_num) (by norm_num) (by norm_num) (by norm_num))
      (round_dyadic_eq (80 - 10) (70) (35) (1) (by norm_num) (by norm_num) (by norm_num) (by norm_num))
      (by rw [abs_lt]; constructor <;> norm_num) (by rw [abs_lt]; constructor <;> norm_num)
      (by rw [abs_lt]; constructor <;> norm_num)
  have s3 : smooth_value32 (F32.fin 80) (F32.fin (1 / 2)) (F32.fin (70)) = F32.fin (75) :=
    smooth_value32_eval 80 (1 / 2) (70) (10) (5) (75)
      (round_dyadic_eq (80 - 70) (10) (5) (1) (by norm_num) (by norm_num) (by norm_num) (by norm_num))
      (round_dyadic_eq (1 / 2 * (10)) (5) (5) (0) (by norm_num) (by norm_num) (by norm_num) (by norm_num))
      (round_dyadic_eq (80 - 5) (75) (75) (0) (by norm_num) (by norm_num) (by norm_num) (by norm_num))
      (by rw [abs_lt]; constructor <;> norm_num) (by rw [abs_lt]; constructor <;> norm_num)
      (by rw [abs_lt]; constructor <;> norm_num)
  have s4 : smooth_value32 (F32.fin 80) (F32.fin (1 / 2)) (F32.fin (75)) = F32.fin (155 / 2) :=
    smooth_value32_eval 80 (1 / 2) (75) (5) (5 / 2) (155 / 2)
      (round_dyadic_eq (80 - 75) (5) (5) (0) (by norm_num) (by norm_num) (by norm_num) (by norm_num))
      (round_dyadic_eq (1 / 2 * (5)) (5 / 2) (5) (-1) (by norm_num) (by norm_num) (by norm_num) (by norm_num))
      (round_dyadic_eq (80 - 5 / 2) (155 / 2) (155) (-1) (by norm_num) (by norm_num) (by norm_num) (by norm_num))
      (by rw [abs_lt]; constructor <;> norm_num) (by rw [abs_lt]; constructor <;> norm_num)
      (by rw [abs_lt]; constructor <;> norm_num)
  have s5 : smooth_value32 (F32.fin 80) (F32.fin (1 / 2)) (F32.fin (155 / 2)) = F32.fin (315 / 4) :=
    smooth_value32_eval 80 (1 / 2) (155 / 2) (5 / 2) (5 / 4) (315 / 4)
      (round_dyadic_eq (80 - 155 / 2) (5 / 2) (5) (-1) (by norm_num) (by norm_num) (by norm_num) (by norm_num))
      (round_dyadic_eq (1 / 2 * (5 / 2)) (5 / 4) (5) (-2) (by norm_num) (by norm_num) (by norm_num) (by norm_num))
      (round_dyadic_eq (80 - 5 / 4) (315 / 4) (315) (-2) (by norm_num) (by norm_num) (by norm_num) (by norm_num))
      (by rw [abs_lt]; constructor <;> norm_num) (by rw [abs_lt]; constructor <;> norm_num)
      (by rw [abs_lt]; constructor <;> norm_num)
  have s6 : smooth_value32 (F32.fin 80) (F32.fin (1 / 2)) (F32.fin (315 / 4)) = F32.fin (635 / 8) :=
    smooth_value32_eval 80 (1 / 2) (315 / 4) (5 / 4) (5 / 8) (635 / 8)
      (round_dyadic_eq (80 - 315 / 4) (5 / 4) (5) (-2) (by norm_num) (by norm_num) (by norm_num) (by norm_num))
      (round_dyadic_eq (1 / 2 * (5 / 4)) (5 / 8) (5) (-3) (by norm_num) (by norm_num) (by norm_num) (by norm_num))
      (round_dyadic_eq (80 - 5 / 8) (635 / 8) (635) (-3) (by norm_num) (by norm_num) (by norm_num) (by norm_num))
      (by rw [abs_lt]; constructor <;> norm_num) (by rw [abs_lt]; constructor <;> norm_num)
      (by rw [abs_lt]; constructor <;> norm_num)
  have s7 : smooth_value32 (F32.fin 80) (F32.fin (1 / 2)) (F32.fin (635 / 8)) = F32.fin (1275 / 16) :=
    smooth_value32_eval 80 (1 / 2) (635 / 8) (5 / 8) (5 / 16) (1275 / 16)
      (round_dyadic_eq (80 - 635 / 8) (5 / 8) (5) (-3) (by norm_num) (by norm_num) (by norm_num) (by norm_num))
      (round_dyadic_eq (1 / 2 * (5 / 8)) (5 / 16) (5) (-4) (by norm_num) (by norm_num) (by norm_num) (by norm_num))
      (round_dyadic_eq (80 - 5 / 16) (1275 / 16) (1275) (-4) (by norm_num) (by norm_num) (by norm_num) (by norm_num))
      (by rw [abs_lt]; constructor <;> norm_num) (by rw [abs_lt]; constructor <;> norm_num)
      (by rw [abs_lt]; constructor <;> norm_num)
  have s8 : smooth_value32 (F32.fin 80) (F32.fin (1 / 2)) (F32.fin (1275 / 16)) = F32.fin (2555 / 32) :=
    smooth_value32_eval 80 (1 / 2) (1275 / 16) (5 / 16) (5 / 32) (2555 / 32)
      (round_dyadic_eq (80 - 1275 / 16) (5 / 16) (5) (-4) (by norm_num) (by norm_num) (by norm_num) (by norm_num))
      (round_dyadic_eq (1 / 2 * (5 / 16)) (5 / 32) (5) (-5) (by norm_num) (by norm_num) (by norm_num) (by norm_num))
      (round_dyadic_eq (80 - 5 / 32) (2555 / 32) (2555) (-5) (by norm_num) (by norm_num) (by norm_num) (by norm_num))
      (by rw [abs_lt]; constructor <;> norm_num) (by rw [abs_lt]; constructor <;> norm_num)
      (by rw [abs_lt]; constructor <;> norm_num)
  have s9 : smooth_value32 (F32.fin 80) (F32.fin (1 / 2)) (F32.fin (2555 / 32)) = F32.fin (5115 / 64) :=
    smooth_value32_eval 80 (1 / 2) (2555 / 32) (5 / 32) (5 / 64) (5115 / 64)
      (round_dyadic_eq (80 - 2555 / 32) (5 / 32) (5) (-5) (by norm_num) (by norm_num) (by norm_num) (by norm_num))
      (round_dyadic_eq (1 / 2 * (5 / 32)) (5 / 64) (5) (-6) (by norm_num) (by norm_num) (by norm_num) (by norm_num))
      (round_dyadic_eq (80 - 5 / 64) (5115 / 64) (5115) (-6) (by norm_num) (by norm_num) (by norm_num) (by norm_num))
      (by rw [abs_lt]; constructor <;> norm_num) (by rw [abs_lt]; constructor <;> norm_num)
      (by rw [abs_lt]; constructor <;> norm_num)
  have s10 : smooth_value32 (F32.fin 80) (F32.fin (1 / 2)) (F32.fin (5115 / 64)) = F32.fin (10235 / 128) :=
    smooth_value32_eval 80 (1 / 2) (5115 / 64) (5 / 64) (5 / 128) (10235 / 128)
      (round_dyadic_eq (80 - 5115 / 64) (5 / 64) (5) (-6) (by norm_num) (by norm_num) (by norm_num) (by norm_num))
      (round_dyadic_eq (1 / 2 * (5 / 64)) (5 / 128) (5) (-7) (by norm_num) (by norm_num) (by norm_num) (by norm_num))
      (round_dyadic_eq (80 - 5 / 128) (10235 / 128) (10235) (-7) (by norm_num) (by norm_num) (by norm_num) (by norm_num))
      (by rw [abs_lt]; constructor <;> norm_num) (by rw [abs_lt]; constructor <;> norm_num)
      (by rw [abs_lt]; constructor <;> norm_num)
  have s11 : smooth_value32 (F32.fin 80) (F32.fin (1 / 2)) (F32.fin (10235 / 128)) = F32.fin (20475 / 256) :=
    smooth_value32_eval 80 (1 / 2) (10235 / 128) (5 / 128) (5 / 256) (20475 / 256)
      (round_dyadic_eq (80 - 10235 / 128) (5 / 128) (5) (-7) (by norm_num) (by norm_num) (by norm_num) (by norm_num))
      (round_dyadic_eq (1 / 2 * (5 / 128)) (5 / 256) (5) (-8) (by norm_num) (by norm_num) (by norm_num) (by norm_num))
      (round_dyadic_eq (80 - 5 / 256) (20475 / 256) (20475) (-8) (by norm_num) (by norm_num) (by norm_num) (by norm_num))
      (by rw [abs_lt]; constructor <;> norm_num) (by rw [abs_lt]; constructor <;> norm_num)
      (by rw [abs_lt]; constructor <;> norm_num)
  have s12 : smooth_value32 (F32.fin 80) (F32.fin (1 / 2)) (F32.fin (20475 / 256)) = F32.fin (40955 / 512) :=
    smooth_value32_eval 80 (1 / 2) (20475 / 256) (5 / 256) (5 / 512) (40955 / 512)
      (round_dyadic_eq (80 - 20475 / 256) (5 / 256) (5) (-8) (by norm_num) (by norm_num) (by norm_num) (by norm_num))
      (round_dyadic_eq (1 / 2 * (5 / 256)) (5 / 512) (5) (-9) (by norm_num) (by norm_num) (by norm_num) (by norm_num))
      (round_dyadic_eq (80 - 5 / 512) (40955 / 512) (40955) (-9) (by norm_num) (by norm_num) (by norm_num) (by norm_num))
      (by rw [abs_lt]; constructor <;> norm_num) (by rw [abs_lt]; constructor <;> norm_num)
      (by rw [abs_lt]; constructor <;> norm_num)
  have s13 : smooth_value32 (F32.fin 80) (F32.fin (1 / 2)) (F32.fin (40955 / 512)) = F32.fin (81915 / 1024) :=
    smooth_value32_eval 80 (1 / 2) (40955 / 512) (5 / 512) (5 / 1024) (81915 / 1024)
      (round_dyadic_eq (80 - 40955 / 512) (5 / 512) (5) (-9) (by norm_num) (by norm_num) (by norm_num) (by norm_num))
      (round_dyadic_eq (1 / 2 * (5 / 512)) (5 / 1024) (5) (-10) (by norm_num) (by norm_num) (by norm_num) (by norm_num))
      (round_dyadic_eq (80 - 5 / 1024) (81915 / 1024) (81915) (-10) (by norm_num) (by norm_num) (by norm_num) (by norm_num))
      (by rw [abs_lt]; constructor <;> norm_num) (by rw [abs_lt]; constructor <;> norm_num)
      (by rw [abs_lt]; constructor <;> norm_num)
  have s14 : smooth_value32 (F32.fin 80) (F32.fin (1 / 2)) (F32.fin (81915 / 1024)) = F32.fin (163835 / 2048) :=
    smooth_value32_eval 80 (1 / 2) (81915 / 1024) (5 / 1024) (5 / 2048) (163835 / 2048)
      (round_dyadic_eq (80 - 81915 / 1024) (5 / 1024) (5) (-10) (by norm_num) (by norm_num) (by norm_num) (by norm_num))
      (round_dyadic_eq (1 / 2 * (5 / 1024)) (5 / 2048) (5) (-11) (by norm_num) (by norm_num) (by norm_num) (by norm_num))
      (round_dyadic_eq (80 - 5 / 2048) (163835 / 2048) (163835) (-11) (by norm_num) (by norm_num) (by norm_num) (by norm_num))
      (by rw [abs_lt]; constructor <;> norm_num) (by rw [abs_lt]; constructor <;> norm_num)
      (by rw [abs_lt]; constructor <;> norm_num)
  have s15 : smooth_value32 (F32.fin 80) (F32.fin (1 / 2)) (F32.fin (163835 / 2048)) = F32.fin (327675 / 4096) :=
    smooth_value32_eval 80 (1 / 2) (163835 / 2048) (5 / 2048) (5 / 4096) (327675 / 4096)
      (round_dyadic_eq (80 - 163835 / 2048) (5 / 2048) (5) (-11) (by norm_num) (by norm_num) (by norm_num) (by norm_num))
      (round_dyadic_eq (1 / 2 * (5 / 2048)) (5 / 4096) (5) (-12) (by norm_num) (by norm_num) (by norm_num) (by norm_num))
      (round_dyadic_eq (80 - 5 / 4096) (327675 / 4096) (327675) (-12) (by norm_num) (by norm_num) (by norm_num) (by norm_num))
      (by rw [abs_lt]; constructor <;> norm_num) (by rw [abs_lt]; constructor <;> norm_num)
      (by rw [abs_lt]; constructor <;> norm_num)
  have s16 : smooth_value32 (F32.fin 80) (F32.fin (1 / 2)) (F32.fin (327675 / 4096)) = F32.fin (655355 / 8192) :=
    smooth_value32_eval 80 (1 / 2) (327675 / 4096) (5 / 4096) (5 / 8192) (655355 / 8192)
      (round_dyadic_eq (80 - 327675 / 4096) (5 / 4096) (5) (-12) (by norm_num) (by norm_num) (by norm_num) (by norm_num))
      (round_dyadic_eq (1 / 2 * (5 / 4096)) (5 / 8192) (5) (-13) (by norm_num) (by norm_num) (by norm_num) (by norm_num))
      (round_dyadic_eq (80 - 5 / 8192) (655355 / 8192) (655355) (-13) (by norm_num) (by norm_num) (by norm_num) (by norm_num))
      (by rw [abs_lt]; constructor <;> norm_num) (by rw [abs_lt]; constructor <;> norm_num)
      (by rw [abs_lt]; constructor <;> norm_num)
  have s17 : smooth_value32 (F32.fin 80) (F32.fin (1 / 2)) (F32.fin (655355 / 8192)) = F32.fin (1310715 / 16384) :=
    smooth_value32_eval 80 (1 / 2) (655355 / 8192) (5 / 8192) (5 / 16384) (1310715 / 16384)
      (round_dyadic_eq (80 - 655355 / 8192) (5 / 8192) (5) (-13) (by norm_num) (by norm_num) (by norm_num) (by norm_num))
      (round_dyadic_eq (1 / 2 * (5 / 8192)) (5 / 16384) (5) (-14) (by norm_num) (by norm_num) (by norm_num) (by norm_num))
      (round_dyadic_eq (80 - 5 / 16384) (1310715 / 16384) (1310715) (-14) (by norm_num) (by norm_num) (by norm_num) (by norm_num))
      (by rw [abs_lt]; constructor <;> norm_num) (by rw [abs_lt]; constructor <;> norm_num)
      (by rw [abs_lt]; constructor <;> norm_num)
  have s18 : smooth_value32 (F32.fin 80) (F32.fin (1 / 2)) (F32.fin (1310715 / 16384)) = F32.fin (2621435 / 32768) :=
    smooth_value32_eval 80 (1 / 2) (1310715 / 16384) (5 / 16384) (5 / 32768) (2621435 / 32768)
      (round_dyadic_eq (80 - 1310715 / 16384) (5 / 16384) (5) (-14) (by norm_num) (by norm_num) (by norm_num) (by norm_num))
      (round_dyadic_eq (1 / 2 * (5 / 16384)) (5 / 32768) (5) (-15) (by norm_num) (by norm_num) (by norm_num) (by norm_num))
      (round_dyadic_eq (80 - 5 / 32768) (2621435 / 32768) (2621435) (-15) (by norm_num) (by norm_num) (by norm_num) (by norm_num))
      (by rw [abs_lt]; constructor <;> norm_num) (by rw [abs_lt]; constructor <;> norm_num)
      (by rw [abs_lt]; constructor <;> norm_num)
  have s19 : smooth_value32 (F32.fin 80) (F32.fin (1 / 2)) (F32.fin (2621435 / 32768)) = F32.fin (5242875 / 65536) :=
    smooth_value32_eval 80 (1 / 2) (2621435 / 32768) (5 / 32768) (5 / 65536) (5242875 / 65536)
      (round_dyadic_eq (80 - 2621435 / 32768) (5 / 32768) (5) (-15) (by norm_num) (by norm_num) (by norm_num) (by norm_num))
      (round_dyadic_eq (1 / 2 * (5 / 32768)) (5 / 65536) (5) (-16) (by norm_num) (by norm_num) (by norm_num) (by norm_num))
      (round_dyadic_eq (80 - 5 / 65536) (5242875 / 65536) (5242875) (-16) (by norm_num) (by norm_num) (by norm_num) (by norm_num))
      (by rw [abs_lt]; constructor <;> norm_num) (by rw [abs_lt]; constructor <;> norm_num)
      (by rw [abs_lt]; constructor <;> norm_num)
  have s20 : smooth_value32 (F32.fin 80) (F32.fin (1 / 2)) (F32.fin (5242875 / 65536)) = F32.fin (10485755 / 131072) :=
    smooth_value32_eval 80 (1 / 2) (5242875 / 65536) (5 / 65536) (5 / 131072) (10485755 / 131072)
      (round_dyadic_eq (80 - 5242875 / 65536) (5 / 65536) (5) (-16) (by norm_num) (by norm_num) (by norm_num) (by norm_num))
      (round_dyadic_eq (1 / 2 * (5 / 65536)) (5 / 131072) (5) (-17) (by norm_num) (by norm_num) (by norm_num) (by norm_num))
      (round_dyadic_eq (80 - 5 / 131072) (10485755 / 131072) (10485755) (-17) (by norm_num) (by norm_num) (by norm_num) (by norm_num))
      (by rw [abs_lt]; constructor <;> norm_num) (by rw [abs_lt]; constructor <;> norm_num)
      (by rw [abs_lt]; constructor <;> norm_num)
  have s21 : smooth_value32 (F32.fin 80) (F32.fin (1 / 2)) (F32.fin (10485755 / 131072)) = F32.fin (5242879 / 65536) :=
    smooth_value32_eval 80 (1 / 2) (10485755 / 131072) (5 / 131072) (5 / 262144) (5242879 / 65536)
      (round_dyadic_eq (80 - 10485755 / 131072) (5 / 131072) (5) (-17) (by norm_num) (by norm_num) (by norm_num) (by norm_num))
      (round_dyadic_eq (1 / 2 * (5 / 131072)) (5 / 262144) (5) (-18) (by norm_num) (by norm_num) (by norm_num) (by norm_num))
      (round_tie_odd_eq (80 - 5 / 262144) (5242879 / 65536) (6) (10485757) (by norm_num) (by norm_num) (by norm_num) (by norm_num) (by norm_num) (by norm_num))
      (by rw [abs_lt]; constructor <;> norm_num) (by rw [abs_lt]; constructor <;> norm_num)
      (by rw [abs_lt]; constructor <;> norm_num)
  have s22 : smooth_value32 (F32.fin 80) (F32.fin (1 / 2)) (F32.fin (5242879 / 65536)) = F32.fin (10485759 / 131072) :=
    smooth_value32_eval 80 (1 / 2) (5242879 / 65536) (1 / 65536) (1 / 131072) (10485759 / 131072)
      (round_dyadic_eq (80 - 5242879 / 65536) (1 / 65536) (1) (-16) (by norm_num) (by norm_num) (by norm_num) (by norm_num))
      (round_dyadic_eq (1 / 2 * (1 / 65536)) (1 / 131072) (1) (-17) (by norm_num) (by norm_num) (by norm_num) (by norm_num))
      (round_dyadic_eq (80 - 1 / 131072) (10485759 / 131072) (10485759) (-17) (by norm_num) (by norm_num) (by norm_num) (by norm_num))
      (by rw [abs_lt]; constructor <;> norm_num) (by rw [abs_lt]; constructor <;> norm_num)
      (by rw [abs_lt]; constructor <;> norm_num)
  have s23 : smooth_value32 (F32.fin 80) (F32.fin (1 / 2)) (F32.fin (10485759 / 131072)) = F32.fin (80) :=
    smooth_value32_eval 80 (1 / 2) (10485759 / 131072) (1 / 131072) (1 / 262144) (80)
      (round_dyadic_eq (80 - 10485759 / 131072) (1 / 131072) (1) (-17) (by norm_num) (by norm_num) (by norm_num) (by norm_num))
      (round_dyadic_eq (1 / 2 * (1 / 131072)) (1 / 262144) (1) (-18) (by norm_num) (by norm_num) (by norm_num) (by norm_num))
      (round_tie_odd_eq (80 - 1 / 262144) (80) (6) (10485759) (by norm_num) (by norm_num) (by norm_num) (by norm_num) (by norm_num) (by norm_num))
      (by rw [abs_lt]; constructor <;> norm_num) (by rw [abs_lt]; constructor <;> norm_num)
      (by rw [abs_lt]; constructor <;> norm_num)
  have h0 : (DSP32.update_parameters^[0] demo_gliding_dsp32).params Param.mix = F32.fin (0) := rfl
  have h1 : (DSP32.update_parameters^[1] demo_gliding_dsp32).params Param.mix = F32.fin (40) := by
    rw [iterate32_succ, h0]; exact s0
  have h2 : (DSP32.update_parameters^[2] demo_gliding_dsp32).params Param.mix = F32.fin (60) := by
    rw [iterate32_succ, h1]; exact s1
  have h3 : (DSP32.update_parameters^[3] demo_gliding_dsp32).params Param.mix = F32.fin (70) := by
    rw [iterate32_succ, h2]; exact s2
  have h4 : (DSP32.update_parameters^[4] demo_gliding_dsp32).params Param.mix = F32.fin (75) := by
    rw [iterate32_succ, h3]; exact s3
  have h5 : (DSP32.update_parameters^[5] demo_gliding_dsp32).params Param.mix = F32.fin (155 / 2) := by
    rw [iterate32_succ, h4]; exact s4
  have h6 : (DSP32.update_parameters^[6] demo_gliding_dsp32).params Param.mix = F32.fin (315 / 4) := by
    rw [iterate32_succ, h5]; exact s5
  have h7 : (DSP32.update_parameters^[7] demo_gliding_dsp32).params Param.mix = F32.fin (635 / 8) := by
    rw [iterate32_succ, h6]; exact s6
  have h8 : (DSP32.update_parameters^[8] demo_gliding_dsp32).params Param.mix = F32.fin (1275 / 16) := by
    rw [iterate32_succ, h7]; exact s7
  have h9 : (DSP32.update_parameters^[9] demo_gliding_dsp32).params Param.mix = F32.fin (2555 / 32) := by
    rw [iterate32_succ, h8]; exact s8
  have h10 : (DSP32.update_parameters^[10] demo_gliding_dsp32).params Param.mix = F32.fin (5115 / 64) := by
    rw [iterate32_succ, h9]; exact s9
  have h11 : (DSP32.update_parameters^[11] demo_gliding_dsp32).params Param.mix = F32.fin (10235 / 128) := by
    rw [iterate32_succ, h10]; exact s10
  have h12 : (DSP32.update_parameters^[12] demo_gliding_dsp32).params Param.mix = F32.fin (20475 / 256) := by
    rw [iterate32_succ, h11]; exact s11
  have h13 : (DSP32.update_parameters^[13] demo_gliding_dsp32).params Param.mix = F32.fin (40955 / 512) := by
    rw [iterate32_succ, h12]; exact s12
  have h14 : (DSP32.update_parameters^[14] demo_gliding_dsp32).params Param.mix = F32.fin (81915 / 1024) := by
    rw [iterate32_succ, h13]; exact s13
  have h15 : (DSP32.update_parameters^[15] demo_gliding_dsp32).params Param.mix = F32.fin (163835 / 2048) := by
    rw [iterate32_succ, h14]; exact s14
  have h16 : (DSP32.update_parameters^[16] demo_gliding_dsp32).params Param.mix = F32.fin (327675 / 4096) := by
    rw [iterate32_succ, h15]; exact s15
  have h17 : (DSP32.update_parameters^[17] demo_gliding_dsp32).params Param.mix = F32.fin (655355 / 8192) := by
    rw [iterate32_succ, h16]; exact s16
  have h18 : (DSP32.update_parameters^[18] demo_gliding_dsp32).params Param.mix = F32.fin (1310715 / 16384) := by
    rw [iterate32_succ, h17]; exact s17
  have h19 : (DSP32.update_parameters^[19] demo_gliding_dsp32).params Param.mix = F32.fin (2621435 / 32768) := by
    rw [iterate32_succ, h18]; exact s18
  have h20 : (DSP32.update_parameters^[20] demo_gliding_dsp32).params Param.mix = F32.fin (5242875 / 65536) := by
    rw [iterate32_succ, h19]; exact s19
  have h21 : (DSP32.update_parameters^[21] demo_gliding_dsp32).params Param.mix = F32.fin (10485755 / 131072) := by
    rw [iterate32_succ, h20]; exact s20
  have h22 : (DSP32.update_parameters^[22] demo_gliding_dsp32).params Param.mix = F32.fin (5242879 / 65536) := by
    rw [iterate32_succ, h21]; exact s21
  have h23 : (DSP32.update_parameters^[23] demo_gliding_dsp32).params Param.mix = F32.fin (10485759 / 131072) := by
    rw [iterate32_succ, h22]; exact s22
  have h24 : (DSP32.update_parameters^[24] demo_gliding_dsp32).params Param.mix = F32.fin (80) := by
    rw [iterate32_succ, h23]; exact s23
  refine ⟨?_, ?_, ?_⟩
  · rw [h22]; norm_num
  · rw [h23]; norm_num
  · rw [h24]

/-- C6 (as stated, refuted): with coefficient `1/2`, target `1` and starting
value `1 - 2 ^ (-24)`, the `float` just below `1`, the value equals the target
after one call, because `1 - 2 ^ (-25)` rounds to `1`, while the closed form
gives `1 - 2 ^ (-25)`; with target `1 + 2 ^ (-23)`, the `float` just above `1`,
and starting value `1`, every call leaves the value at `1`, a move of `0` where
`(1 - c) * |t - v|` is `2 ^ (-24)`, and the closed form is never followed.  For
every `float` coefficient in `(0, 1)`, one call from `1 - 2 ^ (-24)` toward `1`
either reaches the target or does not move.  From `0` toward `80` with
coefficient `1/2` the value is `80 - 2 ^ (-16)` after 22 calls, where the
closed form gives `80 - 80 / 2 ^ 22`, and equals the target `80` after 24 calls. -/
theorem smoothing_reaches_target_or_stalls :
    (demo_near_dsp32.param_smooth Param.mix = F32.fin (1 / 2)
      ∧ demo_near_dsp32.param_targets Param.mix = F32.fin 1
      ∧ demo_near_dsp32.params Param.mix = F32.fin (1 - 1 / 2 ^ 24)
      ∧ (DSP32.update_parameters^[1] demo_near_dsp32).params Param.mix = F32.fin 1
      ∧ (1 : ℚ) - (1 / 2) ^ 1 * (1 - (1 - 1 / 2 ^ 24)) ≠ 1)
    ∧ (demo_stuck_dsp32.param_smooth Param.mix = F32.fin (1 / 2)
      ∧ demo_stuck_dsp32.param_targets Param.mix = F32.fin (1 + 1 / 2 ^ 23)
      ∧ demo_stuck_dsp32.params Param.mix = F32.fin 1
      ∧ (∀ k : Nat, (DSP32.update_parameters^[k] demo_stuck_dsp32).params Param.mix
          = F32.fin 1)
      ∧ (1 - (1 / 2 : ℚ)) * |(1 + 1 / 2 ^ 23) - 1| ≠ 0
      ∧ ∀ k : Nat, 0 < k → (1 + 1 / 2 ^ 23 : ℚ) - (1 / 2) ^ k * ((1 + 1 / 2 ^ 23) - 1) ≠ 1)
    ∧ (∀ c : ℚ, F32.representable c → 0 < c → c < 1 →
        (DSP32.update_parameters^[1]
            { demo_near_dsp32 with param_smooth := fun _ => F32.fin c }).params Param.mix
          = F32.fin 1
        ∨ (DSP32.update_parameters^[1]
            { demo_near_dsp32 with param_smooth := fun _ => F32.fin c }).params Param.mix
          = F32.fin (1 - 1 / 2 ^ 24))
    ∧ (demo_gliding_dsp32.param_smooth Param.mix = F32.fin (1 / 2)
      ∧ demo_gliding_dsp32.param_targets Param.mix = F32.fin 80
      ∧ demo_gliding_dsp32.params Param.mix = F32.fin 0
      ∧ (DSP32.update_parameters^[22] demo_gliding_dsp32).params Param.mix
          = F32.fin (80 - 1 / 2 ^ 16)
      ∧ (DSP32.update_parameters^[24] demo_gliding_dsp32).params Param.mix = F32.fin 80
      ∧ (80 : ℚ) - (1 / 2) ^ 22 * (80 - 0) ≠ 80 - 1 / 2 ^ 16
      ∧ (80 : ℚ) - (1 / 2) ^ 24 * (80 - 0) ≠ 80) := by
  have r1 : F32.representable (1 : ℚ) := by
    have := representable_int 1 (by norm_num); simpa using this
  refine ⟨⟨rfl, rfl, rfl, ?_, by norm_num⟩, ⟨rfl, rfl, rfl, ?_, by norm_num, ?_⟩, ?_,
    ⟨rfl, rfl, rfl, gliding_run_reaches_target.1, gliding_run_reaches_target.2.2,
      by norm_num, by norm_num⟩⟩
  · rw [iterate32_succ]
    show smooth_value32 (F32.fin 1) (F32.fin (1 / 2)) (F32.fin (1 - 1 / 2 ^ 24)) = F32.fin 1
    have e1 : (1 : ℚ) - (1 - 1 / 2 ^ 24) = (2 : ℚ) ^ (-24 : ℤ) := by norm_num
    have e2 : (1 / 2 : ℚ) * (2 : ℚ) ^ (-24 : ℤ) = (2 : ℚ) ^ (-25 : ℤ) := by norm_num
    have b1 : |(2 : ℚ) ^ (-24 : ℤ)| < (2 : ℚ) ^ (128 : ℕ) := by
      rw [abs_of_pos (by norm_num)]; norm_num
    have b2 : |(2 : ℚ) ^ (-25 : ℤ)| < (2 : ℚ) ^ (128 : ℕ) := by
      rw [abs_of_pos (by norm_num)]; norm_num
    unfold smooth_value32
    rw [sub_fin, e1, of_rat_of_lt (by rw [round_two_zpow _ (by norm_num)]; exact b1),
      round_two_zpow _ (by norm_num), mul_fin, e2,
      of_rat_of_lt (by rw [round_two_zpow _ (by norm_num)]; exact b2),
      round_two_zpow _ (by norm_num), sub_fin,
      of_rat_of_lt (by rw [round_below_one]; exact r1.2), round_below_one]
  · intro k
    induction k with
    | zero => rfl
    | succ k ih =>
      rw [iterate32_succ, ih]
      show smooth_value32 (F32.fin (1 + 1 / 2 ^ 23)) (F32.fin (1 / 2)) (F32.fin 1) = F32.fin 1
      have e1 : (1 + 1 / 2 ^ 23 : ℚ) - 1 = (2 : ℚ) ^ (-23 : ℤ) := by norm_num
      have e2 : (1 / 2 : ℚ) * (2 : ℚ) ^ (-23 : ℤ) = (2 : ℚ) ^ (-24 : ℤ) := by norm_num
      have e3 : (1 + 1 / 2 ^ 23 : ℚ) - (2 : ℚ) ^ (-24 : ℤ) = 1 + (2 : ℚ) ^ (-24 : ℤ) := by
        norm_num
      have b1 : |(2 : ℚ) ^ (-23 : ℤ)| < (2 : ℚ) ^ (128 : ℕ) := by
        rw [abs_of_pos (by norm_num)]; norm_num
      have b2 : |(2 : ℚ) ^ (-24 : ℤ)| < (2 : ℚ) ^ (128 : ℕ) := by
        rw [abs_of_pos (by norm_num)]; norm_num
      unfold smooth_value32
      rw [sub_fin, e1, of_rat_of_lt (by rw [round_two_zpow _ (by norm_num)]; exact b1),
        round_two_zpow _ (by norm_num), mul_fin, e2,
        of_rat_of_lt (by rw [round_two_zpow _ (by norm_num)]; exact b2),
        round_two_zpow _ (by norm_num), sub_fin, e3,
        of_rat_of_lt (by rw [round_above_one]; exact r1.2), round_above_one]
  · intro k hk h
    have h1 : (1 / 2 : ℚ) ^ k < 1 := pow_lt_one₀ (by norm_num) (by norm_num) (by omega)
    have h2 : (0 : ℚ) < (1 / 2 : ℚ) ^ k := by positivity
    nlinarith
  · intro c rc hc0 hc1
    have rv : F32.representable (1 - 1 / 2 ^ 24 : ℚ) := by
      have h := round_of_rep (2 ^ 24 - 1) (-24) (by norm_num) (by norm_num)
      have e : ((2 ^ 24 - 1 : ℤ) : ℚ) * (2 : ℚ) ^ (-24 : ℤ) = 1 - 1 / 2 ^ 24 := by norm_num
      rw [e] at h
      exact ⟨h, by rw [abs_of_pos (by norm_num)]; norm_num⟩
    have e24 : (2 : ℚ) ^ (-24 : ℤ) = 1 / 2 ^ 24 := by norm_num
    obtain ⟨e, hrw, hup, _⟩ := smooth_value32_between 1 c (1 - 1 / 2 ^ 24) 1 r1 rv
      (le_of_lt hc0) (lt_one_le_pred rc.1 hc1)
      (by rw [abs_of_pos (by norm_num)]; norm_num) (by rw [r1.1]; norm_num)
    obtain ⟨hlo, hhi⟩ := hup (by norm_num)
    rw [iterate32_succ]
    show smooth_value32 (F32.fin 1) (F32.fin c) (F32.fin (1 - 1 / 2 ^ 24)) = F32.fin 1
      ∨ smooth_value32 (F32.fin 1) (F32.fin c) (F32.fin (1 - 1 / 2 ^ 24))
        = F32.fin (1 - 1 / 2 ^ 24)
    rw [e]
    rcases eq_or_lt_of_le hhi with h1 | h1
    · left; rw [h1]
    · right
      have h2 := lt_one_le_pred hrw.1 h1
      rw [e24] at h2
      rw [le_antisymm h2 hlo]

/-- C6 (amended): with the target of a parameter held at the `float` `t`, every
call of `update_parameters` replaces the value `v` by the `float` result of
`t - c * (t - v)`, each of the three operations rounded to nearest.  With `c = 0`
the value is `t` after one call and after every later one.  With `c` a `float`
in `[0, 1)` the value after any number of calls is a finite `float` between the
starting value `v0` and `t`, each call leaves it between its previous value and
`t`, never farther from `t`, and moves it by at most `|t - v|`, which is at most
`hi - lo` whenever `v0` and `t` lie in `[lo, hi]`; the new value differs from
the exact `t - c * (t - v)` by at most `(|t| + |v|) / 2 ^ 21 + 2 ^ (-148)`.  The
starting value is a `float` whose difference from `t` does not overflow. -/
theorem smoothing_trajectory32 (d : DSP32) (p : Param) (t c v0 : ℚ)
    (ht : d.param_targets p = F32.fin t) (hc : d.param_smooth p = F32.fin c)
    (hv : d.params p = F32.fin v0)
    (hrt : F32.representable t) (hrv : F32.representable v0)
    (hfin : (F32.sub (F32.fin t) (F32.fin v0)).is_finite = true) :
    (∀ k : Nat, (DSP32.update_parameters^[k] d).param_targets p = F32.fin t
        ∧ (DSP32.update_parameters^[k] d).param_smooth p = F32.fin c)
    ∧ (∀ k : Nat, (DSP32.update_parameters^[k + 1] d).params p
        = F32.sub (F32.fin t)
            (F32.mul (F32.fin c)
              (F32.sub (F32.fin t) ((DSP32.update_parameters^[k] d).params p))))
    ∧ (c = 0 → ∀ k : Nat, 0 < k → (DSP32.update_parameters^[k] d).params p = F32.fin t)
    ∧ (F32.representable c → 0 ≤ c → c < 1 → ∀ k : Nat, ∃ w w' : ℚ,
        (DSP32.update_parameters^[k] d).params p = F32.fin w
        ∧ (DSP32.update_parameters^[k + 1] d).params p = F32.fin w'
        ∧ w' = F32.round (t - F32.round (c * F32.round (t - w)))
        ∧ F32.representable w
        ∧ (min v0 t ≤ w ∧ w ≤ max v0 t)
        ∧ (min w t ≤ w' ∧ w' ≤ max w t)
        ∧ |t - w'| ≤ |t - w|
        ∧ |w' - w| ≤ |t - w|
        ∧ |w' - (t - c * (t - w))| ≤ (|t| + |w|) / 2 ^ 21 + 1 / 2 ^ 148
        ∧ ∀ lo hi : ℚ, lo ≤ v0 → v0 ≤ hi → lo ≤ t → t ≤ hi → |w' - w| ≤ hi - lo) := by
  have hfin' := hfin
  rw [sub_fin, is_finite_of_rat] at hfin'
  refine ⟨?_, ?_, ?_, ?_⟩
  · intro k
    rw [(iterate32_fixed d k).1, (iterate32_fixed d k).2]
    exact ⟨ht, hc⟩
  · intro k
    rw [iterate32_succ, ht, hc]
    rfl
  · intro hc0 k hk
    subst hc0
    have h := iterate32_between d p t 0 v0 ht hc hv hrt hrv hfin (le_refl _) (by norm_num)
    obtain ⟨j, rfl⟩ : ∃ j, k = j + 1 := ⟨k - 1, by omega⟩
    obtain ⟨w, hw, _, h1, h2⟩ := h j
    rw [iterate32_succ, ht, hc, hw]
    apply smooth_value32_zero t w hrt
    have hle := round_abs_le_round (abs_sub_le_of_between h1 h2)
    rw [round_abs] at hle
    exact lt_of_le_of_lt hle hfin'
  · intro rc hc0 hc1 k
    have hc1' := lt_one_le_pred rc.1 hc1
    obtain ⟨w, hw, hrw, h1, h2⟩ := iterate32_between d p t c v0 ht hc hv hrt hrv hfin hc0 hc1' k
    have hDr : F32.round |t - v0| < (2 : ℚ) ^ (128 : ℕ) := by rw [round_abs]; exact hfin'
    obtain ⟨e, _, hup, hdown⟩ := smooth_value32_between t c w |t - v0| hrt hrw hc0 hc1'
      (abs_sub_le_of_between h1 h2) hDr
    have hbt : min w t ≤ F32.round (t - F32.round (c * F32.round (t - w)))
        ∧ F32.round (t - F32.round (c * F32.round (t - w))) ≤ max w t := by
      rcases le_total w t with hwt | hwt
      · rw [min_eq_left hwt, max_eq_right hwt]; exact hup hwt
      · rw [min_eq_right hwt, max_eq_left hwt]; exact hdown hwt
    have hnear : |t - F32.round (t - F32.round (c * F32.round (t - w)))| ≤ |t - w| :=
      abs_sub_le_of_between hbt.1 hbt.2
    have hmove : |F32.round (t - F32.round (c * F32.round (t - w))) - w| ≤ |t - w| := by
      rcases le_total w t with hwt | hwt
      · obtain ⟨a, b⟩ := hup hwt
        rw [abs_of_nonneg (by linarith), abs_of_nonneg (by linarith)]
        linarith
      · obtain ⟨a, b⟩ := hdown hwt
        rw [abs_of_nonpos (by linarith), abs_of_nonpos (by linarith)]
        linarith
    refine ⟨w, _, hw, ?_, rfl, hrw, ⟨h1, h2⟩, hbt, hnear, hmove,
      smooth_step_error t c w hc0 (le_of_lt hc1), ?_⟩
    · rw [iterate32_succ, ht, hc, hw, e]
    · intro lo hi hl1 hl2 hl3 hl4
      have hwlo : lo ≤ w := le_trans (le_min hl1 hl3) h1
      have hwhi : w ≤ hi := le_trans h2 (max_le hl2 hl4)
      have : |t - w| ≤ hi - lo := by
        rw [abs_le]; constructor <;> linarith
      exact le_trans hmove this

theorem smoothing_trajectory32_witness :
    (DSP32.update_parameters^[1] demo_gliding_dsp32).params Param.mix
        = F32.sub (F32.fin 80) (F32.mul (F32.fin (1 / 2)) (F32.sub (F32.fin 80) (F32.fin 0)))
    ∧ ∃ w w' : ℚ,
        (DSP32.update_parameters^[30] demo_gliding_dsp32).params Param.mix = F32.fin w
        ∧ (DSP32.update_parameters^[31] demo_gliding_dsp32).params Param.mix = F32.fin w'
        ∧ (0 ≤ w ∧ w ≤ 80) ∧ (w ≤ w' ∧ w' ≤ 80) := by
  have r0 : F32.representable (0 : ℚ) := representable_zero
  have r80 : F32.representable (80 : ℚ) := by
    have := representable_int 80 (by norm_num); simpa using this
  have hfin : (F32.sub (F32.fin 80) (F32.fin 0)).is_finite = true := by
    rw [sub_fin, is_finite_of_rat, sub_zero, r80.1]; exact r80.2
  have h := smoothing_trajectory32 demo_gliding_dsp32 Param.mix 80 (1 / 2) 0 rfl rfl rfl
    r80 r0 hfin
  refine ⟨h.2.1 0, ?_⟩
  obtain ⟨w, w', hw, hw', _, _, hb, hb', _⟩ :=
    h.2.2.2 representable_half (by norm_num) (by norm_num) 30
  have e1 : min (0 : ℚ) 80 = 0 := by norm_num
  have e2 : max (0 : ℚ) 80 = 80 := by norm_num
  rw [e1, e2] at hb
  have hwt : w ≤ 80 := hb.2
  rw [min_eq_left hwt, max_eq_right hwt] at hb'
  exact ⟨w, w', hw, hw', hb, hb'⟩

/-! ## Parameter layer -/

theorem update_parameters_targets {σ : Type} (F : FloatLib) (K : Components σ) (d : DSP σ) :
    (d.update_parameters F K).param_targets = d.param_targets := rfl

theorem update_parameters_smooth {σ : Type} (F : FloatLib) (K : Components σ) (d : DSP σ) :
    (d.update_parameters F K).param_smooth = d.param_smooth := rfl

theorem wrap_sub (a n k : Nat) (ha : a < n) (hk : k < n) :
    (a + n - k) % n = if k ≤ a then a - k else a + n - k := by
  split_ifs with h
  · have e : a + n - k = (a - k) + n := by omega
    rw [e, Nat.add_mod_right, Nat.mod_eq_of_lt (by omega)]
  · exact Nat.mod_eq_of_lt (by omega)

theorem wrap_succ (a n : Nat) (ha : a < n) :
    (a + 1) % n = if a + 1 = n then 0 else a + 1 := by
  split_ifs with h
  · rw [h, Nat.mod_self]
  · exact Nat.mod_eq_of_lt (by omega)

theorem push_index_eq {T : Type} (rb : Ringbuffer T) (hs : rb.size < 2 ^ 64)
    (hc : rb.cursor < rb.size) : rb.push_index = (rb.cursor + 1) % rb.size := by
  have h64 : (2 : Nat) ^ 64 = 18446744073709551616 := by norm_num
  rw [wrap_succ _ _ hc]
  unfold Ringbuffer.push_index
  rw [h64] at hs ⊢
  simp only []
  split_ifs <;> omega

theorem push_index_lt {T : Type} (rb : Ringbuffer T) (hs : rb.size < 2 ^ 64)
    (hc : rb.cursor < rb.size) : rb.push_index < rb.size := by
  rw [push_index_eq rb hs hc]
  exact Nat.mod_lt _ (by omega)

theorem push_eq {T : Type} (rb : Ringbuffer T) (x : T) (hwf : rb.wf)
    (hc : rb.cursor < rb.size) :
    rb.push x = some { rb with cursor := (rb.cursor + 1) % rb.size,
                               buf := rb.buf.set ((rb.cursor + 1) % rb.size) x } := by
  have hlt := push_index_lt rb hwf.2 hc
  unfold Ringbuffer.push
  rw [hwf.1, if_pos hlt, push_index_eq rb hwf.2 hc]

theorem push_all_append {T : Type} (rb : Ringbuffer T) (xs ys : List T) :
    rb.push_all (xs ++ ys) = (rb.push_all xs).bind (fun r => r.push_all ys) := by
  induction xs generalizing rb with
  | nil => simp [Ringbuffer.push_all]
  | cons x xs ih =>
    simp only [List.cons_append, Ringbuffer.push_all]
    cases h : rb.push x with
    | none => simp
    | some r => simp [ih]

theorem wrap_step (a n k : Nat) (ha : a < n) (hk1 : 1 ≤ k) (hk : k < n) :
    ((a + 1) % n + n - k) % n = (a + n - (k - 1)) % n
    ∧ (a + 1) % n ≠ ((a + 1) % n + n - k) % n := by
  have hlt : (a + 1) % n < n := Nat.mod_lt _ (by omega)
  rw [wrap_sub _ _ _ hlt hk, wrap_sub _ _ _ ha (by omega)]
  rw [wrap_succ _ _ ha]
  constructor <;> split_ifs <;> omega

theorem push_all_spec {T : Type} (rb : Ringbuffer T) (hwf : rb.wf)
    (hc : rb.cursor < rb.size) (xs : List T) :
    ∃ r : Ringbuffer T, rb.push_all xs = some r
      ∧ r.size = rb.size ∧ r.buf.length = rb.size
      ∧ r.cursor = (rb.cursor + xs.length) % rb.size
      ∧ (∀ k : Nat, k < xs.length → k < rb.size →
          r.buf[(r.cursor + rb.size - k) % rb.size]? = xs[xs.length - 1 - k]?)
      ∧ (∀ i : Nat, i < rb.size →
          (∀ j : Nat, 1 ≤ j → j ≤ xs.length → (rb.cursor + j) % rb.size ≠ i) →
          r.buf[i]? = rb.buf[i]?) := by
  induction xs using List.reverseRecOn with
  | nil =>
    refine ⟨rb, rfl, rfl, hwf.1, ?_, ?_, ?_⟩
    · simp [Nat.mod_eq_of_lt hc]
    · intro k hk; simp at hk
    · intro i _ _; rfl
  | append_singleton xs x ih =>
    obtain ⟨r, hr, hsz, hlen, hcur, hlast, hkeep⟩ := ih
    have hrc : r.cursor < r.size := by
      rw [hcur, hsz]; exact Nat.mod_lt _ (by omega)
    have hrwf : r.wf := ⟨by rw [hlen, hsz], by rw [hsz]; exact hwf.2⟩
    have hnew : (r.cursor + 1) % rb.size = (rb.cursor + (xs.length + 1)) % rb.size := by
      rw [hcur, Nat.mod_add_mod, Nat.add_assoc]
    refine ⟨{ r with cursor := (r.cursor + 1) % r.size,
                     buf := r.buf.set ((r.cursor + 1) % r.size) x }, ?_, hsz, ?_, ?_, ?_, ?_⟩
    · rw [push_all_append, hr]
      simp [Ringbuffer.push_all, push_eq r x hrwf hrc]
    · simp [hlen]
    · simp only [List.length_append, List.length_singleton, hsz]
      exact hnew
    · intro k hk hkn
      simp only [List.length_append, List.length_singleton, hsz] at hk ⊢
      rw [hsz] at hrc
      have hidx : (r.cursor + 1) % rb.size < r.buf.length := by
        rw [hlen]; exact Nat.mod_lt _ (by omega)
      rcases Nat.eq_zero_or_pos k with h0 | hpos
      · subst h0
        have e1 : ((r.cursor + 1) % rb.size + rb.size - 0) % rb.size
            = (r.cursor + 1) % rb.size := by
          rw [Nat.sub_zero, Nat.add_mod_right, Nat.mod_mod]
        rw [e1, List.getElem?_set_self hidx]
        have e2 : xs.length + 1 - 1 - 0 = xs.length := by omega
        rw [e2, List.getElem?_concat_length]
      · have hw := wrap_step r.cursor rb.size k hrc hpos hkn
        rw [List.getElem?_set_ne hw.2, hw.1, hlast (k - 1) (by omega) (by omega)]
        have e2 : xs.length + 1 - 1 - k = xs.length - 1 - (k - 1) := by omega
        rw [e2, List.getElem?_append_left (by omega)]
    · intro i hi hj
      simp only [List.length_append, List.length_singleton, hsz] at hj ⊢
      have hne : (r.cursor + 1) % rb.size ≠ i := by
        rw [hnew]; exact hj (xs.length + 1) (by omega) (by omega)
      rw [List.getElem?_set_ne hne]
      exact hkeep i hi (fun j h1 h2 => hj j h1 (by omega))

/-- C7: for a ring buffer of capacity `n ≥ 1` with cursor below `n`, pushing
`xs = x1..xm` in order succeeds, leaves the cursor at `(end0 + m) mod n`, below
`n`, and for every `k < min(m, n)` the slot `(end - k) mod n` (written
`(end + n - k) mod n`) holds `x_(m-k)`; a slot that none of the `m` pushes
reached keeps its content; and once `n` values are stored the slot after the
cursor holds the oldest of them, which is the one slot a further push rewrites. -/
theorem push_all_overwrites_oldest {T : Type} (rb : Ringbuffer T) (xs : List T)
    (hwf : rb.wf) (hn : 1 ≤ rb.size) (hc : rb.cursor < rb.size) :
    ∃ r : Ringbuffer T, rb.push_all xs = some r
      ∧ r.size = rb.size ∧ r.buf.length = rb.size
      ∧ r.cursor = (rb.cursor + xs.length) % rb.size ∧ r.cursor < rb.size
      ∧ (∀ k : Nat, k < min xs.length rb.size →
          r.buf[(r.cursor + rb.size - k) % rb.size]? = xs[xs.length - 1 - k]?
          ∧ xs[xs.length - 1 - k]?.isSome = true)
      ∧ (∀ i : Nat, i < rb.size →
          (∀ j : Nat, 1 ≤ j → j ≤ xs.length → (rb.cursor + j) % rb.size ≠ i) →
          r.buf[i]? = rb.buf[i]?)
      ∧ (rb.size ≤ xs.length → ∀ x : T,
          r.buf[(r.cursor + 1) % rb.size]? = xs[xs.length - rb.size]?
          ∧ r.push x = some { r with cursor := (r.cursor + 1) % rb.size,
                                     buf := r.buf.set ((r.cursor + 1) % rb.size) x }) := by
  obtain ⟨r, hr, hsz, hlen, hcur, hlast, hkeep⟩ := push_all_spec rb hwf hc xs
  have hrc : r.cursor < rb.size := by rw [hcur]; exact Nat.mod_lt _ (by omega)
  refine ⟨r, hr, hsz, hlen, hcur, hrc, ?_, hkeep, ?_⟩
  · intro k hk
    have hk1 : k < xs.length := lt_of_lt_of_le hk (min_le_left _ _)
    have hk2 : k < rb.size := lt_of_lt_of_le hk (min_le_right _ _)
    refine ⟨hlast k hk1 hk2, ?_⟩
    rw [List.getElem?_eq_getElem (by omega)]
    rfl
  · intro hfull x
    constructor
    · have h := hlast (rb.size - 1) (by omega) (by omega)
      have e1 : (r.cursor + rb.size - (rb.size - 1)) = r.cursor + 1 := by omega
      have e2 : xs.length - 1 - (rb.size - 1) = xs.length - rb.size := by omega
      rw [e1, e2] at h
      exact h
    · have hrwf : r.wf := ⟨by rw [hlen, hsz], by rw [hsz]; exact hwf.2⟩
      have h := push_eq r x hrwf (by rw [hsz]; exact hrc)
      simpa only [hsz] using h

theorem push_all_overwrites_oldest_witness :
    ∃ r : Ringbuffer Int, (Ringbuffer.construct 3 : Ringbuffer Int).push_all [1, 2, 3, 4] = some r
      ∧ r.size = 3 ∧ r.buf.length = 3
      ∧ r.cursor = (0 + 4) % 3 ∧ r.cursor < 3
      ∧ (∀ k : Nat, k < min 4 3 →
          r.buf[(r.cursor + 3 - k) % 3]? = [1, 2, 3, (4 : Int)][4 - 1 - k]?
          ∧ [1, 2, 3, (4 : Int)][4 - 1 - k]?.isSome = true)
      ∧ (∀ i : Nat, i < 3 →
          (∀ j : Nat, 1 ≤ j → j ≤ 4 → (0 + j) % 3 ≠ i) →
          r.buf[i]? = (List.replicate 3 (0 : Int))[i]?)
      ∧ (3 ≤ 4 → ∀ x : Int,
          r.buf[(r.cursor + 1) % 3]? = [1, 2, 3, (4 : Int)][4 - 3]?
          ∧ r.push x = some { r with cursor := (r.cursor + 1) % 3,
                                     buf := r.buf.set ((r.cursor + 1) % 3) x }) :=
  push_all_overwrites_oldest (Ringbuffer.construct 3 : Ringbuffer Int) [1, 2, 3, 4]
    ⟨rfl, by norm_num [Ringbuffer.construct, Ringbuffer.clear]⟩ (by decide) (by decide)

theorem push_all_example :
    (Ringbuffer.construct 3 : Ringbuffer Int).push_all [1, 2, 3, 4]
      = some { cursor := 1, size := 3, buf := [3, 4, 2] } := by
  rfl

theorem construct_wf {T : Type} [Zero T] (sz : Nat) (hsz : sz < 2 ^ 64) :
    (Ringbuffer.construct sz : Ringbuffer T).wf := by
  constructor
  · simp [Ringbuffer.construct, Ringbuffer.clear]
  · exact hsz

/-- C9 (as stated, refuted): the default constructor produces a ring buffer of
capacity `0`, so its capacity is not `≥ 1`, and a push on it stores at index `1`,
which is not below the capacity. -/
theorem default_construct_is_empty :
    (Ringbuffer.default_construct : Ringbuffer Int).size = 0
    ∧ ¬ (1 ≤ (Ringbuffer.default_construct : Ringbuffer Int).size)
    ∧ (Ringbuffer.construct 0 : Ringbuffer Int).buf = []
    ∧ (Ringbuffer.default_construct : Ringbuffer Int).push_index = 1
    ∧ ¬ ((Ringbuffer.default_construct : Ringbuffer Int).push_index
          < (Ringbuffer.default_construct : Ringbuffer Int).size)
    ∧ (Ringbuffer.default_construct : Ringbuffer Int).push 5 = none := by
  refine ⟨rfl, by decide, rfl, rfl, by decide, rfl⟩

/-- C9 (amended): construction does not validate the capacity: `Ringbuffer(sz)`
yields capacity exactly `sz`, cursor `0` and `sz` zeroed slots, and the default
constructor yields capacity `0`.  For a constructed buffer of capacity `sz ≥ 1`
every push of every sequence stores inside the array, the cursor staying
below the capacity, and the next push again stores below the capacity. -/
theorem construct_capacity_and_push_bounds {T : Type} [Zero T] (sz : Nat)
    (hsz : sz < 2 ^ 64) :
    (Ringbuffer.construct sz : Ringbuffer T).size = sz
    ∧ (Ringbuffer.construct sz : Ringbuffer T).cursor = 0
    ∧ (Ringbuffer.construct sz : Ringbuffer T).buf = List.replicate sz 0
    ∧ (Ringbuffer.default_construct : Ringbuffer T).size = 0
    ∧ (1 ≤ sz → ∀ xs : List T, ∃ r : Ringbuffer T,
        (Ringbuffer.construct sz : Ringbuffer T).push_all xs = some r
        ∧ r.size = sz ∧ r.buf.length = sz ∧ r.cursor < sz ∧ r.push_index < sz) := by
  refine ⟨rfl, rfl, by simp [Ringbuffer.construct, Ringbuffer.clear], rfl, ?_⟩
  intro h1 xs
  have hc : (Ringbuffer.construct sz : Ringbuffer T).cursor
      < (Ringbuffer.construct sz : Ringbuffer T).size := h1
  obtain ⟨r, hr, hs, hlen, hcur, _, _⟩ :=
    push_all_spec (Ringbuffer.construct sz : Ringbuffer T) (construct_wf sz hsz) hc xs
  have hs2 : r.size = sz := hs
  have hrc : r.cursor < r.size := by
    rw [hcur, hs]; exact Nat.mod_lt _ (by omega)
  refine ⟨r, hr, hs2, hlen, by rw [← hs2]; exact hrc, ?_⟩
  have := push_index_lt r (by rw [hs2]; exact hsz) hrc
  rw [hs2] at this
  exact this

theorem construct_capacity_and_push_bounds_witness :
    (3 : Nat) < 2 ^ 64
    ∧ (1 ≤ 3 → ∀ xs : List Int, ∃ r : Ringbuffer Int,
        (Ringbuffer.construct 3 : Ringbuffer Int).push_all xs = some r
        ∧ r.size = 3 ∧ r.buf.length = 3 ∧ r.cursor < 3 ∧ r.push_index < 3) :=
  ⟨by norm_num, (construct_capacity_and_push_bounds 3 (by norm_num)).2.2.2.2⟩

/-! ## Values handed to the sub-components -/

theorem mem_when_modified (c : Call) (flag : Bool) (cs : List Call) :
    c ∈ when_modified flag cs ↔ flag = true ∧ c ∈ cs := by
  cases flag <;> simp [when_modified]

theorem mem_both (c : Call) (m : Setter) (a : Arg) :
    c ∈ both m a ↔ c = Call.set Chan.l m a ∨ c = Call.set Chan.r m a := by
  simp [both]

theorem mem_crossmix_calls (c : Call) (m : Setter) (x : ℚ) :
    c ∈ crossmix_calls m x
      ↔ c = Call.set Chan.l m (Arg.f32 (crossmix_left x))
        ∨ c = Call.set Chan.r m (Arg.f32 (crossmix_right x)) := by
  simp [crossmix_calls]

theorem delay_feedback_calls {σ : Type} (F : FloatLib) (d : DSP σ) (ch : Chan) (a : Arg) :
    Call.set ch Setter.late_rev_set_delay_feedback a ∈ d.apply_parameters_calls F
      ↔ d.params_modified Param.late_delay_line_feedback = true
        ∧ a = Arg.f32 (d.params Param.late_delay_line_feedback) := by
  simp only [DSP.apply_parameters_calls, List.mem_append, mem_when_modified, mem_both,
    mem_crossmix_calls, Call.set.injEq]
  cases ch <;> simp

theorem diffuser_push_calls {σ : Type} (K : Components σ) (d : DSP (σ × List Call))
    (hd : d.comps.2 = []) (x y : ℚ) (c : Call)
    (hc : c ∈ (Object.render_sample K.traced d x y).comps.2) :
    (∀ (ch : Chan) (a : ℚ) (info : DiffuserPushInfo),
        c = Call.early_diffuser_push ch a info → info = Object.early_diffuser_info d)
    ∧ (∀ (ch : Chan) (a : ℚ) (info : LatePushInfo),
        c = Call.late_rev_push ch a info → info = Object.late_push_info d) := by
  simp only [Object.render_sample, Components.call, Components.traced, hd] at hc
  constructor
  · intro ch a info he
    subst he
    split_ifs at hc <;> simp at hc <;> rcases hc with h | h <;> exact h.2.2
  · intro ch a info he
    subst he
    split_ifs at hc <;> simp at hc <;> rcases hc with h | h <;> exact h.2.2

theorem diffuser_push_present {σ : Type} (K : Components σ) (d : DSP (σ × List Call))
    (x y : ℚ) (ch : Chan) :
    (∃ a : ℚ, Call.early_diffuser_push ch a (Object.early_diffuser_info d)
        ∈ (Object.render_sample K.traced d x y).comps.2)
    ∧ (∃ a : ℚ, Call.late_rev_push ch a (Object.late_push_info d)
        ∈ (Object.render_sample K.traced d x y).comps.2) := by
  simp only [Object.render_sample, Components.call, Components.traced]
  cases ch <;> constructor <;> simp

/-- C8 (as stated, refuted): with the three feedback parameters at `1`, a value
inside their declared range `[0, 1]`, the engine hands `1` to
`set_delay_feedback` and puts `1` in the `feedback` field of the `PushInfo` of
the early and of the late diffusers: the coefficient is not below unity. -/
theorem feedback_unity_is_handed_on :
    (0 ≤ demo_unity_dsp.params Param.late_delay_line_feedback
      ∧ demo_unity_dsp.params Param.late_delay_line_feedback ≤ 1)
    ∧ Call.set Chan.l Setter.late_rev_set_delay_feedback (Arg.f32 1)
        ∈ demo_unity_dsp.apply_parameters_calls demo_lib
    ∧ ¬ ((Object.early_diffuser_info demo_unity_dsp).feedback < 1)
    ∧ ¬ ((Object.late_push_info demo_unity_dsp).diffuser_info.feedback < 1)
    ∧ (∃ a : ℚ, Call.early_diffuser_push Chan.l a
          { stages := 1, feedback := 1, interpolate := true }
        ∈ (Object.render_sample Components.logging demo_unity_dsp 3 (-5)).comps) := by
  refine ⟨⟨by simp [demo_unity_dsp], by simp [demo_unity_dsp]⟩, ?_, ?_, ?_, ?_⟩
  · rw [delay_feedback_calls]
    simp [demo_unity_dsp]
  · simp [Object.early_diffuser_info, demo_unity_dsp]
  · simp [Object.late_push_info, demo_unity_dsp]
  · have h1 : to_uint32 1 = 1 := by decide
    simp [Object.render_sample, Components.call, Components.logging,
      Object.early_diffuser_info, demo_unity_dsp, h1]

/-- C8 (amended): the engine applies no clamp to the feedback parameters.  The
argument of every `set_delay_feedback` call of `apply_parameters` is the
current `late_delay_line_feedback`, and the call is made on both channels
exactly when the parameter is flagged modified; the `feedback` field of every
`PushInfo` handed to the early and to the late diffusers in a sample is the
current `early_diffusion_feedback`, respectively `late_diffusion_feedback`.
So a parameter value in `[0, 1]` is handed on as a coefficient in `[0, 1]`,
which is strictly below `1` exactly when the parameter value is not `1`. -/
theorem feedback_handed_unchanged {σ : Type} (F : FloatLib) (K : Components σ)
    (d : DSP (σ × List Call)) (x y : ℚ) (hd : d.comps.2 = []) :
    (∀ (ch : Chan) (a : Arg),
        Call.set ch Setter.late_rev_set_delay_feedback a ∈ d.apply_parameters_calls F
          ↔ d.params_modified Param.late_delay_line_feedback = true
            ∧ a = Arg.f32 (d.params Param.late_delay_line_feedback))
    ∧ (∀ (ch : Chan) (a : ℚ) (info : DiffuserPushInfo),
        Call.early_diffuser_push ch a info ∈ (Object.render_sample K.traced d x y).comps.2 →
          info.feedback = d.params Param.early_diffusion_feedback)
    ∧ (∀ ch : Chan, ∃ (a : ℚ) (info : DiffuserPushInfo),
        Call.early_diffuser_push ch a info ∈ (Object.render_sample K.traced d x y).comps.2)
    ∧ (∀ (ch : Chan) (a : ℚ) (info : LatePushInfo),
        Call.late_rev_push ch a info ∈ (Object.render_sample K.traced d x y).comps.2 →
          info.diffuser_info.feedback = d.params Param.late_diffusion_feedback)
    ∧ (∀ ch : Chan, ∃ (a : ℚ) (info : LatePushInfo),
        Call.late_rev_push ch a info ∈ (Object.render_sample K.traced d x y).comps.2)
    ∧ (∀ (ch : Chan) (c : ℚ),
        Call.set ch Setter.late_rev_set_delay_feedback (Arg.f32 c)
            ∈ d.apply_parameters_calls F →
        0 ≤ d.params Param.late_delay_line_feedback →
        d.params Param.late_delay_line_feedback ≤ 1 →
          0 ≤ c ∧ c ≤ 1 ∧ (c < 1 ↔ d.params Param.late_delay_line_feedback ≠ 1))
    ∧ (∀ (ch : Chan) (a : ℚ) (info : DiffuserPushInfo),
        Call.early_diffuser_push ch a info ∈ (Object.render_sample K.traced d x y).comps.2 →
        0 ≤ d.params Param.early_diffusion_feedback →
        d.params Param.early_diffusion_feedback ≤ 1 →
          0 ≤ info.feedback ∧ info.feedback ≤ 1
          ∧ (info.feedback < 1 ↔ d.params Param.early_diffusion_feedback ≠ 1))
    ∧ (∀ (ch : Chan) (a : ℚ) (info : LatePushInfo),
        Call.late_rev_push ch a info ∈ (Object.render_sample K.traced d x y).comps.2 →
        0 ≤ d.params Param.late_diffusion_feedback →
        d.params Param.late_diffusion_feedback ≤ 1 →
          0 ≤ info.diffuser_info.feedback ∧ info.diffuser_info.feedback ≤ 1
          ∧ (info.diffuser_info.feedback < 1
              ↔ d.params Param.late_diffusion_feedback ≠ 1)) := by
  have hearly : ∀ (ch : Chan) (a : ℚ) (info : DiffuserPushInfo),
      Call.early_diffuser_push ch a info ∈ (Object.render_sample K.traced d x y).comps.2 →
        info.feedback = d.params Param.early_diffusion_feedback := by
    intro ch a info h
    rw [(diffuser_push_calls K d hd x y _ h).1 ch a info rfl]
    rfl
  have hlate : ∀ (ch : Chan) (a : ℚ) (info : LatePushInfo),
      Call.late_rev_push ch a info ∈ (Object.render_sample K.traced d x y).comps.2 →
        info.diffuser_info.feedback = d.params Param.late_diffusion_feedback := by
    intro ch a info h
    rw [(diffuser_push_calls K d hd x y _ h).2 ch a info rfl]
    rfl
  have hrange : ∀ v : ℚ, 0 ≤ v → v ≤ 1 → 0 ≤ v ∧ v ≤ 1 ∧ (v < 1 ↔ v ≠ 1) :=
    fun v h0 h1 => ⟨h0, h1, fun h => ne_of_lt h, fun h => lt_of_le_of_ne h1 h⟩
  refine ⟨fun ch a => delay_feedback_calls F d ch a, hearly, ?_, hlate, ?_, ?_, ?_, ?_⟩
  · intro ch
    obtain ⟨a, ha⟩ := (diffuser_push_present K d x y ch).1
    exact ⟨a, _, ha⟩
  · intro ch
    obtain ⟨a, ha⟩ := (diffuser_push_present K d x y ch).2
    exact ⟨a, _, ha⟩
  · intro ch c h h0 h1
    have hc := ((delay_feedback_calls F d ch _).mp h).2
    rw [Arg.f32.injEq] at hc
    rw [hc]
    exact hrange _ h0 h1
  · intro ch a info h h0 h1
    rw [hearly ch a info h]
    exact hrange _ h0 h1
  · intro ch a info h h0 h1
    rw [hlate ch a info h]
    exact hrange _ h0 h1

theorem feedback_handed_unchanged_witness :
    demo_traced_dsp.comps.2 = []
    ∧ (∀ (ch : Chan) (a : ℚ) (info : DiffuserPushInfo),
        Call.early_diffuser_push ch a info
            ∈ (Object.render_sample demo_components.traced demo_traced_dsp 3 (-5)).comps.2 →
          info.feedback = demo_traced_dsp.params Param.early_diffusion_feedback) :=
  ⟨rfl, (feedback_handed_unchanged demo_lib demo_components demo_traced_dsp 3 (-5) rfl).2.1⟩

/-- Tracing the calls does not change what a sample computes: the two output
samples and the state of the underlying components are those of the plain run. -/
theorem traced_render_sample {σ : Type} (K : Components σ) (d : DSP (σ × List Call))
    (x y : ℚ) :
    (Object.render_sample K.traced d x y).out_left
        = (Object.render_sample K d.forget_trace x y).out_left
    ∧ (Object.render_sample K.traced d x y).out_right
        = (Object.render_sample K d.forget_trace x y).out_right
    ∧ (Object.render_sample K.traced d x y).comps.1
        = (Object.render_sample K d.forget_trace x y).comps := by
  simp only [Object.render_sample, Components.call, Components.traced, DSP.forget_trace,
    Object.early_diffuser_info, Object.late_push_info]
  split_ifs <;> exact ⟨rfl, rfl, rfl⟩

/-! ## Setters are called only on change -/

theorem apply_calls_are_setters {σ : Type} (F : FloatLib) (d : DSP σ) (c : Call)
    (h : c ∈ d.apply_parameters_calls F) :
    ∃ (ch : Chan) (m : Setter) (a : Arg), c = Call.set ch m a := by
  simp only [DSP.apply_parameters_calls, List.mem_append, mem_when_modified, mem_both,
    mem_crossmix_calls] at h
  rcases h with h | h
  on_goal 2 => rcases h.2 with e | e <;> exact ⟨_, _, _, e⟩
  repeat' rcases h with h | h
  all_goals rcases h.2 with e | e <;> exact ⟨_, _, _, e⟩

theorem setter_call_guarded {σ : Type} (F : FloatLib) (d : DSP σ) (ch : Chan) (m : Setter)
    (a : Arg) (h : Call.set ch m a ∈ d.apply_parameters_calls F) :
    d.params_modified m.param = true := by
  simp only [DSP.apply_parameters_calls, List.mem_append, mem_when_modified, mem_both,
    mem_crossmix_calls, Call.set.injEq] at h
  cases m <;> simp at h <;> simp only [Setter.param] <;> exact h.1

theorem apply_calls_nil {σ : Type} (F : FloatLib) (d : DSP σ)
    (h : ∀ p : Param, d.params_modified p = false) : d.apply_parameters_calls F = [] := by
  simp [DSP.apply_parameters_calls, when_modified, h]

theorem run_nil {σ : Type} (K : Components σ) (s : σ) : K.run [] s = s := rfl

theorem apply_parameters_comps {σ : Type} (F : FloatLib) (K : Components σ) (d : DSP σ) :
    (d.apply_parameters F K).comps = K.run (d.apply_parameters_calls F) d.comps := by
  simp only [DSP.apply_parameters]

theorem update_parameters_comps {σ : Type} (F : FloatLib) (K : Components σ) (d : DSP σ) :
    (d.update_parameters F K).comps
      = K.run (d.smooth_parameters.apply_parameters_calls F) d.comps := by
  simp only [DSP.update_parameters, DSP.apply_parameters, DSP.smooth_parameters]

/-- C11: when every current value already equals its target, `update_parameters`
leaves every current value unchanged, clears all 47 modified flags, and the
`apply_parameters` it calls makes no call at all, so the state of every
sub-component is unchanged.  In general every call made by `apply_parameters`
is a setter call and is made only when the flag of the parameter its block reads
is true; with all flags false the sub-component state is unchanged. -/
theorem setters_only_on_change {σ : Type} (F : FloatLib) (K : Components σ) (d : DSP σ) :
    ((∀ p : Param, d.params p = d.param_targets p) →
      (∀ p : Param, (d.update_parameters F K).params p = d.params p)
      ∧ (∀ p : Param, (d.update_parameters F K).params_modified p = false)
      ∧ d.smooth_parameters.apply_parameters_calls F = []
      ∧ (d.update_parameters F K).comps = d.comps)
    ∧ Parameters.size = 47
    ∧ (d.update_parameters F K).comps
        = K.run (d.smooth_parameters.apply_parameters_calls F) d.comps
    ∧ (∀ c : Call, c ∈ d.apply_parameters_calls F →
        ∃ (ch : Chan) (m : Setter) (a : Arg),
          c = Call.set ch m a ∧ d.params_modified m.param = true)
    ∧ (∀ mem : Member,
        (∀ m : Setter, m.member = mem → d.params_modified m.param = false) →
        ∀ c : Call, c ∈ d.apply_parameters_calls F → c.member ≠ mem)
    ∧ ((∀ p : Param, d.params_modified p = false) →
        d.apply_parameters_calls F = [] ∧ (d.apply_parameters F K).comps = d.comps) := by
  refine ⟨?_, Param.fields_length, update_parameters_comps F K d, ?_, ?_, ?_⟩
  · intro h
    have hp : ∀ p : Param, (d.update_parameters F K).params p = d.params p := by
      intro p
      rw [update_parameters_params, h p]
      ring
    have hm : ∀ p : Param, d.smooth_parameters.params_modified p = false := by
      intro p
      rw [smooth_parameters_modified, h p]
      simp
    have hnil := apply_calls_nil F d.smooth_parameters hm
    refine ⟨hp, hm, hnil, ?_⟩
    rw [update_parameters_comps, hnil, run_nil]
  · intro c hc
    obtain ⟨ch, m, a, e⟩ := apply_calls_are_setters F d c hc
    subst e
    exact ⟨ch, m, a, rfl, setter_call_guarded F d ch m a hc⟩
  · intro mem hmem c hc hcm
    obtain ⟨ch, m, a, e⟩ := apply_calls_are_setters F d c hc
    subst e
    have h1 := setter_call_guarded F d ch m a hc
    rw [hmem m hcm] at h1
    exact Bool.false_ne_true h1
  · intro h
    have hnil := apply_calls_nil F d h
    refine ⟨hnil, ?_⟩
    rw [apply_parameters_comps, hnil, run_nil]

theorem setters_only_on_change_witness :
    (∀ p : Param, demo_dry_dsp.params p = demo_dry_dsp.param_targets p)
    ∧ (∀ p : Param,
        (demo_dry_dsp.update_parameters demo_lib demo_components).params_modified p = false)
    ∧ demo_dry_dsp.smooth_parameters.apply_parameters_calls demo_lib = [] :=
  ⟨fun _ => rfl,
   ((setters_only_on_change demo_lib demo_components demo_dry_dsp).1 (fun _ => rfl)).2.1,
   ((setters_only_on_change demo_lib demo_components demo_dry_dsp).1 (fun _ => rfl)).2.2.1⟩

/-! ## Early filtering -/

theorem prepare_inputs_eq_fields : Object.prepare_inputs = Param.fields := rfl

theorem bind_ports_apply (bound : Param → Option Param) (p : Param) :
    Object.bind_ports bound p = some p := by
  have hz : Param.fields.zip Object.prepare_inputs = Param.fields.map (fun q => (q, q)) := by
    decide
  unfold Object.bind_ports
  rw [hz, List.foldl_map]
  exact (foldl_update_const (fun q => some q) Param.fields bound p).trans
    (if_pos (Param.mem_fields p))

theorem prepare_bound {σ : Type} (F : FloatLib) (K : Components σ) (infos : Nat → ParamInfo)
    (o : Object σ) (rate : ℚ) (p : Param) :
    (Object.prepare F K infos o rate).bound p = some p := by
  simp only [Object.prepare]
  exact bind_ports_apply _ p

theorem prepare_keeps_inputs {σ : Type} (F : FloatLib) (K : Components σ) (infos : Nat → ParamInfo)
    (o : Object σ) (rate : ℚ) :
    (Object.prepare F K infos o rate).inputs = o.inputs := by
  simp only [Object.prepare]
  split_ifs <;> rfl

/-- C13: `DSP::Parameters` has exactly 47 fields, `Object::prepare` binds exactly
47 ports, and for every `i < 47` the `i`-th port bound is the control with the
name of the `i`-th field.  So after `prepare` every port addresses the control
of its own name, the engine reads through port `X` the value of `inputs.X`, and
after `update_parameter_targets` the target of `X` is the clamped value of
`inputs.X`, whatever the other controls hold. -/
theorem ports_line_up {σ : Type} (F : FloatLib) (K : Components σ)
    (infos : Nat → ParamInfo) (o : Object σ) (rate : ℚ) :
    Parameters.size = 47
    ∧ Param.fields.Nodup
    ∧ (∀ p : Param, p ∈ Param.fields)
    ∧ Object.prepare_inputs.length = 47
    ∧ (∀ i : Nat, i < 47 → Object.prepare_inputs[i]? = Param.fields[i]?
        ∧ (Param.fields[i]?).isSome = true)
    ∧ (∀ X : Param, (Object.prepare F K infos o rate).bound X = some X)
    ∧ (∀ X : Param, (Object.prepare F K infos o rate).engine.param_ports X
        = some (o.inputs X))
    ∧ (∀ (v : Param → ℚ) (X : Param),
        (DSP.update_parameter_targets infos
          (Object.engine { Object.prepare F K infos o rate with inputs := v })).param_targets X
          = clamp (v X) (info_of infos X).min (info_of infos X).max)
    ∧ (∀ (v w : Param → ℚ) (X : Param), v X = w X →
        (DSP.update_parameter_targets infos
          (Object.engine { Object.prepare F K infos o rate with inputs := v })).param_targets X
        = (DSP.update_parameter_targets infos
          (Object.engine { Object.prepare F K infos o rate with inputs := w })).param_targets
            X) := by
  have hport : ∀ (v : Param → ℚ) (X : Param),
      (Object.engine { Object.prepare F K infos o rate with inputs := v }).param_ports X
        = some (v X) := by
    intro v X
    simp only [Object.engine, prepare_bound, Option.map_some']
  have htarget : ∀ (v : Param → ℚ) (X : Param),
      (DSP.update_parameter_targets infos
        (Object.engine { Object.prepare F K infos o rate with inputs := v })).param_targets X
        = clamp (v X) (info_of infos X).min (info_of infos X).max := by
    intro v X
    rw [update_parameter_targets_target, port_value, hport]
  refine ⟨Param.fields_length, Param.fields_nodup, Param.mem_fields, rfl, ?_, ?_, ?_,
    htarget, ?_⟩
  · intro i hi
    rw [prepare_inputs_eq_fields]
    refine ⟨rfl, ?_⟩
    rw [List.getElem?_eq_getElem (by rw [Param.fields_length]; exact hi)]
    rfl
  · intro X
    exact prepare_bound F K infos o rate X
  · intro X
    simp only [Object.engine, prepare_bound, Option.map_some', prepare_keeps_inputs]
  · intro v w X h
    rw [htarget, htarget, h]

theorem ports_line_up_witness :
    (DSP.update_parameter_targets demo_infos
      (Object.engine
        { Object.prepare demo_lib demo_components demo_infos demo_object 44100 with
          inputs := demo_object.inputs })).param_targets Param.width
      = clamp (demo_object.inputs Param.width) (info_of demo_infos Param.width).min
          (info_of demo_infos Param.width).max :=
  (ports_line_up demo_lib demo_components demo_infos demo_object 44100).2.2.2.2.2.2.2.1
    demo_object.inputs Param.width

/-! ## Stereo width -/

/-- C15 (as stated, refuted): with the interpolate toggle off (value `0`) the
early diffusers are still pushed with `interpolate = true`, which is not
`(interpolate parameter > 0)`. -/
theorem early_diffuser_ignores_toggle :
    demo_bypass_dsp.params Param.interpolate = 0
    ∧ (Object.early_diffuser_info demo_bypass_dsp).interpolate = true
    ∧ (Object.early_diffuser_info demo_bypass_dsp).interpolate
        ≠ decide (demo_bypass_dsp.params Param.interpolate > 0)
    ∧ (∃ a : ℚ, Call.early_diffuser_push Chan.l a
          { stages := 0, feedback := 0, interpolate := true }
        ∈ (Object.render_sample demo_components.traced demo_bypass_dsp 3 (-5)).comps.2) := by
  have h0 : to_uint32 0 = 0 := by decide
  refine ⟨rfl, rfl, ?_, ?_⟩
  · simp [Object.early_diffuser_info, demo_bypass_dsp]
  · simp [Object.render_sample, Components.call, Components.traced, demo_components,
      Object.early_diffuser_info, demo_bypass_dsp, h0]

/-- C15 (amended): the interpolation flag is a field of the `PushInfo` of both
diffusers, but only the late one follows the toggle.  In every sample each late
network is pushed with `diffuser_info.interpolate = (interpolate parameter > 0)`,
while each early diffuser is pushed with `interpolate = true` whatever the
toggle; so with the toggle off the late diffusers do not interpolate and the
early diffusers still do. -/
theorem interpolate_toggle_late_only {σ : Type} (K : Components σ)
    (d : DSP (σ × List Call)) (x y : ℚ) (hd : d.comps.2 = []) :
    (∀ (ch : Chan) (a : ℚ) (info : LatePushInfo),
        Call.late_rev_push ch a info ∈ (Object.render_sample K.traced d x y).comps.2 →
          info.diffuser_info.interpolate = decide (d.params Param.interpolate > 0))
    ∧ (∀ (ch : Chan) (a : ℚ) (info : DiffuserPushInfo),
        Call.early_diffuser_push ch a info ∈ (Object.render_sample K.traced d x y).comps.2 →
          info.interpolate = true)
    ∧ (∀ ch : Chan, ∃ (a : ℚ) (info : LatePushInfo),
        Call.late_rev_push ch a info ∈ (Object.render_sample K.traced d x y).comps.2)
    ∧ (∀ ch : Chan, ∃ (a : ℚ) (info : DiffuserPushInfo),
        Call.early_diffuser_push ch a info ∈ (Object.render_sample K.traced d x y).comps.2)
    ∧ (¬ d.params Param.interpolate > 0 →
        (∀ (ch : Chan) (a : ℚ) (info : LatePushInfo),
          Call.late_rev_push ch a info ∈ (Object.render_sample K.traced d x y).comps.2 →
            info.diffuser_info.interpolate = false)
        ∧ (∀ (ch : Chan) (a : ℚ) (info : DiffuserPushInfo),
          Call.early_diffuser_push ch a info
              ∈ (Object.render_sample K.traced d x y).comps.2 →
            info.interpolate = true)) := by
  have hlate : ∀ (ch : Chan) (a : ℚ) (info : LatePushInfo),
      Call.late_rev_push ch a info ∈ (Object.render_sample K.traced d x y).comps.2 →
        info.diffuser_info.interpolate = decide (d.params Param.interpolate > 0) := by
    intro ch a info h
    rw [(diffuser_push_calls K d hd x y _ h).2 ch a info rfl]
    rfl
  have hearly : ∀ (ch : Chan) (a : ℚ) (info : DiffuserPushInfo),
      Call.early_diffuser_push ch a info ∈ (Object.render_sample K.traced d x y).comps.2 →
        info.interpolate = true := by
    intro ch a info h
    rw [(diffuser_push_calls K d hd x y _ h).1 ch a info rfl]
    rfl
  refine ⟨hlate, hearly, ?_, ?_, ?_⟩
  · intro ch
    obtain ⟨a, ha⟩ := (diffuser_push_present K d x y ch).2
    exact ⟨a, _, ha⟩
  · intro ch
    obtain ⟨a, ha⟩ := (diffuser_push_present K d x y ch).1
    exact ⟨a, _, ha⟩
  · intro hoff
    refine ⟨?_, hearly⟩
    intro ch a info h
    rw [hlate ch a info h]
    exact decide_eq_false hoff

theorem interpolate_toggle_late_only_witness :
    demo_bypass_dsp.comps.2 = []
    ∧ (∀ (ch : Chan) (a : ℚ) (info : LatePushInfo),
        Call.late_rev_push ch a info
            ∈ (Object.render_sample demo_components.traced demo_bypass_dsp 3 (-5)).comps.2 →
          info.diffuser_info.interpolate = false) :=
  ⟨rfl,
   ((interpolate_toggle_late_only demo_components demo_bypass_dsp 3 (-5) rfl).2.2.2.2
     (by simp [demo_bypass_dsp])).1⟩

end Aether
